import Mathlib

/-!
# go-deepl: endpoints, requests, response classification and error construction

A shallow embedding of `deepl/errors.go`, `deepl/deepl.go`, `deepl/api_type.go`
and `deepl/client.go`.

Conventions of the embedding:

* Go `string` and `[]byte` values are modelled as `String`: the embedding covers
  text that is valid UTF-8.
* Go `int` is modelled as `Int`; where the 64-bit range matters (decoding a JSON
  number into an `int` field) the range check is explicit.
* The package variable `AppendErrPos` is an explicit `Bool` parameter.
* `runtime.Caller` is modelled by the call site itself: every call of `NewErr`
  and `WrapIfErr` passes the base name of the file it is written in and the
  line of the call.
* The package variables `baseURLCustom` and `NameEnvKeyAPI` and the process
  environment are explicit parameters; a function that assigns a package
  variable returns its new value.
* The standard-library functions the package calls (`fmt.Sprintf`, `fmt.Sprint`,
  `encoding/json.Unmarshal`, `path.Join`, `http.NewRequest`, and of `net/url`
  the query values, `Parse` and `URL.String`) are modelled below, each with a
  comment that says which part of the library's behaviour is covered.
* The transport is a parameter: the field `HTTPClient` of a client is the
  function that `Do` computes, from a request to a response or an error. The
  package variable `UserAgent` is a parameter as well, and the context of a
  request is not modelled.
* The two methods of the client are given twice: as functions of the client
  (`Client.GetAccountStatus`, `Client.TranslateSentence`), and with the client
  passed through (`Client.GetAccountStatusRun`, `Client.TranslateSentenceRun`),
  where the statements that assign a variable are explicit steps; the two
  agree on the outcome of a call.
-/

namespace Deepl

/-! ## `fmt`: the operands and verbs the package uses -/

/-- An operand of a variadic `...interface{}` parameter. The package passes
strings and ints. -/
inductive Arg
  | str (s : String)
  | int (n : Int)
deriving DecidableEq, Repr

/-- Go type name of an operand, as `reflect.TypeOf(arg).String()` prints it. -/
def Arg.typeName : Arg → String
  | .str _ => "string"
  | .int _ => "int"

/-- Default (`%v`) rendering of an operand: a string as is, an int in decimal. -/
def Arg.plain : Arg → String
  | .str s => s
  | .int n => toString n

/-- Whether the operand is of string kind. -/
def Arg.isString : Arg → Bool
  | .str _ => true
  | .int _ => false

/-- Rendering of one verb applied to one operand: `%v` for both kinds, `%s` for
a string, `%d` for an int; any other pairing is reported the way `fmt` reports a
bad verb, `%!verb(type=value)`. -/
def fmtVerb (verb : Char) (a : Arg) : List Char :=
  if verb = 'v' then a.plain.data
  else match a with
    | .str s =>
      if verb = 's' then s.data
      else '%' :: '!' :: verb :: '(' :: ("string=".data ++ s.data ++ [')'])
    | .int n =>
      if verb = 'd' then (toString n).data
      else '%' :: '!' :: verb :: '(' :: ("int=".data ++ (toString n).data ++ [')'])

/-- The operands left over when the format is used up, as `fmt` lists them:
`type=value` joined by `", "`. -/
def extraArgs : List Arg → List Char
  | [] => []
  | [a] => a.typeName.data ++ ('=' :: a.plain.data)
  | a :: b :: rest =>
    a.typeName.data ++ ('=' :: a.plain.data) ++ (',' :: ' ' :: extraArgs (b :: rest))

/-- Core of `fmt.Sprintf` over the characters of the format. Covered: literal
text, `%%`, and directives made of `%` directly followed by a verb character
(no flags, width, precision or argument index); a missing operand gives
`%!verb(MISSING)`, a trailing `%` gives `%!(NOVERB)`, and unused operands are
appended as `%!(EXTRA ...)`. A format in which `%` is followed by a flag
(space, `+`, `-`, `#`, `0`), a digit, `.`, `*` or `[` is outside the model:
the library reads these as part of the directive. -/
def sprintfCore : List Char → List Arg → List Char
  | [], [] => []
  | [], a :: args => "%!(EXTRA ".data ++ extraArgs (a :: args) ++ [')']
  | [c], args =>
    if c = '%' then "%!(NOVERB)".data ++ sprintfCore [] args
    else c :: sprintfCore [] args
  | c :: v :: rest, args =>
    if c = '%' then
      if v = '%' then '%' :: sprintfCore rest args
      else match args with
        | [] => '%' :: '!' :: v :: ("(MISSING)".data ++ sprintfCore rest [])
        | a :: args => fmtVerb v a ++ sprintfCore rest args
    else c :: sprintfCore (v :: rest) args

/-- Model of `fmt.Sprintf(format, args...)`. -/
def Sprintf (format : String) (args : List Arg) : String :=
  ⟨sprintfCore format.data args⟩

/-- Core of `fmt.Sprint`: operands in their default rendering, with a space
between two operands when neither is a string. -/
def sprintCore : Bool → List Arg → List Char
  | _, [] => []
  | prevString, a :: rest =>
    (if !a.isString && !prevString then [' '] else []) ++ a.plain.data
      ++ sprintCore a.isString rest

/-- Model of `fmt.Sprint(args...)`. The first operand is never preceded by a
space. -/
def Sprint (args : List Arg) : String :=
  ⟨sprintCore true args⟩

/-! ## `errors.go` -/

/-- Failure reported by `encoding/json.Unmarshal`: the input is not a JSON text
(`*json.SyntaxError`), or a JSON value does not fit the Go type it is stored in
(`*json.UnmarshalTypeError`, with the library's description of the JSON value
and the Go type). -/
inductive JSONError
  | syntaxError
  | unmarshalType (value : String) (goType : String)
deriving DecidableEq, Repr

/-- Text of a JSON failure, abridged: the library's text for a syntax error
names the offending character, and its text for a type mismatch inside a struct
names the field; the embedding leaves both out. No statement below depends on
this text. -/
def JSONError.Error : JSONError → String
  | .syntaxError => "invalid JSON input"
  | .unmarshalType value goType =>
    "json: cannot unmarshal " ++ value ++ " into Go value of type " ++ goType

/-- Error values the package produces: `errors.New` and `errors.Errorf` of
`github.com/pkg/errors` give a `fundamental` error, `errors.Wrap` puts a message
in front of a cause, `fmt.Errorf("%w", err)` adds a layer with the same text,
`json` is a failure of the decoder, and `library` is an error value of another
package (`net/url`, `net/http`, the transport), known by its message. -/
inductive GoError
  | fundamental (msg : String)
  | withMessage (cause : GoError) (msg : String)
  | wrapError (err : GoError)
  | json (e : JSONError)
  | library (msg : String)
deriving DecidableEq, Repr

/-- The method `Error()` of an error value. -/
def GoError.Error : GoError → String
  | .fundamental msg => msg
  | .withMessage cause msg => msg ++ ": " ++ cause.Error
  | .wrapError err => err.Error
  | .json e => e.Error
  | .library msg => msg

/-- Source position of a call: base name of the file and line, which is what
`getErrorPos` keeps of `runtime.Caller`. -/
structure Caller where
  file : String
  line : Nat
deriving DecidableEq, Repr

/-- The function `getErrorPos`: the position suffix, empty when `AppendErrPos`
is false. -/
def getErrorPos (appendErrPos : Bool) (caller : Caller) : String :=
  if !appendErrPos then ""
  else Sprintf " (file: %s, line: %d)" [.str caller.file, .int caller.line]

/-- The function `fmtArgs`. -/
def fmtArgs (inputs : List Arg) : String :=
  match inputs with
  | [] => ""
  | [a] => Sprint [a]
  | .str format :: rest => Sprintf format rest
  | .int n :: rest => Sprint (.int n :: rest)

/-- The function `NewErr`; `none` is the nil error. -/
def NewErr (appendErrPos : Bool) (caller : Caller) (msgs : List Arg) : Option GoError :=
  match msgs with
  | [] => none
  | .int n :: rest =>
    some (.fundamental (fmtArgs (.int n :: rest) ++ getErrorPos appendErrPos caller))
  | [.str fmtErr] => some (.fundamental (fmtErr ++ getErrorPos appendErrPos caller))
  | .str fmtErr :: a :: rest =>
    some (.fundamental (Sprintf (fmtErr ++ getErrorPos appendErrPos caller) (a :: rest)))

/-- The function `WrapIfErr`; `none` is the nil error. -/
def WrapIfErr (appendErrPos : Bool) (caller : Caller) (err : Option GoError)
    (msgs : List Arg) : Option GoError :=
  match err with
  | none => none
  | some e =>
    match msgs with
    | [] => some (.wrapError e)
    | m :: ms =>
      some (.withMessage e (fmtArgs (m :: ms) ++ getErrorPos appendErrPos caller))

/-! ## `encoding/json`: JSON texts -/

/-- A JSON value as the decoder reads it: members of an object in the order of
the text with repeated names kept, a number as its literal text. -/
inductive JSON
  | null
  | bool (b : Bool)
  | num (lit : List Char)
  | str (s : String)
  | arr (elems : List JSON)
  | obj (members : List (String × JSON))

/-- The scanner's limit on the nesting of arrays and objects. -/
def maxNestingDepth : Nat := 10000

/-- White space between JSON tokens. -/
def isSpace (c : Char) : Bool :=
  c = ' ' || c = '\t' || c = '\r' || c = '\n'

/-- Drop leading white space. -/
def skipSpace : List Char → List Char
  | [] => []
  | c :: cs => if isSpace c then skipSpace cs else c :: cs

/-- Decimal digit test. -/
def isDigit (c : Char) : Bool := '0' ≤ c && c ≤ '9'

/-- Value of a hexadecimal digit, by its code point: `0`-`9` are 48 to 57,
`a`-`f` are 97 to 102 and `A`-`F` are 65 to 70. -/
def hexVal (c : Char) : Option Nat :=
  if 48 ≤ c.toNat ∧ c.toNat ≤ 57 then some (c.toNat - 48)
  else if 97 ≤ c.toNat ∧ c.toNat ≤ 102 then some (c.toNat - 87)
  else if 65 ≤ c.toNat ∧ c.toNat ≤ 70 then some (c.toNat - 55)
  else none

/-- Value of the four hexadecimal digits of a `\u` escape. -/
def hex4 (a b c d : Char) : Option Nat :=
  match hexVal a, hexVal b, hexVal c, hexVal d with
  | some x, some y, some z, some w => some (((x * 16 + y) * 16 + z) * 16 + w)
  | _, _, _, _ => none

/-- The low half of a surrogate pair at the head of the input, written as a
`\u` escape. -/
def lowSurrogate : List Char → Option Nat
  | b :: u :: a1 :: a2 :: a3 :: a4 :: _ =>
    if b = '\\' && u = 'u' then
      match hex4 a1 a2 a3 a4 with
      | some lo => if 0xDC00 ≤ lo && lo ≤ 0xDFFF then some lo else none
      | none => none
    else none
  | _ => none

/-- The character a simple escape stands for. -/
def escapeChar (e : Char) : Option Char :=
  if e = '"' then some '"'
  else if e = '\\' then some '\\'
  else if e = '/' then some '/'
  else if e = 'b' then some (Char.ofNat 8)
  else if e = 'f' then some (Char.ofNat 12)
  else if e = 'n' then some '\n'
  else if e = 'r' then some '\r'
  else if e = 't' then some '\t'
  else none

/-- Read an escape after its backslash: the character it stands for and the
number of characters of input it takes (1 for a simple escape, 5 for `uXXXX`,
11 for a surrogate pair `uXXXX\uXXXX`). An unknown escape, or `u` without four
hexadecimal digits, makes the text invalid; half a surrogate pair without its
partner stands for U+FFFD. -/
def parseEscape : List Char → Option (Char × Nat)
  | [] => none
  | e :: rest1 =>
    if e = 'u' then
      match rest1 with
      | a1 :: a2 :: a3 :: a4 :: rest2 =>
        match hex4 a1 a2 a3 a4 with
        | none => none
        | some rr =>
          if 0xD800 ≤ rr && rr ≤ 0xDFFF then
            match (if rr ≤ 0xDBFF then lowSurrogate rest2 else none) with
            | some lo =>
              some (Char.ofNat (0x10000 + (rr - 0xD800) * 0x400 + (lo - 0xDC00)), 11)
            | none => some (Char.ofNat 0xFFFD, 5)
          else some (Char.ofNat rr, 5)
      | _ => none
    else (escapeChar e).map fun x => (x, 1)

/-- Read a string literal after its opening quote: the characters it stands
for and the input after the closing quote. `skip` is the number of characters
still to pass over because they belong to an escape that has been read. A
control character makes the text invalid. -/
def parseStringBody : Nat → List Char → Option (List Char × List Char)
  | _, [] => none
  | skip + 1, _ :: rest => parseStringBody skip rest
  | 0, c :: rest =>
    if c = '"' then some ([], rest)
    else if c = '\\' then
      match parseEscape rest with
      | none => none
      | some (x, n) =>
        (parseStringBody n rest).map fun (p : List Char × List Char) => (x :: p.1, p.2)
    else if c.toNat < 0x20 then none
    else (parseStringBody 0 rest).map fun (p : List Char × List Char) => (c :: p.1, p.2)

/-- Split off the leading decimal digits. -/
def spanDigits : List Char → List Char × List Char
  | [] => ([], [])
  | c :: cs =>
    if isDigit c then ((spanDigits cs).1.cons c, (spanDigits cs).2) else ([], c :: cs)

/-- Integer part of a number literal: `0`, or a non-zero digit followed by
digits. -/
def parseIntPart : List Char → Option (List Char × List Char)
  | [] => none
  | d :: rest =>
    if d = '0' then some (['0'], rest)
    else if isDigit d then some (d :: (spanDigits rest).1, (spanDigits rest).2)
    else none

/-- Optional fraction of a number literal: `.` followed by at least one digit. -/
def parseFrac : List Char → Option (List Char × List Char)
  | [] => some ([], [])
  | c :: rest =>
    if c = '.' then
      if (spanDigits rest).1 = [] then none
      else some ('.' :: (spanDigits rest).1, (spanDigits rest).2)
    else some ([], c :: rest)

/-- Digits of an exponent, after the optional sign: at least one. -/
def parseExpDigits (pre : List Char) (cs : List Char) : Option (List Char × List Char) :=
  if (spanDigits cs).1 = [] then none
  else some (pre ++ (spanDigits cs).1, (spanDigits cs).2)

/-- Optional exponent of a number literal. -/
def parseExp : List Char → Option (List Char × List Char)
  | [] => some ([], [])
  | c :: rest =>
    if c = 'e' || c = 'E' then
      match rest with
      | [] => none
      | s :: rest1 =>
        if s = '+' || s = '-' then parseExpDigits [c, s] rest1
        else parseExpDigits [c] (s :: rest1)
    else some ([], c :: rest)

/-- A number literal at the head of the input (after an optional `-`, given as
`sign`): its text and the input after it. -/
def parseNumber (sign : List Char) (cs : List Char) : Option (List Char × List Char) :=
  match parseIntPart cs with
  | none => none
  | some (ip, r1) =>
    match parseFrac r1 with
    | none => none
    | some (fp, r2) =>
      match parseExp r2 with
      | none => none
      | some (ep, r3) => some (sign ++ ip ++ fp ++ ep, r3)

/-- Drop the given literal text from the head of the input. -/
def dropLiteral : List Char → List Char → Option (List Char)
  | [], cs => some cs
  | _ :: _, [] => none
  | l :: ls, c :: cs => if l = c then dropLiteral ls cs else none

mutual
/-- Read one JSON value at the head of the input (white space already
skipped). `fuel` bounds the recursion and `depth` counts the enclosing arrays
and objects. -/
def parseValue : Nat → Nat → List Char → Option (JSON × List Char)
  | 0, _, _ => none
  | _ + 1, _, [] => none
  | fuel + 1, depth, c :: rest =>
    if c = '{' then
      if maxNestingDepth ≤ depth then none
      else match skipSpace rest with
        | [] => none
        | k :: rest1 =>
          if k = '}' then some (.obj [], rest1)
          else (parseMembers fuel (depth + 1) (k :: rest1)).map
            fun (p : List (String × JSON) × List Char) => (.obj p.1, p.2)
    else if c = '[' then
      if maxNestingDepth ≤ depth then none
      else match skipSpace rest with
        | [] => none
        | k :: rest1 =>
          if k = ']' then some (.arr [], rest1)
          else (parseElems fuel (depth + 1) (k :: rest1)).map
            fun (p : List JSON × List Char) => (.arr p.1, p.2)
    else if c = '"' then
      (parseStringBody 0 rest).map fun (p : List Char × List Char) => (.str ⟨p.1⟩, p.2)
    else if c = 't' then (dropLiteral "rue".data rest).map fun r => (.bool true, r)
    else if c = 'f' then (dropLiteral "alse".data rest).map fun r => (.bool false, r)
    else if c = 'n' then (dropLiteral "ull".data rest).map fun r => (.null, r)
    else if c = '-' then
      (parseNumber ['-'] rest).map fun (p : List Char × List Char) => (.num p.1, p.2)
    else
      (parseNumber [] (c :: rest)).map fun (p : List Char × List Char) => (.num p.1, p.2)
/-- Read the elements of an array, from the first element (white space already
skipped) to the closing bracket. -/
def parseElems : Nat → Nat → List Char → Option (List JSON × List Char)
  | 0, _, _ => none
  | fuel + 1, depth, cs =>
    match parseValue fuel depth cs with
    | none => none
    | some (v, rest) =>
      match skipSpace rest with
      | [] => none
      | k :: rest1 =>
        if k = ',' then
          (parseElems fuel depth (skipSpace rest1)).map
            fun (p : List JSON × List Char) => (v :: p.1, p.2)
        else if k = ']' then some ([v], rest1)
        else none
/-- Read the members of an object, from the first name (white space already
skipped) to the closing brace. -/
def parseMembers : Nat → Nat → List Char → Option (List (String × JSON) × List Char)
  | 0, _, _ => none
  | _ + 1, _, [] => none
  | fuel + 1, depth, q :: cs =>
    if q = '"' then
      match parseStringBody 0 cs with
      | none => none
      | some (key, rest) =>
        match skipSpace rest with
        | [] => none
        | colon :: rest1 =>
          if colon = ':' then
            match parseValue fuel depth (skipSpace rest1) with
            | none => none
            | some (v, rest2) =>
              match skipSpace rest2 with
              | [] => none
              | k :: rest3 =>
                if k = ',' then
                  (parseMembers fuel depth (skipSpace rest3)).map
                    fun (p : List (String × JSON) × List Char) => ((⟨key⟩, v) :: p.1, p.2)
                else if k = '}' then some ([(⟨key⟩, v)], rest3)
                else none
          else none
    else none
end

/-- A body as a JSON text: one value with optional white space around it and
nothing else. `none` when the body is not valid JSON. Every two steps of the
recursion read at least one character, so the fuel is never the reason for
`none` (theorem `parseJSON_of_fuel`). -/
def parseJSON (body : String) : Option JSON :=
  match parseValue (2 * body.length + 2) 0 (skipSpace body.data) with
  | none => none
  | some (v, rest) => if skipSpace rest = [] then some v else none

/-! ## `encoding/json`: storing a JSON value in a Go value -/

/-- First failure wins: `Unmarshal` keeps the earliest type mismatch and goes
on decoding. -/
def firstError (saved new : Option JSONError) : Option JSONError :=
  match saved with
  | some e => some e
  | none => new

/-- Fold of a character of a member name for the case-insensitive match of
names against struct fields: ASCII letters to upper case, and the two letters
outside ASCII that fold to an ASCII letter (U+017F to `S`, U+212A to `K`). The
field names of the package are ASCII, so no other character can match one. -/
def foldRune (c : Char) : Char :=
  if 'a' ≤ c && c ≤ 'z' then Char.ofNat (c.toNat - 32)
  else if c = Char.ofNat 0x17F then 'S'
  else if c = Char.ofNat 0x212A then 'K'
  else c

/-- Whether a member name of a JSON object selects the struct field with the
given `json` tag: equal, or equal under case folding. -/
def fieldMatches (key : String) (tag : String) : Bool :=
  key.data.map foldRune = tag.data.map foldRune

/-- Digits of a literal to a number. -/
def digitsValue (ds : List Char) : Nat :=
  ds.foldl (fun acc c => 10 * acc + (c.toNat - '0'.toNat)) 0

/-- Model of `strconv.ParseInt(lit, 10, 64)` on a JSON number literal: the
literal must be an optional `-` and digits only (no fraction, no exponent) and
its value must fit 64 bits. -/
def parseInt64 (lit : List Char) : Option Int :=
  match lit with
  | [] => none
  | c :: ds =>
    if c = '-' then
      if ds ≠ [] ∧ ds.all isDigit = true ∧ digitsValue ds ≤ 2 ^ 63
      then some (-(digitsValue ds : Int)) else none
    else
      if (c :: ds).all isDigit = true ∧ digitsValue (c :: ds) < 2 ^ 63
      then some (digitsValue (c :: ds) : Int) else none

/-- Store a JSON value in a Go `int`: a number literal that `ParseInt` accepts
is stored, `null` leaves the value as it is, anything else is a type mismatch
and leaves the value as it is. -/
def storeInt (j : JSON) (v : Int) : Int × Option JSONError :=
  match j with
  | .null => (v, none)
  | .num lit =>
    match parseInt64 lit with
    | some n => (n, none)
    | none => (v, some (.unmarshalType ("number " ++ String.mk lit) "int"))
  | .bool _ => (v, some (.unmarshalType "bool" "int"))
  | .str _ => (v, some (.unmarshalType "string" "int"))
  | .arr _ => (v, some (.unmarshalType "array" "int"))
  | .obj _ => (v, some (.unmarshalType "object" "int"))

/-- Store a JSON value in a Go `string`: a string is stored, `null` leaves the
value as it is, anything else is a type mismatch. -/
def storeString (j : JSON) (v : String) : String × Option JSONError :=
  match j with
  | .null => (v, none)
  | .str s => (s, none)
  | .num _ => (v, some (.unmarshalType "number" "string"))
  | .bool _ => (v, some (.unmarshalType "bool" "string"))
  | .arr _ => (v, some (.unmarshalType "array" "string"))
  | .obj _ => (v, some (.unmarshalType "object" "string"))

/-- Store a JSON value in a Go struct, given how one member is stored: the
members of an object are stored one after the other, in the order of the text;
`null` leaves the struct as it is; anything else is a type mismatch. -/
def storeStruct {α : Type} (goType : String)
    (storeMember : String → JSON → α → α × Option JSONError)
    (j : JSON) (v : α) : α × Option JSONError :=
  match j with
  | .null => (v, none)
  | .obj members =>
    members.foldl
      (fun (acc : α × Option JSONError) (m : String × JSON) =>
        ((storeMember m.1 m.2 acc.1).1, firstError acc.2 (storeMember m.1 m.2 acc.1).2))
      (v, none)
  | .num _ => (v, some (.unmarshalType "number" goType))
  | .bool _ => (v, some (.unmarshalType "bool" goType))
  | .str _ => (v, some (.unmarshalType "string" goType))
  | .arr _ => (v, some (.unmarshalType "array" goType))

/-- A Go type that is the target of `json.Unmarshal` in the package: its zero
value and the way a JSON value is stored in a value of the type. -/
class Unmarshal (α : Type) where
  /-- The zero value of the type. -/
  zero : α
  /-- Store a JSON value: the value after the call and the first failure. -/
  store : JSON → α → α × Option JSONError

/-- Model of `json.Unmarshal(body, &target)`: the body is checked to be a JSON
text before anything is stored, so a syntax error leaves the target as it is;
a type mismatch is reported after the rest of the text has been stored. -/
def jsonUnmarshal {α : Type} [Unmarshal α] (body : String) (target : α) :
    α × Option JSONError :=
  match parseJSON body with
  | none => (target, some .syntaxError)
  | some j => Unmarshal.store j target

/-! ## `deepl.go`: types -/

/-- The struct `AccountStatus`. -/
structure AccountStatus where
  CharacterCount : Int
  CharacterLimit : Int
deriving DecidableEq, Repr

/-- The struct `ErrorResponse`. -/
structure ErrorResponse where
  ErrMessage : String
deriving DecidableEq, Repr

/-- One member of a JSON object stored in an `AccountStatus`; a name that
matches no field is skipped. -/
def AccountStatus.storeMember (key : String) (j : JSON) (v : AccountStatus) :
    AccountStatus × Option JSONError :=
  if fieldMatches key "character_count" then
    ({ v with CharacterCount := (storeInt j v.CharacterCount).1 }, (storeInt j v.CharacterCount).2)
  else if fieldMatches key "character_limit" then
    ({ v with CharacterLimit := (storeInt j v.CharacterLimit).1 }, (storeInt j v.CharacterLimit).2)
  else (v, none)

/-- One member of a JSON object stored in an `ErrorResponse`. -/
def ErrorResponse.storeMember (key : String) (j : JSON) (v : ErrorResponse) :
    ErrorResponse × Option JSONError :=
  if fieldMatches key "message" then
    ({ v with ErrMessage := (storeString j v.ErrMessage).1 }, (storeString j v.ErrMessage).2)
  else (v, none)

instance : Unmarshal AccountStatus where
  zero := ⟨0, 0⟩
  store := storeStruct "deepl.AccountStatus" AccountStatus.storeMember

instance : Unmarshal ErrorResponse where
  zero := ⟨""⟩
  store := storeStruct "deepl.ErrorResponse" ErrorResponse.storeMember

/-! ## `deepl.go`: functions -/

/-- The constant `StatusQuotaExceeded`. -/
def StatusQuotaExceeded : Int := 456

/-- The function `decodeBody`: the target after the call and the error. -/
def decodeBody {α : Type} [Unmarshal α] (appendErrPos : Bool) (bodyBytes : String)
    (outStruct : α) : α × Option GoError :=
  match jsonUnmarshal bodyBytes outStruct with
  | (out, some err) =>
    (out, WrapIfErr appendErrPos ⟨"deepl.go", 61⟩ (some (.json err)) [.str "failed to decode json"])
  | (out, none) => (out, none)

/-- First part of `treatBodyAsErr`: the message of the error body, read when the
status is not 200 and the body is not empty; a body that cannot be decoded ends
the call with an error. -/
def captureErrMessage (appendErrPos : Bool) (status : Int) (body : String) :
    Except (Option GoError) String :=
  if status ≠ 200 ∧ body.length ≠ 0 then
    match decodeBody appendErrPos body (Unmarshal.zero : ErrorResponse) with
    | (_, some err) =>
      .error (WrapIfErr appendErrPos ⟨"deepl.go", 111⟩ (some err)
        [.str "failed to decode error response"])
    | (errResp, none) => .ok errResp.ErrMessage
  else .ok ""

/-- The function `treatBodyAsErr`: the target after the call and the returned
error (`none` is the nil error). The call `decodeBody(body, &outStruct)` hands
the decoder the caller's pointer inside the interface value, so what is decoded
is stored in the caller's target. -/
def treatBodyAsErr {α : Type} [Unmarshal α] (appendErrPos : Bool) (status : Int)
    (body : String) (outStruct : α) : α × Option GoError :=
  match captureErrMessage appendErrPos status body with
  | .error err => (outStruct, err)
  | .ok errMessage =>
    if status = 200 then
      ((decodeBody appendErrPos body outStruct).1,
        WrapIfErr appendErrPos ⟨"deepl.go", 121⟩ (decodeBody appendErrPos body outStruct).2
          [.str "failed to parse JSON response"])
    else if status = 400 then
      (outStruct, NewErr appendErrPos ⟨"deepl.go", 123⟩
        [.str "Bad request. Please check the error message and your parameters. Returned message: %s",
          .str errMessage])
    else if status = 401 then
      (outStruct, NewErr appendErrPos ⟨"deepl.go", 128⟩
        [.str "Unauthorized. Please check your API key. Returned message: %s",
          .str errMessage])
    else if status = 403 then
      (outStruct, NewErr appendErrPos ⟨"deepl.go", 133⟩
        [.str "Authorization failed. Please supply a valid auth_key parameter. Returned message: %s",
          .str errMessage])
    else if status = 404 then
      (outStruct, NewErr appendErrPos ⟨"deepl.go", 136⟩
        [.str "Not found. The requested resource clould not be found. Returned message: %s",
          .str errMessage])
    else if status = 413 then
      (outStruct, NewErr appendErrPos ⟨"deepl.go", 139⟩
        [.str "Request entity too large. The entity size exceeds the limit of each request. Returned message: %s",
          .str errMessage])
    else if status = 429 then
      (outStruct, NewErr appendErrPos ⟨"deepl.go", 142⟩
        [.str "Too many requests. Please wait and resend your request. Returned message: %s",
          .str errMessage])
    else if status = StatusQuotaExceeded then
      (outStruct, NewErr appendErrPos ⟨"deepl.go", 145⟩
        [.str "Quota exceeded. The character limit has been reached. Returned message: %s",
          .str errMessage])
    else if status = 503 then
      (outStruct, NewErr appendErrPos ⟨"deepl.go", 148⟩
        [.str "Service currently unavailable. Try again later. Returned message: %s",
          .str errMessage])
    else if 599 ≥ status ∧ status ≥ 500 then
      (outStruct, NewErr appendErrPos ⟨"deepl.go", 153⟩
        [.str "Internal server error. Please try again later. Status code: %d, Returned message: %s",
          .int status, .str errMessage])
    else
      (outStruct, NewErr appendErrPos ⟨"deepl.go", 158⟩
        [.str "Unexpected error. Status code: %d, Returned message: %s",
          .int status, .str errMessage])

/-- An HTTP response as `responseParse` sees it: the status code and the outcome
of reading the body with `ioReadAll`. -/
structure Response where
  StatusCode : Int
  Body : Except GoError String

/-- The function `responseParse`; `none` for `resp` or `outStruct` is a nil
argument. -/
def responseParse {α : Type} [Unmarshal α] (appendErrPos : Bool) (resp : Option Response)
    (outStruct : Option α) : Option α × Option GoError :=
  match resp, outStruct with
  | some r, some out =>
    match r.Body with
    | .error err =>
      (some out, WrapIfErr appendErrPos ⟨"deepl.go", 90⟩ (some err)
        [.str "failed to read response"])
    | .ok bodyBytes =>
      (some (treatBodyAsErr appendErrPos r.StatusCode bodyBytes out).1,
        (treatBodyAsErr appendErrPos r.StatusCode bodyBytes out).2)
  | _, _ => (outStruct, NewErr appendErrPos ⟨"deepl.go", 85⟩ [.str "the input was nil"])

/-- Last step of `Client.GetAccountStatus` (`client.go`, lines 93 to 98): the
response is parsed into a fresh `AccountStatus`; when that fails the result is
nil and the error is wrapped with the label of the step. -/
def accountStatusFromResponse (appendErrPos : Bool) (resp : Response) :
    Option AccountStatus × Option GoError :=
  match responseParse appendErrPos (some resp) (some (Unmarshal.zero : AccountStatus)) with
  | (_, some err) =>
    (none, WrapIfErr appendErrPos ⟨"client.go", 95⟩ (some err)
      [.str "failed to parse response to AccountStatus"])
  | (accountStatusResp, none) => (accountStatusResp, none)

/-- The function `getAPIKey` over an explicit environment: `env name` is the
outcome of `os.LookupEnv(name)`, `none` for a variable that is not set. The
result is the key and the error. -/
def getAPIKey (appendErrPos : Bool) (NameEnvKeyAPI : String) (env : String → Option String) :
    String × Option GoError :=
  match env NameEnvKeyAPI with
  | none =>
    ("", NewErr appendErrPos ⟨"deepl.go", 72⟩
      [.str "env variable for API key not set: %s", .str NameEnvKeyAPI])
  | some apiKey =>
    if apiKey = "" then
      ("", NewErr appendErrPos ⟨"deepl.go", 76⟩
        [.str "env var is set but empty: %s", .str NameEnvKeyAPI])
    else (apiKey, none)

/-! ## `api_type.go` -/

/-- The type `APIType`, an `int`. -/
structure APIType where
  val : Int
deriving DecidableEq, Repr

/-- The constant `APICustom`. -/
def APICustom : APIType := ⟨0⟩

/-- The constant `APIFree`. -/
def APIFree : APIType := ⟨1⟩

/-- The constant `APIPro`. -/
def APIPro : APIType := ⟨2⟩

/-- Initial value of the package variable `baseURLCustom`. -/
def baseURLCustomInit : String := ""

/-- The function `SetCustomURL`: the value of `baseURLCustom` after the call,
given its value before. -/
def SetCustomURL (url : String) (_baseURLCustom : String) : String := url

/-- The method `APIType.BaseURL`, given the value of `baseURLCustom`. -/
def APIType.BaseURL (a : APIType) (baseURLCustom : String) : String :=
  let baseURL :=
    if a = APIPro then "https://api.deepl.com"
    else if a = APIFree then "https://api-free.deepl.com"
    else if a = APICustom then baseURLCustom
    else baseURLCustom
  if baseURLCustom ≠ "" then baseURLCustom else baseURL

/-- The method `APIType.String`. -/
def APIType.String (a : APIType) (baseURLCustom : String) : String :=
  a.BaseURL baseURLCustom

/-! ## Text and bytes -/

/-- UTF-8 bytes of a character. -/
def utf8EncodeChar (c : Char) : List Nat :=
  if c.toNat < 0x80 then [c.toNat]
  else if c.toNat < 0x800 then [0xC0 + c.toNat / 64, 0x80 + c.toNat % 64]
  else if c.toNat < 0x10000 then
    [0xE0 + c.toNat / 4096, 0x80 + c.toNat / 64 % 64, 0x80 + c.toNat % 64]
  else
    [0xF0 + c.toNat / 262144, 0x80 + c.toNat / 4096 % 64, 0x80 + c.toNat / 64 % 64,
      0x80 + c.toNat % 64]

/-- The bytes of a Go string that holds the given text. -/
def utf8Bytes (cs : List Char) : List Nat := cs.flatMap utf8EncodeChar

/-- Whether a byte continues a UTF-8 sequence. -/
def isCont (b : Nat) : Bool := 0x80 ≤ b && b < 0xC0

/-- The character at the head of a byte sequence and the number of bytes it
takes. Bytes that start no UTF-8 sequence give U+FFFD and take one byte: such
strings are outside the text the embedding covers. -/
def utf8DecodeHead : List Nat → Char × Nat
  | [] => (Char.ofNat 0xFFFD, 1)
  | b0 :: rest =>
    if b0 < 0x80 then (Char.ofNat b0, 1)
    else if b0 < 0xC0 then (Char.ofNat 0xFFFD, 1)
    else if b0 < 0xE0 then
      match rest with
      | b1 :: _ =>
        if isCont b1 then (Char.ofNat ((b0 - 0xC0) * 64 + (b1 - 0x80)), 2)
        else (Char.ofNat 0xFFFD, 1)
      | _ => (Char.ofNat 0xFFFD, 1)
    else if b0 < 0xF0 then
      match rest with
      | b1 :: b2 :: _ =>
        if isCont b1 && isCont b2 then
          (Char.ofNat ((b0 - 0xE0) * 4096 + (b1 - 0x80) * 64 + (b2 - 0x80)), 3)
        else (Char.ofNat 0xFFFD, 1)
      | _ => (Char.ofNat 0xFFFD, 1)
    else if b0 < 0xF8 then
      match rest with
      | b1 :: b2 :: b3 :: _ =>
        if isCont b1 && isCont b2 && isCont b3 then
          (Char.ofNat ((b0 - 0xF0) * 262144 + (b1 - 0x80) * 4096 + (b2 - 0x80) * 64
            + (b3 - 0x80)), 4)
        else (Char.ofNat 0xFFFD, 1)
      | _ => (Char.ofNat 0xFFFD, 1)
    else (Char.ofNat 0xFFFD, 1)

/-- The text held by a Go string with the given bytes. `skip` is the number of
bytes still to pass over because they belong to a character already read. -/
def utf8Decode : Nat → List Nat → List Char
  | _, [] => []
  | skip + 1, _ :: bs => utf8Decode skip bs
  | 0, b :: bs =>
    (utf8DecodeHead (b :: bs)).1 :: utf8Decode ((utf8DecodeHead (b :: bs)).2 - 1) bs

/-! ## `net/url`: escaping -/

/-- The escaping modes of `net/url`. -/
inductive Encoding
  | encodePath
  | encodePathSegment
  | encodeHost
  | encodeZone
  | encodeUserPassword
  | encodeQueryComponent
  | encodeFragment
deriving DecidableEq, Repr

/-- ASCII letter or digit, by code. -/
def isAlnumByte (b : Nat) : Bool :=
  (97 ≤ b && b ≤ 122) || (65 ≤ b && b ≤ 90) || (48 ≤ b && b ≤ 57)

/-- The function `shouldEscape` of `net/url`, on the code of a byte. -/
def shouldEscape (b : Nat) (mode : Encoding) : Bool :=
  if isAlnumByte b then false
  else if (mode = .encodeHost ∨ mode = .encodeZone)
      ∧ b ∈ "!$&'()*+,;=:[]<>\"".data.map Char.toNat then false
  else if b ∈ "-_.~".data.map Char.toNat then false
  else if b ∈ "$&+,/:;=?@".data.map Char.toNat then
    match mode with
    | .encodePath => b = '?'.toNat
    | .encodePathSegment => b ∈ "/;,?".data.map Char.toNat
    | .encodeUserPassword => b ∈ "@/?:".data.map Char.toNat
    | .encodeQueryComponent => true
    | .encodeFragment => false
    | _ => true
  else if mode = .encodeFragment ∧ b ∈ "!()*".data.map Char.toNat then false
  else true

/-- Upper-case hexadecimal digit of a value below 16. -/
def upperhex (n : Nat) : Char :=
  if n < 10 then Char.ofNat (48 + n) else Char.ofNat (55 + n)

/-- One byte as `escape` writes it: `+` for a space in a query component, `%XX`
for a byte that must be escaped, the byte itself otherwise. -/
def escapeByte (mode : Encoding) (b : Nat) : List Char :=
  if b = 32 ∧ mode = .encodeQueryComponent then ['+']
  else if shouldEscape b mode then ['%', upperhex (b / 16), upperhex (b % 16)]
  else [Char.ofNat b]

/-- The function `escape` of `net/url`. -/
def escape (s : String) (mode : Encoding) : String :=
  ⟨(utf8Bytes s.data).flatMap (escapeByte mode)⟩

/-- The function `QueryEscape`. -/
def QueryEscape (s : String) : String := escape s .encodeQueryComponent

/-- Value of a hexadecimal digit, `none` for another character (`ishex` and
`unhex` of `net/url`). -/
def unhex (c : Char) : Option Nat :=
  if 48 ≤ c.toNat ∧ c.toNat ≤ 57 then some (c.toNat - 48)
  else if 97 ≤ c.toNat ∧ c.toNat ≤ 102 then some (c.toNat - 87)
  else if 65 ≤ c.toNat ∧ c.toNat ≤ 70 then some (c.toNat - 55)
  else none

/-- Lower-case hexadecimal digit of a value below 16. -/
def lowerhex (n : Nat) : Char :=
  if n < 10 then Char.ofNat (48 + n) else Char.ofNat (87 + n)

/-- One character as `strconv.Quote` writes it. Characters outside ASCII are
taken to be printable and are kept. -/
def quoteChar (c : Char) : List Char :=
  if c = '"' then ['\\', '"']
  else if c = '\\' then ['\\', '\\']
  else if c.toNat = 7 then ['\\', 'a']
  else if c.toNat = 8 then ['\\', 'b']
  else if c.toNat = 12 then ['\\', 'f']
  else if c.toNat = 10 then ['\\', 'n']
  else if c.toNat = 13 then ['\\', 'r']
  else if c.toNat = 9 then ['\\', 't']
  else if c.toNat = 11 then ['\\', 'v']
  else if c.toNat < 0x20 ∨ c.toNat = 0x7f then
    ['\\', 'x', lowerhex (c.toNat / 16), lowerhex (c.toNat % 16)]
  else [c]

/-- The function `strconv.Quote`, also the verb `%q` on a string. -/
def Quote (cs : List Char) : String := ⟨['"'] ++ cs.flatMap quoteChar ++ ['"']⟩

/-- The value `EscapeError` for the escape that starts at a `%`, given the text
after the `%`. The library cuts the quoted text after three bytes, the model
after three characters. -/
def escapeError (cs : List Char) : GoError :=
  .library ("invalid URL escape " ++ Quote ('%' :: cs.take 2))

/-- The byte of a percent escape, from the text after the `%`. Fails with
`EscapeError` when two hexadecimal digits do not follow, in a host for an
escaped ASCII byte other than `%25`, and in a zone for an escaped byte that a
host could not hold. -/
def percentByte (mode : Encoding) (cs : List Char) : Except GoError Nat :=
  match cs with
  | h1 :: h2 :: _ =>
    match unhex h1, unhex h2 with
    | some x, some y =>
      if mode = .encodeHost ∧ x < 8 ∧ ¬ (h1 = '2' ∧ h2 = '5') then .error (escapeError cs)
      else if mode = .encodeZone ∧ ¬ (h1 = '2' ∧ h2 = '5') ∧ x * 16 + y ≠ 32
          ∧ shouldEscape (x * 16 + y) .encodeHost then
        .error (escapeError cs)
      else .ok (x * 16 + y)
    | _, _ => .error (escapeError cs)
  | _ => .error (escapeError cs)

/-- The bytes that `unescape` produces. `skip` is the number of characters
still to pass over because they belong to an escape already read. -/
def unescapeBytes (mode : Encoding) : Nat → List Char → Except GoError (List Nat)
  | _, [] => .ok []
  | skip + 1, _ :: cs => unescapeBytes mode skip cs
  | 0, c :: cs =>
    if c = '%' then
      match percentByte mode cs with
      | .error e => .error e
      | .ok b => (unescapeBytes mode 2 cs).map fun bs => b :: bs
    else if c = '+' then
      (unescapeBytes mode 0 cs).map fun bs =>
        (if mode = .encodeQueryComponent then 32 else 43) :: bs
    else if (mode = .encodeHost ∨ mode = .encodeZone) ∧ c.toNat < 0x80
        ∧ shouldEscape c.toNat .encodeHost then
      .error (.library ("invalid character " ++ Quote [c] ++ " in host name"))
    else (unescapeBytes mode 0 cs).map fun bs => utf8EncodeChar c ++ bs

/-- The function `unescape` of `net/url`. -/
def unescape (s : String) (mode : Encoding) : Except GoError String :=
  (unescapeBytes mode 0 s.data).map fun bs => ⟨utf8Decode 0 bs⟩

/-- The function `QueryUnescape`. -/
def QueryUnescape (s : String) : Except GoError String := unescape s .encodeQueryComponent

/-! ## `net/url`: query values -/

/-- The type `url.Values`: the values of each key in the order they were added.
The order of the keys is immaterial, `Encode` sorts them. -/
abbrev Values := List (String × List String)

/-- The values of a key, `v[key]`. -/
def Values.lookup (v : Values) (key : String) : List String :=
  match v with
  | [] => []
  | (k, vs) :: rest => if k = key then vs else Values.lookup rest key

/-- The method `Values.Add`: `v[key] = append(v[key], value)`. -/
def Values.Add (v : Values) (key value : String) : Values :=
  match v with
  | [] => [(key, [value])]
  | (k, vs) :: rest =>
    if k = key then (k, vs ++ [value]) :: rest else (k, vs) :: Values.Add rest key value

/-- The pieces of a text between occurrences of a separator. -/
def splitChar (sep : Char) : List Char → List (List Char)
  | [] => [[]]
  | c :: cs =>
    if c = sep then [] :: splitChar sep cs
    else
      match splitChar sep cs with
      | [] => [[c]]
      | p :: ps => (c :: p) :: ps

/-- The function `strings.Cut` for a one-character separator: text before and
after the first occurrence, the whole text and nothing if there is none. -/
def cutChar (sep : Char) : List Char → List Char × List Char × Bool
  | [] => ([], [], false)
  | c :: cs =>
    if c = sep then ([], cs, true)
    else ((c :: (cutChar sep cs).1), (cutChar sep cs).2.1, (cutChar sep cs).2.2)

/-- One step of the loop of `parseQuery`, for the piece of the query up to the
next `&`. -/
def parseQueryPiece (acc : Values × Option GoError) (piece : List Char) :
    Values × Option GoError :=
  if ';' ∈ piece then (acc.1, some (.library "invalid semicolon separator in query"))
  else if piece = [] then acc
  else
    match QueryUnescape ⟨(cutChar '=' piece).1⟩ with
    | .error e => (acc.1, if acc.2.isNone then some e else acc.2)
    | .ok key =>
      match QueryUnescape ⟨(cutChar '=' piece).2.1⟩ with
      | .error e => (acc.1, if acc.2.isNone then some e else acc.2)
      | .ok value => (Values.Add acc.1 key value, acc.2)

/-- The function `url.ParseQuery`. -/
def ParseQuery (query : String) : Values × Option GoError :=
  (splitChar '&' query.data).foldl parseQueryPiece ([], none)

/-- Order of Go strings, which compares bytes; on UTF-8 text this is the
lexicographic order of the code points. -/
def ltChars : List Char → List Char → Bool
  | _, [] => false
  | [], _ :: _ => true
  | a :: as, b :: bs => a.toNat < b.toNat || (a.toNat = b.toNat && ltChars as bs)

/-- Insertion of an entry into a list sorted by key. -/
def insertByKey (e : String × List String) : Values → Values
  | [] => [e]
  | x :: xs => if ltChars e.1.data x.1.data then e :: x :: xs else x :: insertByKey e xs

/-- The entries sorted by key, as `Encode` visits them. -/
def sortByKey : Values → Values
  | [] => []
  | e :: es => insertByKey e (sortByKey es)

/-- The method `Values.Encode`: `key=value` pairs with both sides escaped,
sorted by key and separated by `&`. -/
def Values.Encode (v : Values) : String :=
  "&".intercalate
    ((sortByKey v).flatMap fun e => e.2.map fun x => QueryEscape e.1 ++ "=" ++ QueryEscape x)

/-! ## `path` -/

/-- The loop of `path.Clean` over the elements of the path: empty elements and
`.` are dropped, `..` removes the element before it when there is one to
remove, is dropped at the root and is kept otherwise. The stack holds the
output in reverse. -/
def cleanSegments (rooted : Bool) : List (List Char) → List (List Char) → List (List Char)
  | stack, [] => stack.reverse
  | stack, seg :: segs =>
    if seg = [] ∨ seg = ['.'] then cleanSegments rooted stack segs
    else if seg = ['.', '.'] then
      match stack with
      | top :: below =>
        if top ≠ ['.', '.'] then cleanSegments rooted below segs
        else if rooted then cleanSegments rooted stack segs
        else cleanSegments rooted (seg :: stack) segs
      | [] =>
        if rooted then cleanSegments rooted stack segs
        else cleanSegments rooted (seg :: stack) segs
    else cleanSegments rooted (seg :: stack) segs

/-- The function `path.Clean`. -/
def pathClean (p : String) : String :=
  if p = "" then "."
  else
    let rooted := p.data.head? = some '/'
    let out := (if rooted then "/" else "")
      ++ "/".intercalate ((cleanSegments rooted [] (splitChar '/' p.data)).map String.mk)
    if out = "" then "." else out

/-- The elements of `path.Join` put together with slashes, empty ones ignored. -/
def joinRaw : String → List String → String
  | buf, [] => buf
  | buf, e :: es =>
    if buf ≠ "" ∨ e ≠ "" then joinRaw ((if buf ≠ "" then buf ++ "/" else buf) ++ e) es
    else joinRaw buf es

/-- The function `path.Join`. -/
def pathJoin (elem : List String) : String :=
  if elem.all (fun e => e = "") then "" else pathClean (joinRaw "" elem)

/-! ## `net/url`: the type `URL`

The model follows the library as of Go 1.21. -/

/-- The type `url.Userinfo`. -/
structure Userinfo where
  username : String
  password : String
  passwordSet : Bool
deriving DecidableEq, Repr

/-- The type `url.URL`. -/
structure URL where
  Scheme : String := ""
  Opaque : String := ""
  User : Option Userinfo := none
  Host : String := ""
  Path : String := ""
  RawPath : String := ""
  OmitHost : Bool := false
  ForceQuery : Bool := false
  RawQuery : String := ""
  Fragment : String := ""
  RawFragment : String := ""
deriving DecidableEq, Repr

/-- The method `Userinfo.String`, on a pointer that may be nil. -/
def Userinfo.String (u : Option Userinfo) : String :=
  match u with
  | none => ""
  | some ui =>
    escape ui.username .encodeUserPassword
      ++ (if ui.passwordSet then ":" ++ escape ui.password .encodeUserPassword else "")

/-- The function `validEncoded`: no byte of the text needs escaping in the
given mode, the sub-delimiters, brackets and `%` apart. -/
def validEncoded (s : String) (mode : Encoding) : Bool :=
  (utf8Bytes s.data).all fun b =>
    b ∈ "!$&'()*+,;=:@[]%".data.map Char.toNat || !shouldEscape b mode

/-- The method `URL.EscapedPath`. -/
def URL.EscapedPath (u : URL) : String :=
  if u.RawPath ≠ "" ∧ validEncoded u.RawPath .encodePath
      ∧ (unescape u.RawPath .encodePath).toOption = some u.Path then u.RawPath
  else if u.Path = "*" then "*"
  else escape u.Path .encodePath

/-- The method `URL.EscapedFragment`. -/
def URL.EscapedFragment (u : URL) : String :=
  if u.RawFragment ≠ "" ∧ validEncoded u.RawFragment .encodeFragment
      ∧ (unescape u.RawFragment .encodeFragment).toOption = some u.Fragment then u.RawFragment
  else escape u.Fragment .encodeFragment

/-- The part of `URL.String` written for a URL that is not opaque, after the
scheme. `written` tells whether the scheme was written. -/
def URL.hierPart (u : URL) (written : Bool) : String :=
  let authority :=
    if u.Scheme ≠ "" ∨ u.Host ≠ "" ∨ u.User ≠ none then
      if u.OmitHost ∧ u.Host = "" ∧ u.User = none then ""
      else
        (if u.Host ≠ "" ∨ u.Path ≠ "" ∨ u.User ≠ none then "//" else "")
          ++ (if u.User ≠ none then Userinfo.String u.User ++ "@" else "")
          ++ (if u.Host ≠ "" then escape u.Host .encodeHost else "")
    else ""
  let path := u.EscapedPath
  let slash := if path ≠ "" ∧ path.data.head? ≠ some '/' ∧ u.Host ≠ "" then "/" else ""
  let dot :=
    if written = false ∧ authority = "" ∧ slash = "" ∧ ':' ∈ (cutChar '/' path.data).1 then "./"
    else ""
  authority ++ slash ++ dot ++ path

/-- The method `URL.Query`: the parsed query, malformed pairs dropped. -/
def URL.Query (u : URL) : Values := (ParseQuery u.RawQuery).1

/-- The method `URL.setPath`. -/
def URL.setPath (u : URL) (p : String) : Except GoError URL :=
  match unescape p .encodePath with
  | .error e => .error e
  | .ok path =>
    .ok { u with Path := path, RawPath := if p = escape path .encodePath then "" else p }

/-- The method `URL.setFragment`. -/
def URL.setFragment (u : URL) (f : String) : Except GoError URL :=
  match unescape f .encodeFragment with
  | .error e => .error e
  | .ok frag =>
    .ok { u with
      Fragment := frag, RawFragment := if f = escape frag .encodeFragment then "" else f }

/-- The method `URL.String`. -/
def URL.String (u : URL) : String :=
  (if u.Scheme ≠ "" then u.Scheme ++ ":" else "")
    ++ (if u.Opaque ≠ "" then u.Opaque else u.hierPart (u.Scheme ≠ ""))
    ++ (if u.ForceQuery ∨ u.RawQuery ≠ "" then "?" ++ u.RawQuery else "")
    ++ (if u.Fragment ≠ "" then "#" ++ u.EscapedFragment else "")

/-! ## `net/url`: parsing -/

/-- The function `stringContainsCTLByte`: some byte is below space or is DEL. -/
def stringContainsCTLByte (s : List Char) : Bool :=
  s.any fun c => c.toNat < 0x20 || c.toNat = 0x7f

/-- ASCII letter. -/
def isLetter (c : Char) : Bool :=
  (97 ≤ c.toNat && c.toNat ≤ 122) || (65 ≤ c.toNat && c.toNat ≤ 90)

/-- ASCII digit. -/
def isDigitChar (c : Char) : Bool := 48 ≤ c.toNat && c.toNat ≤ 57

/-- The loop of `getScheme`: `i` is the index of the character looked at. -/
def getSchemeLoop (rawURL : List Char) : Nat → List Char →
    Except GoError (List Char × List Char)
  | _, [] => .ok ([], rawURL)
  | i, c :: cs =>
    if isLetter c then getSchemeLoop rawURL (i + 1) cs
    else if isDigitChar c ∨ c = '+' ∨ c = '-' ∨ c = '.' then
      if i = 0 then .ok ([], rawURL) else getSchemeLoop rawURL (i + 1) cs
    else if c = ':' then
      if i = 0 then .error (.library "missing protocol scheme")
      else .ok (rawURL.take i, cs)
    else .ok ([], rawURL)

/-- The function `getScheme`: the scheme and the text after its colon, or no
scheme and the whole text. -/
def getScheme (rawURL : List Char) : Except GoError (List Char × List Char) :=
  getSchemeLoop rawURL 0 rawURL

/-- Lower case of the ASCII letters, which is `strings.ToLower` on a scheme. -/
def toLowerASCII (cs : List Char) : List Char :=
  cs.map fun c => if 65 ≤ c.toNat ∧ c.toNat ≤ 90 then Char.ofNat (c.toNat + 32) else c

/-- Index of the last occurrence of a character (`strings.LastIndex`). -/
def lastIndexChar (sep : Char) (cs : List Char) : Option Nat :=
  (cs.reverse.findIdx? fun c => c = sep).map fun j => cs.length - 1 - j

/-- Index of the first occurrence of a text (`strings.Index`). -/
def indexOfSub (pat : List Char) : List Char → Option Nat
  | [] => if pat = [] then some 0 else none
  | c :: cs =>
    if pat.isPrefixOf (c :: cs) then some 0 else (indexOfSub pat cs).map fun i => i + 1

/-- The function `validUserinfo`. -/
def validUserinfo (s : List Char) : Bool :=
  s.all fun r => isLetter r || isDigitChar r || r ∈ "-._:~!$&'()*+,;=%@".data

/-- The function `validOptionalPort`: empty, or a colon and digits. -/
def validOptionalPort (port : List Char) : Bool :=
  match port with
  | [] => true
  | c :: rest => c = ':' && rest.all isDigitChar

/-- The error of `parseHost` for a malformed port. -/
def invalidPort (colonPort : List Char) : GoError :=
  .library ("invalid port " ++ Quote colonPort ++ " after host")

/-- The branch of `parseHost` for a host with an IPv6 zone, which starts at
index `zone` and ends before the bracket at index `i`. -/
def parseHostZone (host : List Char) (i zone : Nat) : Except GoError String :=
  match unescape ⟨host.take zone⟩ .encodeHost with
  | .error e => .error e
  | .ok host1 =>
    match unescape ⟨(host.take i).drop zone⟩ .encodeZone with
    | .error e => .error e
    | .ok host2 =>
      match unescape ⟨host.drop i⟩ .encodeHost with
      | .error e => .error e
      | .ok host3 => .ok (host1 ++ host2 ++ host3)

/-- The function `parseHost`. -/
def parseHost (host : List Char) : Except GoError String :=
  if host.head? = some '[' then
    match lastIndexChar ']' host with
    | none => .error (.library "missing ']' in host")
    | some i =>
      if validOptionalPort (host.drop (i + 1)) = false then .error (invalidPort (host.drop (i + 1)))
      else
        match indexOfSub "%25".data (host.take i) with
        | some zone => parseHostZone host i zone
        | none => unescape ⟨host⟩ .encodeHost
  else
    match lastIndexChar ':' host with
    | some i =>
      if validOptionalPort (host.drop i) = false then .error (invalidPort (host.drop i))
      else unescape ⟨host⟩ .encodeHost
    | none => unescape ⟨host⟩ .encodeHost

/-- The user part of `parseAuthority`, for the text before the last `@`. -/
def parseUserinfo (userinfo : List Char) : Except GoError Userinfo :=
  if validUserinfo userinfo = false then .error (.library "net/url: invalid userinfo")
  else if ':' ∉ userinfo then
    match unescape ⟨userinfo⟩ .encodeUserPassword with
    | .error e => .error e
    | .ok username => .ok ⟨username, "", false⟩
  else
    match unescape ⟨(cutChar ':' userinfo).1⟩ .encodeUserPassword with
    | .error e => .error e
    | .ok username =>
      match unescape ⟨(cutChar ':' userinfo).2.1⟩ .encodeUserPassword with
      | .error e => .error e
      | .ok password => .ok ⟨username, password, true⟩

/-- The function `parseAuthority`. -/
def parseAuthority (authority : List Char) : Except GoError (Option Userinfo × String) :=
  match lastIndexChar '@' authority with
  | none =>
    match parseHost authority with
    | .error e => .error e
    | .ok host => .ok (none, host)
  | some i =>
    match parseHost (authority.drop (i + 1)) with
    | .error e => .error e
    | .ok host =>
      match parseUserinfo (authority.take i) with
      | .error e => .error e
      | .ok user => .ok (some user, host)

/-- The part of `parse` after the scheme and the query are split off: `url`
holds what was found so far and `rest` what is left of the text. -/
def parseRest (url : URL) (rest : List Char) (viaRequest : Bool) : Except GoError URL :=
  if rest.head? ≠ some '/' ∧ url.Scheme ≠ "" then .ok { url with Opaque := ⟨rest⟩ }
  else if rest.head? ≠ some '/' ∧ viaRequest then .error (.library "invalid URI for request")
  else if rest.head? ≠ some '/' ∧ ':' ∈ (cutChar '/' rest).1 then
    .error (.library "first path segment in URL cannot contain colon")
  else if (url.Scheme ≠ "" ∨ (viaRequest = false ∧ "///".data.isPrefixOf rest = false))
      ∧ "//".data.isPrefixOf rest then
    match parseAuthority (cutChar '/' (rest.drop 2)).1 with
    | .error e => .error e
    | .ok (user, host) =>
      URL.setPath { url with User := user, Host := host }
        ⟨if (cutChar '/' (rest.drop 2)).2.2 then '/' :: (cutChar '/' (rest.drop 2)).2.1 else []⟩
  else if url.Scheme ≠ "" ∧ rest.head? = some '/' then
    URL.setPath { url with OmitHost := true } ⟨rest⟩
  else URL.setPath url ⟨rest⟩

/-- The function `parse` of `net/url`. -/
def parse (rawURL : List Char) (viaRequest : Bool) : Except GoError URL :=
  if stringContainsCTLByte rawURL then
    .error (.library "net/url: invalid control character in URL")
  else if rawURL = [] ∧ viaRequest then .error (.library "empty url")
  else if rawURL = ['*'] then .ok { Path := "*" }
  else
    match getScheme rawURL with
    | .error e => .error e
    | .ok (scheme, rest) =>
      if rest.getLast? = some '?' ∧ rest.count '?' = 1 then
        parseRest { Scheme := ⟨toLowerASCII scheme⟩, ForceQuery := true } rest.dropLast viaRequest
      else
        parseRest { Scheme := ⟨toLowerASCII scheme⟩, RawQuery := ⟨(cutChar '?' rest).2.1⟩ }
          (cutChar '?' rest).1 viaRequest

/-- The value `url.Error` of a failed parse, by its message. -/
def parseError (url : List Char) (err : GoError) : GoError :=
  .library ("parse " ++ Quote url ++ ": " ++ err.Error)

/-- The function `url.Parse`. -/
def Parse (rawURL : String) : Except GoError URL :=
  match parse (cutChar '#' rawURL.data).1 false with
  | .error e => .error (parseError (cutChar '#' rawURL.data).1 e)
  | .ok url =>
    if (cutChar '#' rawURL.data).2.1 = [] then .ok url
    else
      match url.setFragment ⟨(cutChar '#' rawURL.data).2.1⟩ with
      | .error e => .error (parseError rawURL.data e)
      | .ok u => .ok u

/-! ## `deepl.go`: the translate response -/

/-- The struct `translation`. -/
structure translation where
  DetectedSourceLanguage : String
  Text : String
deriving DecidableEq, Repr

/-- The struct `TranslateResponse`. The slice is modelled by the list of its
elements: capacity is not modelled, and a nil slice and an empty one are both
the empty list. -/
structure TranslateResponse where
  Translations : List translation
deriving DecidableEq, Repr

/-- The elements of a JSON array stored in a slice: element `i` of the array is
decoded into element `i` of the slice when the slice has one, into a zero value
otherwise, and the slice ends up as long as the array. -/
def storeElems {α : Type} (zero : α) (store : JSON → α → α × Option JSONError) :
    List JSON → List α → List α × Option JSONError
  | [], _ => ([], none)
  | j :: js, [] =>
    ((store j zero).1 :: (storeElems zero store js []).1,
      firstError (store j zero).2 (storeElems zero store js []).2)
  | j :: js, x :: xs =>
    ((store j x).1 :: (storeElems zero store js xs).1,
      firstError (store j x).2 (storeElems zero store js xs).2)

/-- Store a JSON value in a Go slice: an array element by element, `null` as
the nil slice, anything else is a type mismatch. -/
def storeSlice {α : Type} (goType : String) (zero : α)
    (store : JSON → α → α × Option JSONError) (j : JSON) (v : List α) :
    List α × Option JSONError :=
  match j with
  | .null => ([], none)
  | .arr elems => storeElems zero store elems v
  | .num _ => (v, some (.unmarshalType "number" goType))
  | .bool _ => (v, some (.unmarshalType "bool" goType))
  | .str _ => (v, some (.unmarshalType "string" goType))
  | .obj _ => (v, some (.unmarshalType "object" goType))

/-- One member of a JSON object stored in a `translation`. -/
def translation.storeMember (key : String) (j : JSON) (v : translation) :
    translation × Option JSONError :=
  if fieldMatches key "detected_source_language" then
    ({ v with DetectedSourceLanguage := (storeString j v.DetectedSourceLanguage).1 },
      (storeString j v.DetectedSourceLanguage).2)
  else if fieldMatches key "text" then
    ({ v with Text := (storeString j v.Text).1 }, (storeString j v.Text).2)
  else (v, none)

instance : Unmarshal translation where
  zero := ⟨"", ""⟩
  store := storeStruct "deepl.translation" translation.storeMember

/-- One member of a JSON object stored in a `TranslateResponse`. -/
def TranslateResponse.storeMember (key : String) (j : JSON) (v : TranslateResponse) :
    TranslateResponse × Option JSONError :=
  if fieldMatches key "translations" then
    ({ v with
        Translations :=
          (storeSlice "[]deepl.translation" (Unmarshal.zero : translation) Unmarshal.store j
            v.Translations).1 },
      (storeSlice "[]deepl.translation" (Unmarshal.zero : translation) Unmarshal.store j
        v.Translations).2)
  else (v, none)

instance : Unmarshal TranslateResponse where
  zero := ⟨[]⟩
  store := storeStruct "deepl.TranslateResponse" TranslateResponse.storeMember

/-! ## `net/http`: requests -/

/-- The fields of `http.Request` that the package sets or that `NewRequest`
derives from its arguments. -/
structure Request where
  Method : String
  URL : URL
  Header : List (String × String)
  Body : Option String
  Host : String
deriving DecidableEq, Repr

/-- The function `validMethod`: a non-empty token. -/
def validMethod (method : String) : Bool :=
  method.data ≠ [] && method.data.all fun c =>
    isLetter c || isDigitChar c
      || c.toNat ∈ [33, 35, 36, 37, 38, 39, 42, 43, 45, 46, 94, 95, 96, 124, 126]

/-- Index of the last occurrence of a character, `-1` when there is none. -/
def lastIndexInt (sep : Char) (cs : List Char) : Int :=
  match lastIndexChar sep cs with
  | some i => i
  | none => -1

/-- The function `hasPort`: a colon after the last closing bracket. -/
def hasPort (s : String) : Bool :=
  decide (lastIndexInt ']' s.data < lastIndexInt ':' s.data)

/-- The function `removeEmptyPort`: a host that ends in the colon of an empty
port loses the colon. -/
def removeEmptyPort (host : String) : String :=
  if hasPort host ∧ host.data.getLast? = some ':' then ⟨host.data.dropLast⟩ else host

/-- The function `http.NewRequest`. The context of the request is not modelled. -/
def NewRequest (method url : String) (body : Option String) : Except GoError Request :=
  if validMethod (if method = "" then "GET" else method) = false then
    .error (.library ("net/http: invalid method " ++ Quote method.data))
  else
    match Parse url with
    | .error err => .error err
    | .ok u =>
      .ok {
        Method := if method = "" then "GET" else method
        URL := { u with Host := removeEmptyPort u.Host }
        Header := []
        Body := body
        Host := removeEmptyPort u.Host }

/-- The method `Header.Set`, for a key in canonical form. -/
def headerSet (h : List (String × String)) (key value : String) : List (String × String) :=
  match h with
  | [] => [(key, value)]
  | (k, v) :: rest => if k = key then (k, value) :: rest else (k, v) :: headerSet rest key value

/-! ## `client.go` -/

/-- A `log.Logger`, by the arguments of `log.New`. -/
structure Logger where
  out : String
  label : String
  flag : Nat
deriving DecidableEq, Repr

/-- The struct `Client`. The HTTP client is given by its method `Do`: the
response, or the error of the transport. -/
structure Client where
  BaseURL : URL
  HTTPClient : Request → Except GoError Response
  Logger : Logger

/-- Outcome of a call of the facade: the two results of the Go function and the
requests it handed to `HTTPClient.Do`. -/
structure Call (α : Type) where
  result : Option α
  err : Option GoError
  sent : List Request

/-- The function `New`. `defaultClient` is `http.DefaultClient`, and `none` for
the logger is nil. -/
def New (appendErrPos : Bool) (baseURLCustom : String)
    (defaultClient : Request → Except GoError Response)
    (apiType : APIType) (logger : Option Logger) : Option Client × Option GoError :=
  match Parse (apiType.BaseURL baseURLCustom) with
  | .error err =>
    (none, WrapIfErr appendErrPos ⟨"client.go", 35⟩ (some err) [.str "failed to parse URL"])
  | .ok baseURL =>
    (some ⟨baseURL, defaultClient, logger.getD ⟨"os.Stderr", "[Log]", 3⟩⟩, none)

/-- The request URL of `GetAccountStatus` (`client.go`, lines 63 to 71). -/
def accountStatusURL (baseURL : URL) (apiKey : String) : URL :=
  let reqURL := { baseURL with Path := pathJoin [baseURL.Path, "v2", "usage"] }
  { reqURL with RawQuery := Values.Encode (Values.Add reqURL.Query "auth_key" apiKey) }

/-- The request URL of `TranslateSentence` (`client.go`, lines 114 to 125). -/
def translateURL (baseURL : URL) (apiKey text sourceLang targetLang : String) : URL :=
  let reqURL := { baseURL with Path := pathJoin [baseURL.Path, "v2", "translate"] }
  { reqURL with
    RawQuery :=
      Values.Encode
        (Values.Add
          (Values.Add (Values.Add (Values.Add reqURL.Query "auth_key" apiKey) "text" text)
            "target_lang" targetLang)
          "source_lang" sourceLang) }

/-- Last step of `Client.TranslateSentence` (`client.go`, lines 147 to 152). -/
def translateResponseFromResponse (appendErrPos : Bool) (resp : Response) :
    Option TranslateResponse × Option GoError :=
  match responseParse appendErrPos (some resp) (some (Unmarshal.zero : TranslateResponse)) with
  | (_, some err) =>
    (none, WrapIfErr appendErrPos ⟨"client.go", 149⟩ (some err)
      [.str "failed to parse response to TranslateResponse"])
  | (transResp, none) => (transResp, none)

/-- The method `Client.GetAccountStatus`. The package variables `NameEnvKeyAPI`
and `UserAgent` and the environment are parameters. -/
def Client.GetAccountStatus (c : Client) (appendErrPos : Bool) (NameEnvKeyAPI UserAgent : String)
    (env : String → Option String) : Call AccountStatus :=
  match getAPIKey appendErrPos NameEnvKeyAPI env with
  | (_, some err) =>
    ⟨none, WrapIfErr appendErrPos ⟨"client.go", 59⟩ (some err) [.str "failed to get API key"], []⟩
  | (apiKey, none) =>
    match NewRequest "POST" (accountStatusURL c.BaseURL apiKey).String none with
    | .error err =>
      ⟨none,
        WrapIfErr appendErrPos ⟨"client.go", 76⟩ (some err) [.str "failed to create request"], []⟩
    | .ok req =>
      match c.HTTPClient { req with Header := headerSet req.Header "User-Agent" UserAgent } with
      | .error err =>
        ⟨none,
          WrapIfErr appendErrPos ⟨"client.go", 88⟩ (some err) [.str "failed to send http request"],
          [{ req with Header := headerSet req.Header "User-Agent" UserAgent }]⟩
      | .ok resp =>
        ⟨(accountStatusFromResponse appendErrPos resp).1,
          (accountStatusFromResponse appendErrPos resp).2,
          [{ req with Header := headerSet req.Header "User-Agent" UserAgent }]⟩

/-- The method `Client.TranslateSentence`. -/
def Client.TranslateSentence (c : Client) (appendErrPos : Bool)
    (NameEnvKeyAPI UserAgent : String) (env : String → Option String)
    (text sourceLang targetLang : String) : Call TranslateResponse :=
  match getAPIKey appendErrPos NameEnvKeyAPI env with
  | (_, some err) =>
    ⟨none, WrapIfErr appendErrPos ⟨"client.go", 110⟩ (some err) [.str "failed to get API key"], []⟩
  | (apiKey, none) =>
    match NewRequest "POST" (translateURL c.BaseURL apiKey text sourceLang targetLang).String
        none with
    | .error err =>
      ⟨none,
        WrapIfErr appendErrPos ⟨"client.go", 130⟩ (some err) [.str "failed to create request"], []⟩
    | .ok req =>
      match c.HTTPClient { req with Header := headerSet req.Header "User-Agent" UserAgent } with
      | .error err =>
        ⟨none,
          WrapIfErr appendErrPos ⟨"client.go", 142⟩ (some err)
            [.str "failed to send http request"],
          [{ req with Header := headerSet req.Header "User-Agent" UserAgent }]⟩
      | .ok resp =>
        ⟨(translateResponseFromResponse appendErrPos resp).1,
          (translateResponseFromResponse appendErrPos resp).2,
          [{ req with Header := headerSet req.Header "User-Agent" UserAgent }]⟩

/-! ## `client.go`: the methods as steps on the variables they assign

The methods have a pointer receiver, so they could write to the client. Here
the statements of `GetAccountStatus` and `TranslateSentence` that assign a
variable are steps on the two variables in reach: the client behind the
receiver, with the URL behind its field `BaseURL`, and the local variable
`reqURL`. The calls in between (`reqURL.Query`, `Values.Add`, `Values.Encode`,
`reqURL.String`, `http.NewRequest`, `HTTPClient.Do`, `responseParse`) read
their arguments and assign neither variable. -/

/-- The variables of a call: the client behind the receiver `c` and the local
variable `reqURL`. -/
structure Vars where
  c : Client
  reqURL : URL

/-- The statement `reqURL := *c.BaseURL`: the local variable is a copy of the
URL of the client. -/
def declareReqURL (c : Client) : Vars := ⟨c, c.BaseURL⟩

/-- The statement `reqURL.Path = p`. -/
def Vars.assignPath (v : Vars) (p : String) : Vars :=
  { v with reqURL := { v.reqURL with Path := p } }

/-- The statement `reqURL.RawQuery = q`. -/
def Vars.assignRawQuery (v : Vars) (q : String) : Vars :=
  { v with reqURL := { v.reqURL with RawQuery := q } }

/-- Lines 63 to 71 of `client.go`, statement by statement. -/
def accountStatusVars (c : Client) (apiKey : String) : Vars :=
  let v := declareReqURL c
  let v := v.assignPath (pathJoin [v.reqURL.Path, "v2", "usage"])
  v.assignRawQuery (Values.Encode (Values.Add v.reqURL.Query "auth_key" apiKey))

/-- Lines 114 to 125 of `client.go`, statement by statement. -/
def translateVars (c : Client) (apiKey text sourceLang targetLang : String) : Vars :=
  let v := declareReqURL c
  let v := v.assignPath (pathJoin [v.reqURL.Path, "v2", "translate"])
  v.assignRawQuery
    (Values.Encode
      (Values.Add
        (Values.Add (Values.Add (Values.Add v.reqURL.Query "auth_key" apiKey) "text" text)
          "target_lang" targetLang)
        "source_lang" sourceLang))

/-- The method `Client.GetAccountStatus` with the client passed through: the
outcome of the call and the client as it is when the method returns. -/
def Client.GetAccountStatusRun (c : Client) (appendErrPos : Bool)
    (NameEnvKeyAPI UserAgent : String) (env : String → Option String) :
    Call AccountStatus × Client :=
  match getAPIKey appendErrPos NameEnvKeyAPI env with
  | (_, some err) =>
    (⟨none, WrapIfErr appendErrPos ⟨"client.go", 59⟩ (some err) [.str "failed to get API key"],
      []⟩, c)
  | (apiKey, none) =>
    match NewRequest "POST" (accountStatusVars c apiKey).reqURL.String none with
    | .error err =>
      (⟨none,
        WrapIfErr appendErrPos ⟨"client.go", 76⟩ (some err) [.str "failed to create request"],
        []⟩, (accountStatusVars c apiKey).c)
    | .ok req =>
      match (accountStatusVars c apiKey).c.HTTPClient
          { req with Header := headerSet req.Header "User-Agent" UserAgent } with
      | .error err =>
        (⟨none,
          WrapIfErr appendErrPos ⟨"client.go", 88⟩ (some err)
            [.str "failed to send http request"],
          [{ req with Header := headerSet req.Header "User-Agent" UserAgent }]⟩,
          (accountStatusVars c apiKey).c)
      | .ok resp =>
        (⟨(accountStatusFromResponse appendErrPos resp).1,
          (accountStatusFromResponse appendErrPos resp).2,
          [{ req with Header := headerSet req.Header "User-Agent" UserAgent }]⟩,
          (accountStatusVars c apiKey).c)

/-- The method `Client.TranslateSentence` with the client passed through. -/
def Client.TranslateSentenceRun (c : Client) (appendErrPos : Bool)
    (NameEnvKeyAPI UserAgent : String) (env : String → Option String)
    (text sourceLang targetLang : String) : Call TranslateResponse × Client :=
  match getAPIKey appendErrPos NameEnvKeyAPI env with
  | (_, some err) =>
    (⟨none, WrapIfErr appendErrPos ⟨"client.go", 110⟩ (some err) [.str "failed to get API key"],
      []⟩, c)
  | (apiKey, none) =>
    match NewRequest "POST"
        (translateVars c apiKey text sourceLang targetLang).reqURL.String none with
    | .error err =>
      (⟨none,
        WrapIfErr appendErrPos ⟨"client.go", 130⟩ (some err) [.str "failed to create request"],
        []⟩, (translateVars c apiKey text sourceLang targetLang).c)
    | .ok req =>
      match (translateVars c apiKey text sourceLang targetLang).c.HTTPClient
          { req with Header := headerSet req.Header "User-Agent" UserAgent } with
      | .error err =>
        (⟨none,
          WrapIfErr appendErrPos ⟨"client.go", 142⟩ (some err)
            [.str "failed to send http request"],
          [{ req with Header := headerSet req.Header "User-Agent" UserAgent }]⟩,
          (translateVars c apiKey text sourceLang targetLang).c)
      | .ok resp =>
        (⟨(translateResponseFromResponse appendErrPos resp).1,
          (translateResponseFromResponse appendErrPos resp).2,
          [{ req with Header := headerSet req.Header "User-Agent" UserAgent }]⟩,
          (translateVars c apiKey text sourceLang targetLang).c)

/-! ## Specification side: the message table and the predicates of the claims -/

/-- The returned error is not nil and its message starts with `p`. -/
def errorStartsWith (r : Option GoError) (p : String) : Prop :=
  match r with
  | none => False
  | some e => p.data <+: e.Error.data

/-- The returned error is not nil and its message contains `sub`. -/
def errorContains (r : Option GoError) (sub : String) : Prop :=
  match r with
  | none => False
  | some e => sub.data <:+: e.Error.data

instance (r : Option GoError) (p : String) : Decidable (errorStartsWith r p) := by
  unfold errorStartsWith
  cases r <;> infer_instance

instance (r : Option GoError) (sub : String) : Decidable (errorContains r sub) := by
  unfold errorContains
  cases r <;> infer_instance

/-- The message table of the specification (section 4.4, step 3), with `{msg}`
and `{status}` filled in. Written from the words of the specification, not from
the code. -/
def specMessage (status : Int) (msg : String) : String :=
  if status = 400 then
    "Bad request. Please check the error message and your parameters. Returned message: " ++ msg
  else if status = 401 then
    "Unauthorized. Please check your API key. Returned message: " ++ msg
  else if status = 403 then
    "Authorization failed. Please supply a valid auth_key parameter. Returned message: " ++ msg
  else if status = 404 then
    "Not found. The requested resource could not be found. Returned message: " ++ msg
  else if status = 413 then
    "Request entity too large. The entity size exceeds the limit of each request. Returned message: "
      ++ msg
  else if status = 429 then
    "Too many requests. Please wait and resend your request. Returned message: " ++ msg
  else if status = 456 then
    "Quota exceeded. The character limit has been reached. Returned message: " ++ msg
  else if status = 503 then
    "Service currently unavailable. Try again later. Returned message: " ++ msg
  else if 500 ≤ status ∧ status ≤ 599 then
    "Internal server error. Please try again later. Status code: " ++ toString status
      ++ ", Returned message: " ++ msg
  else
    "Unexpected error. Status code: " ++ toString status ++ ", Returned message: " ++ msg

/-- The body of a successful usage response: the JSON object with the two
counters in decimal, laid out as in the package's test. -/
def accountStatusBody (c l : Nat) : String :=
  "\x7b\"character_count\": " ++ toString c ++ ", \"character_limit\": " ++ toString l ++ "\x7d"

/-- A call of the facade failed at the stage with the given label: the result
is nil and the error is the cause with the label, followed by the position
suffix, put in front; so the message starts with the label and contains the
message of the cause. -/
def StageFailure {α : Type} (call : Call α) (cause : GoError) (label pos : String) : Prop :=
  call.result = none
    ∧ call.err = some (.withMessage cause (label ++ pos))
    ∧ errorStartsWith call.err label
    ∧ errorContains call.err label
    ∧ errorContains call.err cause.Error

/-- A JSON value is an object with the string members `detected_source_language`
and `text`, in either order, and `t` holds their values. -/
def IsTranslationJSON (j : JSON) (t : translation) : Prop :=
  j = .obj [("detected_source_language", .str t.DetectedSourceLanguage), ("text", .str t.Text)]
    ∨ j = .obj [("text", .str t.Text),
        ("detected_source_language", .str t.DetectedSourceLanguage)]

/-- The message the code builds for a status other than 200, as a function of
the status and of the message read from the body (a restatement of the `switch`
of `treatBodyAsErr`, used to state the lemmas below). -/
def codeMessage (status : Int) (msg : String) : String :=
  if status = 400 then
    "Bad request. Please check the error message and your parameters. Returned message: " ++ msg
  else if status = 401 then
    "Unauthorized. Please check your API key. Returned message: " ++ msg
  else if status = 403 then
    "Authorization failed. Please supply a valid auth_key parameter. Returned message: " ++ msg
  else if status = 404 then
    "Not found. The requested resource clould not be found. Returned message: " ++ msg
  else if status = 413 then
    "Request entity too large. The entity size exceeds the limit of each request. Returned message: "
      ++ msg
  else if status = 429 then
    "Too many requests. Please wait and resend your request. Returned message: " ++ msg
  else if status = 456 then
    "Quota exceeded. The character limit has been reached. Returned message: " ++ msg
  else if status = 503 then
    "Service currently unavailable. Try again later. Returned message: " ++ msg
  else if 500 ≤ status ∧ status ≤ 599 then
    "Internal server error. Please try again later. Status code: " ++ toString status
      ++ ", Returned message: " ++ msg
  else
    "Unexpected error. Status code: " ++ toString status ++ ", Returned message: " ++ msg

/-- Line of `deepl.go` of the `NewErr` call that serves a status. -/
def codeLine (status : Int) : Nat :=
  if status = 400 then 123
  else if status = 401 then 128
  else if status = 403 then 133
  else if status = 404 then 136
  else if status = 413 then 139
  else if status = 429 then 142
  else if status = 456 then 145
  else if status = 503 then 148
  else if 500 ≤ status ∧ status ≤ 599 then 153
  else 158

/-- The error returned for an error body that cannot be decoded. -/
def malformedErrorBody (appendErrPos : Bool) (e : JSONError) : GoError :=
  .withMessage
    (.withMessage (.json e) ("failed to decode json" ++ getErrorPos appendErrPos ⟨"deepl.go", 61⟩))
    ("failed to decode error response" ++ getErrorPos appendErrPos ⟨"deepl.go", 111⟩)

/-- The error returned for a 200 body that is not a JSON text. -/
def malformedResponse (appendErrPos : Bool) (e : JSONError) : GoError :=
  .withMessage
    (.withMessage (.json e) ("failed to decode json" ++ getErrorPos appendErrPos ⟨"deepl.go", 61⟩))
    ("failed to parse JSON response" ++ getErrorPos appendErrPos ⟨"deepl.go", 121⟩)

/-- The text is not empty and its first character is not `f`. -/
def headNotF (s : String) : Prop := ∃ c rest, s.data = c :: rest ∧ c ≠ 'f'

/-- Fuel is adequate for values read with fuel `f`: a value that is read leaves
less input than it was given, and is read the same with any fuel of at least
twice the number of characters it takes. -/
def ValueFuelOK (f : Nat) : Prop :=
  ∀ (d : Nat) (cs : List Char) (v : JSON) (rest : List Char),
    parseValue f d cs = some (v, rest) →
    rest.length < cs.length ∧
      ∀ g, 2 * (cs.length - rest.length) ≤ g → parseValue g d cs = some (v, rest)

/-- The same for the elements of an array. -/
def ElemsFuelOK (f : Nat) : Prop :=
  ∀ (d : Nat) (cs : List Char) (vs : List JSON) (rest : List Char),
    parseElems f d cs = some (vs, rest) →
    rest.length < cs.length ∧
      ∀ g, 2 * (cs.length - rest.length) ≤ g → parseElems g d cs = some (vs, rest)

/-- The same for the members of an object. -/
def MembersFuelOK (f : Nat) : Prop :=
  ∀ (d : Nat) (cs : List Char) (ms : List (String × JSON)) (rest : List Char),
    parseMembers f d cs = some (ms, rest) →
    rest.length < cs.length ∧
      ∀ g, 2 * (cs.length - rest.length) ≤ g → parseMembers g d cs = some (ms, rest)

/-! ## Lemmas on formatting -/

theorem sprintfCore_literal (lit rest : List Char) (args : List Arg) (h : '%' ∉ lit) :
    sprintfCore (lit ++ rest) args = lit ++ sprintfCore rest args := by
  induction lit with
  | nil => simp
  | cons c lit ih =>
    have hc : c ≠ '%' := fun hc => h (by simp [hc])
    have hl : '%' ∉ lit := fun hl => h (by simp [hl])
    cases hlr : lit ++ rest with
    | nil =>
      have h1 : lit = [] := (List.append_eq_nil.mp hlr).1
      have h2 : rest = [] := (List.append_eq_nil.mp hlr).2
      subst h1; subst h2
      simp [sprintfCore, hc]
    | cons v r =>
      have e : sprintfCore (c :: v :: r) args = c :: sprintfCore (v :: r) args := by
        simp [sprintfCore, hc]
      rw [List.cons_append, hlr, e, ← hlr, ih hl]
      rfl

theorem sprintfCore_verb_s (rest : List Char) (m : String) (args : List Arg) :
    sprintfCore ('%' :: 's' :: rest) (.str m :: args) = m.data ++ sprintfCore rest args := by
  simp [sprintfCore, fmtVerb]

theorem sprintfCore_verb_d (rest : List Char) (n : Int) (args : List Arg) :
    sprintfCore ('%' :: 'd' :: rest) (.int n :: args)
      = (toString n).data ++ sprintfCore rest args := by
  simp [sprintfCore, fmtVerb]

theorem sprintfCore_no_args (lit : List Char) (h : '%' ∉ lit) : sprintfCore lit [] = lit := by
  have := sprintfCore_literal lit [] [] h
  simpa [sprintfCore] using this

/-- A format made of literal text, `%s` and a literal tail renders the operand
verbatim in the place of the verb. -/
theorem Sprintf_s (p pos m : String) (hp : '%' ∉ p.data) (hpos : '%' ∉ pos.data) :
    Sprintf (p ++ "%s" ++ pos) [.str m] = p ++ m ++ pos := by
  apply String.ext
  simp only [Sprintf, String.data_append]
  rw [List.append_assoc, sprintfCore_literal _ _ _ hp, List.cons_append, List.cons_append,
    List.nil_append, sprintfCore_verb_s, sprintfCore_no_args _ hpos, List.append_assoc]

/-- A format made of literal text, `%d`, literal text, `%s` and a literal tail. -/
theorem Sprintf_d_s (p q pos m : String) (n : Int) (hp : '%' ∉ p.data) (hq : '%' ∉ q.data)
    (hpos : '%' ∉ pos.data) :
    Sprintf (p ++ "%d" ++ q ++ "%s" ++ pos) [.int n, .str m]
      = p ++ toString n ++ q ++ m ++ pos := by
  apply String.ext
  simp only [Sprintf, String.data_append]
  simp only [List.append_assoc]
  rw [sprintfCore_literal _ _ _ hp, List.cons_append, List.cons_append, List.nil_append,
    sprintfCore_verb_d, sprintfCore_literal _ _ _ hq, List.cons_append, List.cons_append,
    List.nil_append, sprintfCore_verb_s, sprintfCore_no_args _ hpos]

/-! ## Lemmas on `NewErr` and `WrapIfErr` -/

theorem NewErr_s (appendErrPos : Bool) (caller : Caller) (tmpl p m : String)
    (ht : tmpl = p ++ "%s") (hp : '%' ∉ p.data)
    (hpos : '%' ∉ (getErrorPos appendErrPos caller).data) :
    NewErr appendErrPos caller [.str tmpl, .str m]
      = some (.fundamental (p ++ m ++ getErrorPos appendErrPos caller)) := by
  subst ht
  simp only [NewErr]
  rw [Sprintf_s p _ m hp hpos]

theorem NewErr_d_s (appendErrPos : Bool) (caller : Caller) (tmpl p q m : String) (n : Int)
    (ht : tmpl = p ++ "%d" ++ q ++ "%s") (hp : '%' ∉ p.data) (hq : '%' ∉ q.data)
    (hpos : '%' ∉ (getErrorPos appendErrPos caller).data) :
    NewErr appendErrPos caller [.str tmpl, .int n, .str m]
      = some (.fundamental (p ++ toString n ++ q ++ m ++ getErrorPos appendErrPos caller)) := by
  subst ht
  simp only [NewErr]
  rw [Sprintf_d_s p q _ m n hp hq hpos]

/-! ## Lemmas on `treatBodyAsErr` -/

theorem treatBodyAsErr_of_message {α : Type} [Unmarshal α] (appendErrPos : Bool) (status : Int)
    (body m : String) (out : α) (hs : status ≠ 200)
    (hm : captureErrMessage appendErrPos status body = .ok m) :
    treatBodyAsErr appendErrPos status body out
      = (out, some (.fundamental (codeMessage status m
          ++ getErrorPos appendErrPos ⟨"deepl.go", codeLine status⟩))) := by
  by_cases h1 : status = 400
  · subst h1
    unfold treatBodyAsErr
    rw [hm]
    exact congrArg (Prod.mk out)
      (NewErr_s _ _ _ _ m (by decide) (by decide) (by cases appendErrPos <;> decide))
  by_cases h2 : status = 401
  · subst h2
    unfold treatBodyAsErr
    rw [hm]
    exact congrArg (Prod.mk out)
      (NewErr_s _ _ _ _ m (by decide) (by decide) (by cases appendErrPos <;> decide))
  by_cases h3 : status = 403
  · subst h3
    unfold treatBodyAsErr
    rw [hm]
    exact congrArg (Prod.mk out)
      (NewErr_s _ _ _ _ m (by decide) (by decide) (by cases appendErrPos <;> decide))
  by_cases h4 : status = 404
  · subst h4
    unfold treatBodyAsErr
    rw [hm]
    exact congrArg (Prod.mk out)
      (NewErr_s _ _ _ _ m (by decide) (by decide) (by cases appendErrPos <;> decide))
  by_cases h5 : status = 413
  · subst h5
    unfold treatBodyAsErr
    rw [hm]
    exact congrArg (Prod.mk out)
      (NewErr_s _ _ _ _ m (by decide) (by decide) (by cases appendErrPos <;> decide))
  by_cases h6 : status = 429
  · subst h6
    unfold treatBodyAsErr
    rw [hm]
    exact congrArg (Prod.mk out)
      (NewErr_s _ _ _ _ m (by decide) (by decide) (by cases appendErrPos <;> decide))
  by_cases h7 : status = 456
  · subst h7
    unfold treatBodyAsErr
    rw [hm]
    exact congrArg (Prod.mk out)
      (NewErr_s _ _ _ _ m (by decide) (by decide) (by cases appendErrPos <;> decide))
  by_cases h8 : status = 503
  · subst h8
    unfold treatBodyAsErr
    rw [hm]
    exact congrArg (Prod.mk out)
      (NewErr_s _ _ _ _ m (by decide) (by decide) (by cases appendErrPos <;> decide))
  unfold treatBodyAsErr codeMessage codeLine
  rw [hm]
  simp only [StatusQuotaExceeded, if_neg hs, if_neg h1, if_neg h2, if_neg h3, if_neg h4,
    if_neg h5, if_neg h6, if_neg h7, if_neg h8]
  by_cases h9 : 500 ≤ status ∧ status ≤ 599
  · have h9' : 599 ≥ status ∧ status ≥ 500 := ⟨h9.2, h9.1⟩
    rw [if_pos h9, if_pos h9', if_pos h9]
    exact congrArg (Prod.mk out)
      (NewErr_d_s _ _ _ _ _ m status (by decide) (by decide) (by decide)
        (by cases appendErrPos <;> decide))
  have h9' : ¬ (599 ≥ status ∧ status ≥ 500) := fun h => h9 ⟨h.2, h.1⟩
  rw [if_neg h9, if_neg h9', if_neg h9]
  exact congrArg (Prod.mk out)
    (NewErr_d_s _ _ _ _ _ m status (by decide) (by decide) (by decide)
      (by cases appendErrPos <;> decide))

theorem length_ne_zero_of_ne_empty (body : String) (h : body ≠ "") : body.length ≠ 0 := by
  intro h0
  apply h
  apply String.ext
  have h1 : body.data.length = 0 := h0
  exact List.length_eq_zero.mp h1

theorem fmtArgs_single_str (msg : String) : fmtArgs [.str msg] = msg := by
  apply String.ext
  simp [fmtArgs, Sprint, sprintCore, Arg.isString, Arg.plain]

theorem WrapIfErr_some_str (appendErrPos : Bool) (caller : Caller) (e : GoError)
    (msg : String) :
    WrapIfErr appendErrPos caller (some e) [.str msg]
      = some (.withMessage e (msg ++ getErrorPos appendErrPos caller)) := by
  simp only [WrapIfErr, fmtArgs_single_str]

theorem captureErrMessage_empty (appendErrPos : Bool) (status : Int) :
    captureErrMessage appendErrPos status "" = .ok "" := by
  simp [captureErrMessage]

theorem captureErrMessage_status_ok (appendErrPos : Bool) (body : String) :
    captureErrMessage appendErrPos 200 body = .ok "" := by
  simp [captureErrMessage]

theorem captureErrMessage_decoded (appendErrPos : Bool) (status : Int) (body m : String)
    (hs : status ≠ 200) (hbody : body ≠ "")
    (hdec : jsonUnmarshal body (Unmarshal.zero : ErrorResponse) = (⟨m⟩, none)) :
    captureErrMessage appendErrPos status body = .ok m := by
  unfold captureErrMessage decodeBody
  rw [if_pos ⟨hs, length_ne_zero_of_ne_empty body hbody⟩, hdec]

theorem captureErrMessage_malformed (appendErrPos : Bool) (status : Int) (body : String)
    (e : JSONError) (hs : status ≠ 200) (hbody : body ≠ "")
    (hdec : (jsonUnmarshal body (Unmarshal.zero : ErrorResponse)).2 = some e) :
    captureErrMessage appendErrPos status body
      = .error (some (malformedErrorBody appendErrPos e)) := by
  unfold captureErrMessage decodeBody malformedErrorBody
  rw [if_pos ⟨hs, length_ne_zero_of_ne_empty body hbody⟩]
  cases hr : jsonUnmarshal body (Unmarshal.zero : ErrorResponse) with
  | mk r1 r2 =>
    rw [hr] at hdec
    simp only at hdec
    subst hdec
    simp only [WrapIfErr_some_str]

theorem errorStartsWith_fundamental (p rest : String) :
    errorStartsWith (some (.fundamental (p ++ rest))) p := by
  simp [errorStartsWith, GoError.Error]

theorem errorStartsWith_fundamental_append (p m rest : String) :
    errorStartsWith (some (.fundamental (p ++ m ++ rest))) (p ++ m) := by
  simp [errorStartsWith, GoError.Error]

theorem captureErrMessage_of_body (appendErrPos : Bool) (status : Int) (body m : String)
    (hs : status ≠ 200)
    (hbody : (body = "" ∧ m = "") ∨
      (body ≠ "" ∧ jsonUnmarshal body (Unmarshal.zero : ErrorResponse) = (⟨m⟩, none))) :
    captureErrMessage appendErrPos status body = .ok m := by
  rcases hbody with ⟨hb, hm⟩ | ⟨hb, hdec⟩
  · subst hb; subst hm
    exact captureErrMessage_empty appendErrPos status
  · exact captureErrMessage_decoded appendErrPos status body m hs hb hdec

theorem captureErrMessage_cases (appendErrPos : Bool) (status : Int) (body : String) :
    (∃ m, captureErrMessage appendErrPos status body = .ok m) ∨
    (∃ e, status ≠ 200 ∧ body ≠ "" ∧
      (jsonUnmarshal body (Unmarshal.zero : ErrorResponse)).2 = some e ∧
      captureErrMessage appendErrPos status body
        = .error (some (malformedErrorBody appendErrPos e))) := by
  by_cases hs : status = 200
  · subst hs
    exact Or.inl ⟨"", captureErrMessage_status_ok appendErrPos body⟩
  by_cases hb : body = ""
  · subst hb
    exact Or.inl ⟨"", captureErrMessage_empty appendErrPos status⟩
  cases hr : jsonUnmarshal body (Unmarshal.zero : ErrorResponse) with
  | mk r1 r2 =>
    cases r2 with
    | none =>
      cases r1 with
      | mk m => exact Or.inl ⟨m, captureErrMessage_decoded appendErrPos status body m hs hb hr⟩
    | some e =>
      have h2 : (jsonUnmarshal body (Unmarshal.zero : ErrorResponse)).2 = some e :=
        congrArg Prod.snd hr
      exact Or.inr ⟨e, hs, hb, rfl,
        captureErrMessage_malformed appendErrPos status body e hs hb h2⟩

theorem treatBodyAsErr_of_malformed {α : Type} [Unmarshal α] (appendErrPos : Bool)
    (status : Int) (body : String) (out : α) (e : JSONError)
    (hm : captureErrMessage appendErrPos status body
      = .error (some (malformedErrorBody appendErrPos e))) :
    treatBodyAsErr appendErrPos status body out
      = (out, some (malformedErrorBody appendErrPos e)) := by
  unfold treatBodyAsErr
  rw [hm]

theorem not_prefix_of_head_ne (a b : Char) (l₁ l₂ : List Char) (h : a ≠ b) :
    ¬ (a :: l₁ <+: b :: l₂) := by
  intro hp
  exact h (List.cons_prefix_cons.mp hp).1

theorem malformedErrorBody_data (appendErrPos : Bool) (e : JSONError) :
    ∃ rest, (malformedErrorBody appendErrPos e).Error.data = 'f' :: 'a' :: rest := by
  simp only [malformedErrorBody, GoError.Error, String.data_append]
  exact ⟨_, rfl⟩

theorem treatBodyAsErr_status_ok {α : Type} [Unmarshal α] (appendErrPos : Bool)
    (body : String) (out : α) :
    treatBodyAsErr appendErrPos 200 body out
      = ((jsonUnmarshal body out).1,
          (jsonUnmarshal body out).2.map (malformedResponse appendErrPos)) := by
  unfold treatBodyAsErr
  rw [captureErrMessage_status_ok]
  simp only [if_true, decodeBody]
  cases hr : jsonUnmarshal body out with
  | mk r1 r2 =>
    cases r2 with
    | none => simp [WrapIfErr]
    | some e => simp [WrapIfErr_some_str, malformedResponse]

theorem jsonUnmarshal_invalid {α : Type} [Unmarshal α] (body : String) (out : α)
    (h : parseJSON body = none) : jsonUnmarshal body out = (out, some .syntaxError) := by
  simp [jsonUnmarshal, h]

theorem malformedResponse_data (appendErrPos : Bool) (e : JSONError) :
    ∃ rest, (malformedResponse appendErrPos e).Error.data = 'f' :: 'a' :: rest := by
  simp only [malformedResponse, GoError.Error, String.data_append]
  exact ⟨_, rfl⟩

theorem ite_prop {α : Type} (P : α → Prop) (c : Prop) [Decidable c] (a b : α) (ha : P a)
    (hb : P b) : P (if c then a else b) := by
  split <;> assumption

theorem codeMessage_data (status : Int) (m : String) :
    ∃ c rest, (codeMessage status m).data = c :: rest ∧ c ≠ 'f' := by
  have h : headNotF (codeMessage status m) := by
    unfold codeMessage
    repeat' (refine ite_prop headNotF _ _ _ ?_ ?_)
    all_goals simp only [headNotF, String.data_append]
    all_goals exact ⟨_, _, rfl, by decide⟩
  exact h

theorem specMessage_data (status : Int) (m : String) :
    ∃ c rest, (specMessage status m).data = c :: rest ∧ c ≠ 'f' := by
  have h : headNotF (specMessage status m) := by
    unfold specMessage
    repeat' (refine ite_prop headNotF _ _ _ ?_ ?_)
    all_goals simp only [headNotF, String.data_append]
    all_goals exact ⟨_, _, rfl, by decide⟩
  exact h

theorem ne_empty_of_data (s : String) (c : Char) (rest : List Char) (h : s.data = c :: rest) :
    s ≠ "" := by
  intro hs
  rw [hs] at h
  exact List.noConfusion h

theorem not_prefix_of_take_ne (a b rest : List Char) (n : Nat) (ha : n ≤ a.length)
    (hb : n ≤ b.length) (h : a.take n ≠ b.take n) : ¬ (a <+: b ++ rest) := by
  intro hp
  apply h
  have h1 : a = (b ++ rest).take a.length := List.prefix_iff_eq_take.mp hp
  have h2 : a.take n = ((b ++ rest).take a.length).take n := congrArg (List.take n) h1
  rw [List.take_take, Nat.min_eq_left ha, List.take_append_of_le_length hb] at h2
  exact h2

theorem append_ne_of_take_ne (a b r₁ r₂ : List Char) (n : Nat) (ha : n ≤ a.length)
    (hb : n ≤ b.length) (h : a.take n ≠ b.take n) : a ++ r₁ ≠ b ++ r₂ := by
  intro he
  apply h
  have h2 : (a ++ r₁).take n = (b ++ r₂).take n := congrArg (List.take n) he
  rw [List.take_append_of_le_length ha, List.take_append_of_le_length hb] at h2
  exact h2

theorem string_append_ne_of_take_ne (a b r₁ r₂ : String) (n : Nat) (ha : n ≤ a.data.length)
    (hb : n ≤ b.data.length) (h : a.data.take n ≠ b.data.take n) : a ++ r₁ ≠ b ++ r₂ := by
  intro he
  have h2 : (a ++ r₁).data = (b ++ r₂).data := congrArg String.data he
  rw [String.data_append, String.data_append] at h2
  exact append_ne_of_take_ne _ _ _ _ n ha hb h h2

theorem errorStartsWith_withMessage (cause : GoError) (label pos : String) :
    errorStartsWith (some (.withMessage cause (label ++ pos))) label := by
  simp only [errorStartsWith, GoError.Error, String.data_append, List.append_assoc]
  exact List.prefix_append _ _

theorem errorContains_withMessage_label (cause : GoError) (label pos : String) :
    errorContains (some (.withMessage cause (label ++ pos))) label := by
  simp only [errorContains, GoError.Error, String.data_append, List.append_assoc]
  exact (List.prefix_append _ _).isInfix

theorem errorContains_withMessage_cause (cause : GoError) (msg sub : String)
    (h : errorContains (some cause) sub) :
    errorContains (some (.withMessage cause msg)) sub := by
  simp only [errorContains, GoError.Error, String.data_append] at h ⊢
  exact h.trans (List.suffix_append _ _).isInfix

theorem errorContains_json (e : JSONError) : errorContains (some (.json e)) e.Error := by
  simp only [errorContains, GoError.Error]
  exact List.infix_refl _

theorem not_errorStartsWith_withMessage (cause : GoError) (label pos p : String) (n : Nat)
    (hp : n ≤ p.data.length) (hl : n ≤ label.data.length)
    (h : p.data.take n ≠ label.data.take n) :
    ¬ errorStartsWith (some (.withMessage cause (label ++ pos))) p := by
  simp only [errorStartsWith, GoError.Error, String.data_append, List.append_assoc]
  exact not_prefix_of_take_ne _ _ _ n hp hl h

/-- For an empty body and a status other than 200 and 404, nothing is decoded,
the target is left as it is and the message is the template of the
specification with nothing put in. -/
theorem treatBodyAsErr_empty_body {α : Type} [Unmarshal α] (appendErrPos : Bool)
    (status : Int) (out : α) (hs : status ≠ 200) (h404 : status ≠ 404) :
    captureErrMessage appendErrPos status "" = .ok ""
    ∧ (treatBodyAsErr appendErrPos status "" out).1 = out
    ∧ errorStartsWith (treatBodyAsErr appendErrPos status "" out).2 (specMessage status "") := by
  have hm := captureErrMessage_empty appendErrPos status
  have hcode : codeMessage status "" = specMessage status "" := by
    unfold codeMessage specMessage
    simp only [if_neg h404]
  rw [treatBodyAsErr_of_message appendErrPos status "" "" out hs hm, hcode]
  exact ⟨hm, rfl, errorStartsWith_fundamental _ _⟩

/-- For status 404 and a body that decodes to the message `m`, the message of
the returned error starts with the template as the code spells it. -/
theorem treatBodyAsErr_not_found_message {α : Type} [Unmarshal α] (appendErrPos : Bool)
    (body m : String) (out : α)
    (hbody : (body = "" ∧ m = "") ∨
      (body ≠ "" ∧ jsonUnmarshal body (Unmarshal.zero : ErrorResponse) = (⟨m⟩, none))) :
    errorStartsWith (treatBodyAsErr appendErrPos 404 body out).2
      ("Not found. The requested resource clould not be found. Returned message: " ++ m) := by
  rw [treatBodyAsErr_of_message appendErrPos 404 body m out (by decide)
    (captureErrMessage_of_body appendErrPos 404 body m (by decide) hbody)]
  exact errorStartsWith_fundamental_append _ m _

/-! ## Lemmas on the JSON model -/

theorem toDigitsCore_append (f : Nat) : ∀ (n : Nat) (ds : List Char),
    Nat.toDigitsCore 10 f n ds = Nat.toDigitsCore 10 f n [] ++ ds := by
  induction f with
  | zero => intro n ds; simp [Nat.toDigitsCore]
  | succ f ih =>
    intro n ds
    simp only [Nat.toDigitsCore]
    by_cases h0 : n / 10 = 0
    · simp [h0]
    · simp only [h0, if_false]
      rw [ih (n / 10) (Nat.digitChar (n % 10) :: ds), ih (n / 10) [Nat.digitChar (n % 10)]]
      simp

theorem toDigitsCore_fuel (f1 : Nat) : ∀ (f2 n : Nat), n < f1 → n < f2 →
    Nat.toDigitsCore 10 f1 n [] = Nat.toDigitsCore 10 f2 n [] := by
  induction f1 with
  | zero => intro f2 n h; omega
  | succ f1 ih =>
    intro f2 n h1 h2
    cases f2 with
    | zero => omega
    | succ f2 =>
      simp only [Nat.toDigitsCore]
      by_cases h0 : n / 10 = 0
      · simp [h0]
      · simp only [h0, if_false]
        have hlt : n / 10 < n := Nat.div_lt_self (by omega) (by decide)
        rw [toDigitsCore_append f1, toDigitsCore_append f2,
          ih f2 (n / 10) (by omega) (by omega)]

theorem toDigits_step (n : Nat) :
    Nat.toDigits 10 n
      = if n / 10 = 0 then [Nat.digitChar (n % 10)]
        else Nat.toDigits 10 (n / 10) ++ [Nat.digitChar (n % 10)] := by
  unfold Nat.toDigits
  rw [Nat.toDigitsCore]
  by_cases h0 : n / 10 = 0
  · simp [h0]
  · simp only [h0, if_false]
    have hlt : n / 10 < n := Nat.div_lt_self (by omega) (by decide)
    rw [toDigitsCore_append]
    rw [toDigitsCore_fuel n (n / 10 + 1) (n / 10) hlt (by omega)]

theorem digitChar_props (k : Nat) (h : k < 10) :
    isDigit (Nat.digitChar k) = true ∧ (Nat.digitChar k).toNat - '0'.toNat = k
    ∧ (k ≠ 0 → Nat.digitChar k ≠ '0') := by
  interval_cases k <;> decide

theorem digitsValue_append (xs : List Char) (d : Char) :
    digitsValue (xs ++ [d]) = 10 * digitsValue xs + (d.toNat - '0'.toNat) := by
  simp [digitsValue, List.foldl_append]

/-- The decimal digits of a number: all digits, the value read back is the
number, and a leading `0` only for the number 0. -/
theorem toDigits_props (n : Nat) :
    (∀ c ∈ Nat.toDigits 10 n, isDigit c = true)
    ∧ digitsValue (Nat.toDigits 10 n) = n
    ∧ ∃ d rest, Nat.toDigits 10 n = d :: rest ∧ isDigit d = true ∧ (d = '0' → rest = []) := by
  induction n using Nat.strong_induction_on with
  | _ n ih =>
    rw [toDigits_step]
    have hmod : n % 10 < 10 := Nat.mod_lt _ (by decide)
    obtain ⟨hd1, hd2, hd3⟩ := digitChar_props (n % 10) hmod
    by_cases h0 : n / 10 = 0
    · simp only [h0, if_true]
      refine ⟨?_, ?_, _, _, rfl, hd1, fun _ => rfl⟩
      · intro c hc
        simp only [List.mem_singleton] at hc
        rw [hc]; exact hd1
      · simp only [digitsValue, List.foldl, hd2]
        omega
    · simp only [h0, if_false]
      have hlt : n / 10 < n := Nat.div_lt_self (by omega) (by decide)
      obtain ⟨i1, i2, d, rest, i3, i4, i5⟩ := ih (n / 10) hlt
      refine ⟨?_, ?_, d, rest ++ [Nat.digitChar (n % 10)], ?_, i4, ?_⟩
      · intro c hc
        rcases List.mem_append.mp hc with hc | hc
        · exact i1 c hc
        · simp only [List.mem_singleton] at hc
          rw [hc]; exact hd1
      · rw [digitsValue_append, i2, hd2]
        omega
      · rw [i3]; rfl
      · intro hd0
        exfalso
        have hr := i5 hd0
        rw [i3, hd0, hr] at i2
        have : digitsValue ['0'] = 0 := by decide
        omega

theorem spanDigits_append (ds : List Char) (k : Char) (r : List Char)
    (hds : ∀ c ∈ ds, isDigit c = true) (hk : isDigit k = false) :
    spanDigits (ds ++ k :: r) = (ds, k :: r) := by
  induction ds with
  | nil => simp [spanDigits, hk]
  | cons d ds ih =>
    have hd : isDigit d = true := hds d (by simp)
    have ih' := ih (fun c hc => hds c (by simp [hc]))
    simp [spanDigits, hd, ih']

theorem parseNumber_digits (d : Char) (ds : List Char) (k : Char) (r : List Char)
    (hd : isDigit d = true) (hds : ∀ c ∈ ds, isDigit c = true) (h0 : d = '0' → ds = [])
    (hk : isDigit k = false) (hk1 : k ≠ '.') (hk2 : k ≠ 'e') (hk3 : k ≠ 'E') :
    parseNumber [] (d :: ds ++ k :: r) = some (d :: ds, k :: r) := by
  have hint : parseIntPart (d :: ds ++ k :: r) = some (d :: ds, k :: r) := by
    by_cases hz : d = '0'
    · have := h0 hz
      subst this
      simp [parseIntPart, hz]
    · simp [parseIntPart, hz, hd, spanDigits_append ds k r hds hk]
  have hfrac : parseFrac (k :: r) = some ([], k :: r) := by
    simp [parseFrac, hk1]
  have hexp : parseExp (k :: r) = some ([], k :: r) := by
    simp [parseExp, hk2, hk3]
  unfold parseNumber
  rw [hint]
  simp only []
  rw [hfrac]
  simp only []
  rw [hexp]
  simp

theorem isDigit_ne (d c : Char) (hd : isDigit d = true) (hc : isDigit c = false) : d ≠ c := by
  intro h
  rw [h, hc] at hd
  exact Bool.noConfusion hd

theorem parseValue_number (fuel depth : Nat) (d : Char) (ds : List Char) (k : Char)
    (r : List Char)
    (hd : isDigit d = true) (hds : ∀ c ∈ ds, isDigit c = true) (h0 : d = '0' → ds = [])
    (hk : isDigit k = false) (hk1 : k ≠ '.') (hk2 : k ≠ 'e') (hk3 : k ≠ 'E') :
    parseValue (fuel + 1) depth (d :: ds ++ k :: r) = some (.num (d :: ds), k :: r) := by
  have e1 : d ≠ '{' := isDigit_ne d _ hd (by decide)
  have e2 : d ≠ '[' := isDigit_ne d _ hd (by decide)
  have e3 : d ≠ '"' := isDigit_ne d _ hd (by decide)
  have e4 : d ≠ 't' := isDigit_ne d _ hd (by decide)
  have e5 : d ≠ 'f' := isDigit_ne d _ hd (by decide)
  have e6 : d ≠ 'n' := isDigit_ne d _ hd (by decide)
  have e7 : d ≠ '-' := isDigit_ne d _ hd (by decide)
  rw [List.cons_append, parseValue]
  simp only [if_neg e1, if_neg e2, if_neg e3, if_neg e4, if_neg e5, if_neg e6, if_neg e7]
  rw [← List.cons_append, parseNumber_digits d ds k r hd hds h0 hk hk1 hk2 hk3]
  rfl

theorem parseStringBody_plain (key : List Char) (r : List Char)
    (hkey : ∀ c ∈ key, c ≠ '"' ∧ c ≠ '\\' ∧ ¬ c.toNat < 0x20) :
    parseStringBody 0 (key ++ '"' :: r) = some (key, r) := by
  induction key with
  | nil =>
    rw [List.nil_append, parseStringBody, if_pos rfl]
  | cons c key ih =>
    obtain ⟨h1, h2, h3⟩ := hkey c (by simp)
    have ih' := ih (fun x hx => hkey x (by simp [hx]))
    rw [List.cons_append, parseStringBody, if_neg h1, if_neg h2, if_neg h3, ih']
    rfl


theorem skipSpace_of_not_space (c : Char) (cs : List Char) (h : isSpace c = false) :
    skipSpace (c :: cs) = c :: cs := by
  simp [skipSpace, h]

theorem skipSpace_blank (cs : List Char) : skipSpace (' ' :: cs) = skipSpace cs := by
  simp [skipSpace, isSpace]

theorem isDigit_not_space (d : Char) (hd : isDigit d = true) : isSpace d = false := by
  have e1 : d ≠ ' ' := isDigit_ne d _ hd (by decide)
  have e2 : d ≠ '\t' := isDigit_ne d _ hd (by decide)
  have e3 : d ≠ '\r' := isDigit_ne d _ hd (by decide)
  have e4 : d ≠ '\n' := isDigit_ne d _ hd (by decide)
  simp [isSpace, e1, e2, e3, e4]

/-- A member `"key": digits` followed by the closing brace. -/
theorem parseMembers_number_last (fuel depth : Nat) (key : List Char) (d : Char)
    (ds r : List Char)
    (hkey : ∀ c ∈ key, c ≠ '"' ∧ c ≠ '\\' ∧ ¬ c.toNat < 0x20)
    (hd : isDigit d = true) (hds : ∀ c ∈ ds, isDigit c = true) (h0 : d = '0' → ds = []) :
    parseMembers (fuel + 2) depth
        ('"' :: (key ++ '"' :: ':' :: ' ' :: (d :: ds ++ '}' :: r)))
      = some ([(⟨key⟩, .num (d :: ds))], r) := by
  rw [parseMembers, if_pos rfl, parseStringBody_plain key _ hkey]
  simp only []
  rw [skipSpace_of_not_space ':' _ (by decide)]
  simp only [if_true]
  rw [skipSpace_blank, List.cons_append, skipSpace_of_not_space d _ (isDigit_not_space d hd),
    ← List.cons_append, parseValue_number fuel depth d ds '}' r hd hds h0 (by decide) (by decide) (by decide)
      (by decide)]
  simp only []
  rw [skipSpace_of_not_space '}' _ (by decide)]
  simp only []
  rw [if_neg (by decide)]
  simp only [if_true]

/-- A member `"key": digits` followed by a comma, a blank and a further member. -/
theorem parseMembers_number_more (fuel depth : Nat) (key : List Char) (d : Char)
    (ds more : List Char)
    (hkey : ∀ c ∈ key, c ≠ '"' ∧ c ≠ '\\' ∧ ¬ c.toNat < 0x20)
    (hd : isDigit d = true) (hds : ∀ c ∈ ds, isDigit c = true) (h0 : d = '0' → ds = []) :
    parseMembers (fuel + 2) depth
        ('"' :: (key ++ '"' :: ':' :: ' ' :: (d :: ds ++ ',' :: ' ' :: '"' :: more)))
      = (parseMembers (fuel + 1) depth ('"' :: more)).map
          fun (p : List (String × JSON) × List Char) => ((⟨key⟩, .num (d :: ds)) :: p.1, p.2) := by
  rw [parseMembers, if_pos rfl, parseStringBody_plain key _ hkey]
  simp only []
  rw [skipSpace_of_not_space ':' _ (by decide)]
  simp only [if_true]
  rw [skipSpace_blank, List.cons_append, skipSpace_of_not_space d _ (isDigit_not_space d hd),
    ← List.cons_append, parseValue_number fuel depth d ds ',' _ hd hds h0 (by decide) (by decide) (by decide)
      (by decide)]
  simp only []
  rw [skipSpace_of_not_space ',' _ (by decide)]
  simp only [if_true]
  rw [skipSpace_blank, skipSpace_of_not_space '"' _ (by decide)]

theorem accountStatusBody_data (c l : Nat) :
    (accountStatusBody c l).data
      = '{' :: '"' :: ("character_count".data ++ '"' :: ':' :: ' ' ::
          (Nat.toDigits 10 c ++ ',' :: ' ' :: '"' :: ("character_limit".data ++ '"' :: ':' :: ' ' ::
            (Nat.toDigits 10 l ++ '}' :: [])))) := by
  have hc : (toString c).data = Nat.toDigits 10 c := rfl
  have hl : (toString l).data = Nat.toDigits 10 l := rfl
  simp only [accountStatusBody, String.data_append, hc, hl, List.append_assoc]
  rfl

theorem plain_character_count :
    ∀ c ∈ "character_count".data, c ≠ '"' ∧ c ≠ '\\' ∧ ¬ c.toNat < 0x20 := by decide

theorem plain_character_limit :
    ∀ c ∈ "character_limit".data, c ≠ '"' ∧ c ≠ '\\' ∧ ¬ c.toNat < 0x20 := by decide

theorem parseJSON_accountStatusBody (c l : Nat) :
    parseJSON (accountStatusBody c l)
      = some (.obj [("character_count", .num (Nat.toDigits 10 c)),
          ("character_limit", .num (Nat.toDigits 10 l))]) := by
  obtain ⟨hc1, _, dc, rc, hc3, hc4, hc5⟩ := toDigits_props c
  obtain ⟨hl1, _, dl, rl, hl3, hl4, hl5⟩ := toDigits_props l
  have hrc : ∀ x ∈ rc, isDigit x = true := fun x hx => hc1 x (by rw [hc3]; simp [hx])
  have hrl : ∀ x ∈ rl, isDigit x = true := fun x hx => hl1 x (by rw [hl3]; simp [hx])
  have hlen : ∃ n, 2 * (accountStatusBody c l).length + 2 = n + 1 + 2 + 1 := by
    refine ⟨2 * (accountStatusBody c l).length - 2, ?_⟩
    have : 1 ≤ (accountStatusBody c l).length := by
      show 1 ≤ (accountStatusBody c l).data.length
      rw [accountStatusBody_data]
      simp
    omega
  obtain ⟨n, hn⟩ := hlen
  unfold parseJSON
  rw [hn, accountStatusBody_data, skipSpace_of_not_space '{' _ (by decide), parseValue,
    if_pos rfl, if_neg (by decide), skipSpace_of_not_space '"' _ (by decide)]
  simp only []
  rw [if_neg (by decide), hc3, hl3,
    parseMembers_number_more (n + 1) (0 + 1) _ dc rc _ plain_character_count hc4 hrc hc5]
  have h2 := parseMembers_number_last n (0 + 1) _ dl rl [] plain_character_limit hl4 hrl hl5
  rw [show n + 1 + 1 = n + 2 from rfl, h2]
  rfl

theorem parseInt64_toDigits (n : Nat) (h : n < 2 ^ 63) :
    parseInt64 (Nat.toDigits 10 n) = some (n : Int) := by
  obtain ⟨h1, h2, d, rest, h3, h4, _⟩ := toDigits_props n
  have hne : d ≠ '-' := isDigit_ne d _ h4 (by decide)
  have hall : (d :: rest).all isDigit = true := by
    rw [List.all_eq_true]
    intro x hx
    exact h1 x (by rw [h3]; exact hx)
  rw [h3] at h2
  rw [h3, parseInt64, if_neg hne, if_pos ⟨hall, by rw [h2]; exact h⟩, h2]

theorem storeInt_toDigits (n : Nat) (h : n < 2 ^ 63) (v : Int) :
    storeInt (.num (Nat.toDigits 10 n)) v = ((n : Int), none) := by
  simp only [storeInt, parseInt64_toDigits n h]

theorem jsonUnmarshal_accountStatusBody (c l : Nat) (hc : c < 2 ^ 63) (hl : l < 2 ^ 63)
    (out : AccountStatus) :
    jsonUnmarshal (accountStatusBody c l) out = (⟨c, l⟩, none) := by
  have k1 : fieldMatches "character_count" "character_count" = true := by decide
  have k2 : fieldMatches "character_limit" "character_count" = false := by decide
  have k3 : fieldMatches "character_limit" "character_limit" = true := by decide
  simp only [jsonUnmarshal, parseJSON_accountStatusBody, Unmarshal.store, storeStruct,
    List.foldl, AccountStatus.storeMember, k1, k2, k3, if_true, storeInt_toDigits c hc,
    storeInt_toDigits l hl, firstError]
  simp

/-! ## The fuel of the JSON reader is adequate -/

theorem skipSpace_length_le (cs : List Char) : (skipSpace cs).length ≤ cs.length := by
  induction cs with
  | nil => simp [skipSpace]
  | cons c cs ih =>
    rw [skipSpace]
    split
    · simp only [List.length_cons]; omega
    · exact Nat.le_refl _

theorem spanDigits_length_le (cs : List Char) : (spanDigits cs).2.length ≤ cs.length := by
  induction cs with
  | nil => simp [spanDigits]
  | cons c cs ih =>
    rw [spanDigits]
    split
    · simp only [List.length_cons]; omega
    · exact Nat.le_refl _

theorem parseStringBody_length (cs : List Char) :
    ∀ (skip : Nat) (p : List Char × List Char),
      parseStringBody skip cs = some p → p.2.length < cs.length := by
  induction cs with
  | nil => intro skip p h; cases skip <;> simp [parseStringBody] at h
  | cons c cs ih =>
    intro skip p h
    cases skip with
    | succ skip =>
      rw [parseStringBody] at h
      have := ih skip p h
      simp only [List.length_cons]; omega
    | zero =>
      rw [parseStringBody] at h
      split at h
      · simp only [Option.some.injEq] at h
        subst h
        simp
      · split at h
        · cases he : parseEscape cs with
          | none => rw [he] at h; simp at h
          | some xn =>
            rw [he] at h
            simp only [Option.map_eq_some'] at h
            obtain ⟨q, hq, hp⟩ := h
            have := ih xn.2 q hq
            subst hp
            simp only [List.length_cons]; omega
        · split at h
          · simp at h
          · simp only [Option.map_eq_some'] at h
            obtain ⟨q, hq, hp⟩ := h
            have := ih 0 q hq
            subst hp
            simp only [List.length_cons]; omega

theorem dropLiteral_length (lit : List Char) :
    ∀ (cs r : List Char), dropLiteral lit cs = some r → r.length ≤ cs.length := by
  induction lit with
  | nil => intro cs r h; simp [dropLiteral] at h; subst h; exact Nat.le_refl _
  | cons l lit ih =>
    intro cs r h
    cases cs with
    | nil => simp [dropLiteral] at h
    | cons c cs =>
      rw [dropLiteral] at h
      split at h
      · have := ih cs r h
        simp only [List.length_cons]; omega
      · simp at h

theorem parseNumber_length (sign cs : List Char) (p : List Char × List Char)
    (h : parseNumber sign cs = some p) : p.2.length < cs.length := by
  unfold parseNumber at h
  cases hi : parseIntPart cs with
  | none => rw [hi] at h; simp at h
  | some p1 =>
    rw [hi] at h
    simp only at h
    cases hf : parseFrac p1.2 with
    | none => rw [hf] at h; simp at h
    | some p2 =>
      rw [hf] at h
      simp only at h
      cases hx : parseExp p2.2 with
      | none => rw [hx] at h; simp at h
      | some p3 =>
        rw [hx] at h
        simp only [Option.some.injEq] at h
        subst h
        simp only
        have h1 : p1.2.length < cs.length := by
          cases cs with
          | nil => simp [parseIntPart] at hi
          | cons d rest =>
            rw [parseIntPart] at hi
            split at hi
            · simp only [Option.some.injEq] at hi
              subst hi; simp
            · split at hi
              · simp only [Option.some.injEq] at hi
                subst hi
                have := spanDigits_length_le rest
                simp only [List.length_cons]; omega
              · simp at hi
        have h2 : p2.2.length ≤ p1.2.length := by
          cases hr : p1.2 with
          | nil => rw [hr] at hf; simp [parseFrac] at hf; subst hf; simp
          | cons c rest =>
            rw [hr, parseFrac] at hf
            split at hf
            · split at hf
              · simp at hf
              · simp only [Option.some.injEq] at hf
                subst hf
                have := spanDigits_length_le rest
                simp only [List.length_cons]; omega
            · simp only [Option.some.injEq] at hf
              subst hf; simp
        have h3 : p3.2.length ≤ p2.2.length := by
          cases hr : p2.2 with
          | nil => rw [hr] at hx; simp [parseExp] at hx; subst hx; simp
          | cons c rest =>
            rw [hr] at hx
            unfold parseExp at hx
            simp only at hx
            split at hx
            · cases rest with
              | nil => simp at hx
              | cons s rest1 =>
                simp only at hx
                split at hx
                · unfold parseExpDigits at hx
                  split at hx
                  · simp at hx
                  · simp only [Option.some.injEq] at hx
                    subst hx
                    have := spanDigits_length_le rest1
                    simp only [List.length_cons]; omega
                · unfold parseExpDigits at hx
                  split at hx
                  · simp at hx
                  · simp only [Option.some.injEq] at hx
                    subst hx
                    have := spanDigits_length_le (s :: rest1)
                    simp only [List.length_cons] at this ⊢; omega
            · simp only [Option.some.injEq] at hx
              subst hx; simp
        omega
theorem valueFuelOK_succ (f : Nat) (hE : ElemsFuelOK f) (hM : MembersFuelOK f) :
    ValueFuelOK (f + 1) := by
  intro d cs v rest h
  cases cs with
  | nil => simp [parseValue] at h
  | cons c rest0 =>
    rw [parseValue] at h
    have hsk := skipSpace_length_le rest0
    by_cases h1 : c = '{'
    · rw [if_pos h1] at h
      by_cases hd : maxNestingDepth ≤ d
      · rw [if_pos hd] at h; simp at h
      · rw [if_neg hd] at h
        cases hs : skipSpace rest0 with
        | nil => rw [hs] at h; simp at h
        | cons k rest1 =>
          rw [hs] at h hsk
          simp only [List.length_cons] at hsk
          simp only at h
          by_cases hk : k = '}'
          · rw [if_pos hk] at h
            simp only [Option.some.injEq, Prod.mk.injEq] at h
            obtain ⟨hv, hr⟩ := h
            subst hv hr
            refine ⟨by simp only [List.length_cons]; omega, fun g hg => ?_⟩
            obtain ⟨g', rfl⟩ : ∃ g', g = g' + 1 :=
              ⟨g - 1, by simp only [List.length_cons] at hg; omega⟩
            rw [parseValue, if_pos h1, if_neg hd, hs]
            simp only []
            rw [if_pos hk]
          · rw [if_neg hk] at h
            simp only [Option.map_eq_some'] at h
            obtain ⟨p, hp, hpv⟩ := h
            simp only [Prod.mk.injEq] at hpv
            obtain ⟨hv, hr⟩ := hpv
            obtain ⟨ml, mg⟩ := hM (d + 1) (k :: rest1) p.1 p.2 hp
            subst hv hr
            simp only [List.length_cons] at ml mg
            refine ⟨by simp only [List.length_cons]; omega, fun g hg => ?_⟩
            obtain ⟨g', rfl⟩ : ∃ g', g = g' + 1 :=
              ⟨g - 1, by simp only [List.length_cons] at hg; omega⟩
            rw [parseValue, if_pos h1, if_neg hd, hs]
            simp only []
            rw [if_neg hk, mg g' (by simp only [List.length_cons] at hg; omega)]
            rfl
    · rw [if_neg h1] at h
      by_cases h2 : c = '['
      · rw [if_pos h2] at h
        by_cases hd : maxNestingDepth ≤ d
        · rw [if_pos hd] at h; simp at h
        · rw [if_neg hd] at h
          cases hs : skipSpace rest0 with
          | nil => rw [hs] at h; simp at h
          | cons k rest1 =>
            rw [hs] at h hsk
            simp only [List.length_cons] at hsk
            simp only at h
            by_cases hk : k = ']'
            · rw [if_pos hk] at h
              simp only [Option.some.injEq, Prod.mk.injEq] at h
              obtain ⟨hv, hr⟩ := h
              subst hv hr
              refine ⟨by simp only [List.length_cons]; omega, fun g hg => ?_⟩
              obtain ⟨g', rfl⟩ : ∃ g', g = g' + 1 :=
                ⟨g - 1, by simp only [List.length_cons] at hg; omega⟩
              rw [parseValue, if_neg h1, if_pos h2, if_neg hd, hs]
              simp only []
              rw [if_pos hk]
            · rw [if_neg hk] at h
              simp only [Option.map_eq_some'] at h
              obtain ⟨p, hp, hpv⟩ := h
              simp only [Prod.mk.injEq] at hpv
              obtain ⟨hv, hr⟩ := hpv
              obtain ⟨ml, mg⟩ := hE (d + 1) (k :: rest1) p.1 p.2 hp
              subst hv hr
              simp only [List.length_cons] at ml mg
              refine ⟨by simp only [List.length_cons]; omega, fun g hg => ?_⟩
              obtain ⟨g', rfl⟩ : ∃ g', g = g' + 1 :=
                ⟨g - 1, by simp only [List.length_cons] at hg; omega⟩
              rw [parseValue, if_neg h1, if_pos h2, if_neg hd, hs]
              simp only []
              rw [if_neg hk, mg g' (by simp only [List.length_cons] at hg; omega)]
              rfl
      · rw [if_neg h2] at h
        have hlen : rest.length < (c :: rest0).length := by
          simp only [List.length_cons]
          split at h
          · simp only [Option.map_eq_some'] at h
            obtain ⟨p, hp, hpv⟩ := h
            have := parseStringBody_length rest0 0 p hp
            simp only [Prod.mk.injEq] at hpv
            rw [← hpv.2]; omega
          · split at h
            · simp only [Option.map_eq_some'] at h
              obtain ⟨p, hp, hpv⟩ := h
              have := dropLiteral_length _ rest0 p hp
              simp only [Prod.mk.injEq] at hpv
              rw [← hpv.2]; omega
            · split at h
              · simp only [Option.map_eq_some'] at h
                obtain ⟨p, hp, hpv⟩ := h
                have := dropLiteral_length _ rest0 p hp
                simp only [Prod.mk.injEq] at hpv
                rw [← hpv.2]; omega
              · split at h
                · simp only [Option.map_eq_some'] at h
                  obtain ⟨p, hp, hpv⟩ := h
                  have := dropLiteral_length _ rest0 p hp
                  simp only [Prod.mk.injEq] at hpv
                  rw [← hpv.2]; omega
                · split at h
                  · simp only [Option.map_eq_some'] at h
                    obtain ⟨p, hp, hpv⟩ := h
                    have := parseNumber_length _ rest0 p hp
                    simp only [Prod.mk.injEq] at hpv
                    rw [← hpv.2]; omega
                  · simp only [Option.map_eq_some'] at h
                    obtain ⟨p, hp, hpv⟩ := h
                    have := parseNumber_length _ (c :: rest0) p hp
                    simp only [Prod.mk.injEq] at hpv
                    simp only [List.length_cons] at this
                    rw [← hpv.2]; omega
        refine ⟨hlen, fun g hg => ?_⟩
        obtain ⟨g', rfl⟩ : ∃ g', g = g' + 1 := ⟨g - 1, by omega⟩
        rw [parseValue, if_neg h1, if_neg h2]
        exact h
theorem elemsFuelOK_succ (f : Nat) (hV : ValueFuelOK f) (hE : ElemsFuelOK f) :
    ElemsFuelOK (f + 1) := by
  intro d cs vs rest h
  rw [parseElems] at h
  cases hv : parseValue f d cs with
  | none => rw [hv] at h; simp at h
  | some p =>
    obtain ⟨v, r1⟩ := p
    rw [hv] at h
    simp only at h
    obtain ⟨vl, vg⟩ := hV d cs v r1 hv
    have hsk := skipSpace_length_le r1
    cases hs : skipSpace r1 with
    | nil => rw [hs] at h; simp at h
    | cons k r2 =>
      rw [hs] at h hsk
      simp only [List.length_cons] at hsk
      simp only at h
      by_cases hk : k = ','
      · rw [if_pos hk] at h
        simp only [Option.map_eq_some'] at h
        obtain ⟨q, hq, hqv⟩ := h
        simp only [Prod.mk.injEq] at hqv
        obtain ⟨hvs, hr⟩ := hqv
        obtain ⟨el, eg⟩ := hE d (skipSpace r2) q.1 q.2 hq
        have hsk2 := skipSpace_length_le r2
        subst hvs hr
        refine ⟨by omega, fun g hg => ?_⟩
        obtain ⟨g', rfl⟩ : ∃ g', g = g' + 1 := ⟨g - 1, by omega⟩
        rw [parseElems, vg g' (by omega)]
        simp only []
        rw [hs]
        simp only []
        rw [if_pos hk, eg g' (by omega)]
        rfl
      · rw [if_neg hk] at h
        by_cases hk2 : k = ']'
        · rw [if_pos hk2] at h
          simp only [Option.some.injEq, Prod.mk.injEq] at h
          obtain ⟨hvs, hr⟩ := h
          subst hvs hr
          refine ⟨by omega, fun g hg => ?_⟩
          obtain ⟨g', rfl⟩ : ∃ g', g = g' + 1 := ⟨g - 1, by omega⟩
          rw [parseElems, vg g' (by omega)]
          simp only []
          rw [hs]
          simp only []
          rw [if_neg hk, if_pos hk2]
        · rw [if_neg hk2] at h; simp at h

theorem membersFuelOK_succ (f : Nat) (hV : ValueFuelOK f) (hM : MembersFuelOK f) :
    MembersFuelOK (f + 1) := by
  intro d cs ms rest h
  cases cs with
  | nil => simp [parseMembers] at h
  | cons q cs0 =>
    rw [parseMembers] at h
    by_cases hq : q = '"'
    · rw [if_pos hq] at h
      cases hkey : parseStringBody 0 cs0 with
      | none => rw [hkey] at h; simp at h
      | some kp =>
        obtain ⟨key, r0⟩ := kp
        rw [hkey] at h
        simp only at h
        have hkl := parseStringBody_length cs0 0 (key, r0) hkey
        simp only at hkl
        have hsk0 := skipSpace_length_le r0
        cases hs0 : skipSpace r0 with
        | nil => rw [hs0] at h; simp at h
        | cons colon r1 =>
          rw [hs0] at h hsk0
          simp only [List.length_cons] at hsk0
          simp only at h
          by_cases hc : colon = ':'
          · rw [if_pos hc] at h
            have hsk1 := skipSpace_length_le r1
            cases hv : parseValue f d (skipSpace r1) with
            | none => rw [hv] at h; simp at h
            | some p =>
              obtain ⟨v, r2⟩ := p
              rw [hv] at h
              simp only at h
              obtain ⟨vl, vg⟩ := hV d (skipSpace r1) v r2 hv
              have hsk2 := skipSpace_length_le r2
              cases hs2 : skipSpace r2 with
              | nil => rw [hs2] at h; simp at h
              | cons k r3 =>
                rw [hs2] at h hsk2
                simp only [List.length_cons] at hsk2
                simp only at h
                by_cases hk : k = ','
                · rw [if_pos hk] at h
                  simp only [Option.map_eq_some'] at h
                  obtain ⟨m, hm, hmv⟩ := h
                  simp only [Prod.mk.injEq] at hmv
                  obtain ⟨hms, hr⟩ := hmv
                  obtain ⟨ml, mg⟩ := hM d (skipSpace r3) m.1 m.2 hm
                  have hsk3 := skipSpace_length_le r3
                  subst hms hr
                  refine ⟨by simp only [List.length_cons]; omega, fun g hg => ?_⟩
                  obtain ⟨g', rfl⟩ : ∃ g', g = g' + 1 :=
                    ⟨g - 1, by simp only [List.length_cons] at hg; omega⟩
                  simp only [List.length_cons] at hg
                  rw [parseMembers, if_pos hq, hkey]
                  simp only []
                  rw [hs0]
                  simp only []
                  rw [if_pos hc, vg g' (by omega)]
                  simp only []
                  rw [hs2]
                  simp only []
                  rw [if_pos hk, mg g' (by omega)]
                  rfl
                · rw [if_neg hk] at h
                  by_cases hk2 : k = '}'
                  · rw [if_pos hk2] at h
                    simp only [Option.some.injEq, Prod.mk.injEq] at h
                    obtain ⟨hms, hr⟩ := h
                    subst hms hr
                    refine ⟨by simp only [List.length_cons]; omega, fun g hg => ?_⟩
                    obtain ⟨g', rfl⟩ : ∃ g', g = g' + 1 :=
                      ⟨g - 1, by simp only [List.length_cons] at hg; omega⟩
                    simp only [List.length_cons] at hg
                    rw [parseMembers, if_pos hq, hkey]
                    simp only []
                    rw [hs0]
                    simp only []
                    rw [if_pos hc, vg g' (by omega)]
                    simp only []
                    rw [hs2]
                    simp only []
                    rw [if_neg hk, if_pos hk2]
                  · rw [if_neg hk2] at h; simp at h
          · rw [if_neg hc] at h; simp at h
    · rw [if_neg hq] at h; simp at h

/-- Fuel adequacy for the three readers, for every amount of fuel. -/
theorem fuelOK_all (f : Nat) : ValueFuelOK f ∧ ElemsFuelOK f ∧ MembersFuelOK f := by
  induction f with
  | zero =>
    refine ⟨?_, ?_, ?_⟩
    · intro d cs v rest h; simp [parseValue] at h
    · intro d cs vs rest h; simp [parseElems] at h
    · intro d cs ms rest h; simp [parseMembers] at h
  | succ f ih =>
    obtain ⟨hV, hE, hM⟩ := ih
    exact ⟨valueFuelOK_succ f hE hM, elemsFuelOK_succ f hV hE, membersFuelOK_succ f hV hM⟩

/-- The fuel of `parseJSON` is enough: if the body reads as one JSON value `v`
with only white space after it for some amount of fuel, then `parseJSON` gives
`v`. So `parseJSON body = none` is never due to the fuel. -/
theorem parseJSON_of_fuel (body : String) (v : JSON) (f : Nat) (rest : List Char)
    (h : parseValue f 0 (skipSpace body.data) = some (v, rest))
    (hrest : skipSpace rest = []) : parseJSON body = some v := by
  obtain ⟨hl, hg⟩ := (fuelOK_all f).1 0 (skipSpace body.data) v rest h
  have hsk := skipSpace_length_le body.data
  have hlen : body.length = body.data.length := rfl
  unfold parseJSON
  rw [hg (2 * body.length + 2) (by omega)]
  simp only [hrest, if_true]

theorem errorContains_of_startsWith (r : Option GoError) (a b : String)
    (h : errorStartsWith r (a ++ b)) : errorContains r a ∧ errorContains r b := by
  cases r with
  | none => exact absurd h (by simp [errorStartsWith])
  | some e =>
    simp only [errorStartsWith, errorContains, String.data_append] at h ⊢
    exact ⟨((List.prefix_append _ _).trans h).isInfix,
      ((List.suffix_append _ _).isInfix).trans h.isInfix⟩

theorem getAPIKey_absent (appendErrPos : Bool) (name : String) (env : String → Option String)
    (h : env name = none) :
    getAPIKey appendErrPos name env
      = ("", some (.fundamental ("env variable for API key not set: " ++ name
          ++ getErrorPos appendErrPos ⟨"deepl.go", 72⟩))) := by
  unfold getAPIKey
  rw [h]
  exact congrArg (Prod.mk "")
    (NewErr_s _ _ _ _ name (by decide) (by decide) (by cases appendErrPos <;> decide))

theorem getAPIKey_empty (appendErrPos : Bool) (name : String) (env : String → Option String)
    (h : env name = some "") :
    getAPIKey appendErrPos name env
      = ("", some (.fundamental ("env var is set but empty: " ++ name
          ++ getErrorPos appendErrPos ⟨"deepl.go", 76⟩))) := by
  unfold getAPIKey
  rw [h]
  exact congrArg (Prod.mk "")
    (NewErr_s _ _ _ _ name (by decide) (by decide) (by cases appendErrPos <;> decide))

theorem getAPIKey_present (appendErrPos : Bool) (name v : String)
    (env : String → Option String) (hv : v ≠ "") (h : env name = some v) :
    getAPIKey appendErrPos name env = (v, none) := by
  unfold getAPIKey
  rw [h]
  simp only [if_neg hv]

/-! ## Lemmas on the request URL -/

theorem ParseQuery_empty : ParseQuery "" = ([], none) := by decide

theorem Encode_four (k text sl tl : String) :
    Values.Encode
        (Values.Add (Values.Add (Values.Add (Values.Add [] "auth_key" k) "text" text)
          "target_lang" tl) "source_lang" sl)
      = "auth_key=" ++ QueryEscape k ++ "&source_lang=" ++ QueryEscape sl
          ++ "&target_lang=" ++ QueryEscape tl ++ "&text=" ++ QueryEscape text := by
  have h1 : Values.Add (Values.Add (Values.Add (Values.Add [] "auth_key" k) "text" text)
      "target_lang" tl) "source_lang" sl
      = [("auth_key", [k]), ("text", [text]), ("target_lang", [tl]), ("source_lang", [sl])] := rfl
  have h2 : sortByKey [("auth_key", [k]), ("text", [text]), ("target_lang", [tl]),
      ("source_lang", [sl])]
      = [("auth_key", [k]), ("source_lang", [sl]), ("target_lang", [tl]), ("text", [text])] := rfl
  have e1 : QueryEscape "auth_key" = "auth_key" := by decide
  have e2 : QueryEscape "source_lang" = "source_lang" := by decide
  have e3 : QueryEscape "target_lang" = "target_lang" := by decide
  have e4 : QueryEscape "text" = "text" := by decide
  rw [Values.Encode, h1, h2]
  simp only [List.flatMap_cons, List.flatMap_nil, List.map_cons, List.map_nil, List.append_nil,
    List.cons_append, List.nil_append, List.singleton_append, e1, e2, e3, e4,
    String.intercalate, String.intercalate.go]
  apply String.ext
  simp [String.data_append]

theorem translateURL_RawQuery (base : URL) (k text sl tl : String) (hq : base.RawQuery = "") :
    (translateURL base k text sl tl).RawQuery
      = "auth_key=" ++ QueryEscape k ++ "&source_lang=" ++ QueryEscape sl
          ++ "&target_lang=" ++ QueryEscape tl ++ "&text=" ++ QueryEscape text := by
  simp only [translateURL, URL.Query, hq, ParseQuery_empty]
  exact Encode_four k text sl tl

theorem accountStatusURL_RawQuery (base : URL) (k : String) (hq : base.RawQuery = "") :
    (accountStatusURL base k).RawQuery = "auth_key=" ++ QueryEscape k := by
  simp only [accountStatusURL, URL.Query, hq, ParseQuery_empty]
  have e1 : QueryEscape "auth_key" = "auth_key" := by decide
  simp only [Values.Encode, Values.Add, sortByKey, insertByKey, List.flatMap_cons,
    List.flatMap_nil, List.map_cons, List.map_nil, List.append_nil, e1, String.intercalate,
    String.intercalate.go]
  apply String.ext
  simp [String.data_append]

/-- The rendering of a URL with a query is the rendering of the URL without
query and fragment, then `?` and the query, then the fragment. -/
theorem URL_String_query (u : URL) (h : u.RawQuery ≠ "") :
    u.String
      = URL.String { u with RawQuery := "", ForceQuery := false, Fragment := "" }
          ++ "?" ++ u.RawQuery ++ (if u.Fragment ≠ "" then "#" ++ u.EscapedFragment else "") := by
  simp only [URL.String, URL.hierPart, URL.EscapedPath, h, ne_eq, not_false_eq_true, or_true,
    if_true, not_true_eq_false, if_false, Bool.false_eq_true, false_or, String.append_assoc,
    String.append_empty]

theorem startsWith_ne_empty (a b : String) (h : a ≠ "") : a ++ b ≠ "" := by
  intro hab
  apply h
  have := congrArg String.data hab
  simp only [String.data_append] at this
  exact String.ext (List.append_eq_nil.mp this).1

/-! ## Lemmas on escaping -/

theorem char_toNat_lt (c : Char) : c.toNat < 0x110000 := by
  have h := c.valid
  simp only [UInt32.isValidChar, Nat.isValidChar] at h
  have : c.toNat = c.val.toNat := rfl
  omega

theorem utf8EncodeChar_lt (c : Char) : ∀ b ∈ utf8EncodeChar c, b < 256 := by
  have hv := char_toNat_lt c
  intro b hb
  unfold utf8EncodeChar at hb
  split_ifs at hb <;> simp only [List.mem_cons, List.mem_singleton, List.not_mem_nil, or_false] at hb
    <;> omega

theorem utf8Bytes_lt (cs : List Char) : ∀ b ∈ utf8Bytes cs, b < 256 := by
  intro b hb
  simp only [utf8Bytes, List.mem_flatMap] at hb
  obtain ⟨c, _, hc⟩ := hb
  exact utf8EncodeChar_lt c b hc

theorem utf8Decode_encode_cons (c : Char) (rest : List Nat) :
    utf8Decode 0 (utf8EncodeChar c ++ rest) = c :: utf8Decode 0 rest := by
  have hv := char_toNat_lt c
  unfold utf8EncodeChar
  split_ifs with h1 h2 h3
  · show utf8Decode 0 (c.toNat :: rest) = _
    simp only [utf8Decode, utf8DecodeHead, h1, if_true, Char.ofNat_toNat, Nat.sub_self]
  · have a1 : ¬ (0xC0 + c.toNat / 64 < 0x80) := by omega
    have a2 : ¬ (0xC0 + c.toNat / 64 < 0xC0) := by omega
    have a3 : 0xC0 + c.toNat / 64 < 0xE0 := by omega
    have a4 : isCont (0x80 + c.toNat % 64) = true := by
      simp only [isCont, Bool.and_eq_true, decide_eq_true_eq]; omega
    have a5 : (0xC0 + c.toNat / 64 - 0xC0) * 64 + (0x80 + c.toNat % 64 - 0x80) = c.toNat := by
      omega
    show utf8Decode 0 ((0xC0 + c.toNat / 64) :: (0x80 + c.toNat % 64) :: rest) = _
    simp only [utf8Decode, utf8DecodeHead, a1, a2, a3, a4, a5, if_true, if_false,
      Char.ofNat_toNat, Nat.add_one_sub_one]
  · have a1 : ¬ (0xE0 + c.toNat / 4096 < 0x80) := by omega
    have a2 : ¬ (0xE0 + c.toNat / 4096 < 0xC0) := by omega
    have a3 : ¬ (0xE0 + c.toNat / 4096 < 0xE0) := by omega
    have a3' : 0xE0 + c.toNat / 4096 < 0xF0 := by omega
    have a4 : isCont (0x80 + c.toNat / 64 % 64) = true := by
      simp only [isCont, Bool.and_eq_true, decide_eq_true_eq]; omega
    have a4' : isCont (0x80 + c.toNat % 64) = true := by
      simp only [isCont, Bool.and_eq_true, decide_eq_true_eq]; omega
    have a5 : (0xE0 + c.toNat / 4096 - 0xE0) * 4096 + (0x80 + c.toNat / 64 % 64 - 0x80) * 64
        + (0x80 + c.toNat % 64 - 0x80) = c.toNat := by omega
    show utf8Decode 0 ((0xE0 + c.toNat / 4096) :: (0x80 + c.toNat / 64 % 64)
      :: (0x80 + c.toNat % 64) :: rest) = _
    simp only [utf8Decode, utf8DecodeHead, a1, a2, a3, a3', a4, a4', a5, if_true, if_false,
      Char.ofNat_toNat, Bool.and_self, Nat.add_one_sub_one]
  · have a1 : ¬ (0xF0 + c.toNat / 262144 < 0x80) := by omega
    have a2 : ¬ (0xF0 + c.toNat / 262144 < 0xC0) := by omega
    have a3 : ¬ (0xF0 + c.toNat / 262144 < 0xE0) := by omega
    have a3' : ¬ (0xF0 + c.toNat / 262144 < 0xF0) := by omega
    have a3'' : 0xF0 + c.toNat / 262144 < 0xF8 := by omega
    have a4 : isCont (0x80 + c.toNat / 4096 % 64) = true := by
      simp only [isCont, Bool.and_eq_true, decide_eq_true_eq]; omega
    have a4' : isCont (0x80 + c.toNat / 64 % 64) = true := by
      simp only [isCont, Bool.and_eq_true, decide_eq_true_eq]; omega
    have a4'' : isCont (0x80 + c.toNat % 64) = true := by
      simp only [isCont, Bool.and_eq_true, decide_eq_true_eq]; omega
    have a5 : (0xF0 + c.toNat / 262144 - 0xF0) * 262144
        + (0x80 + c.toNat / 4096 % 64 - 0x80) * 4096 + (0x80 + c.toNat / 64 % 64 - 0x80) * 64
        + (0x80 + c.toNat % 64 - 0x80) = c.toNat := by omega
    show utf8Decode 0 ((0xF0 + c.toNat / 262144) :: (0x80 + c.toNat / 4096 % 64)
      :: (0x80 + c.toNat / 64 % 64) :: (0x80 + c.toNat % 64) :: rest) = _
    simp only [utf8Decode, utf8DecodeHead, a1, a2, a3, a3', a3'', a4, a4', a4'', a5, if_true,
      if_false, Char.ofNat_toNat, Bool.and_self, Nat.add_one_sub_one]

theorem utf8Decode_utf8Bytes (cs : List Char) : utf8Decode 0 (utf8Bytes cs) = cs := by
  induction cs with
  | nil => rfl
  | cons c cs ih =>
    simp only [utf8Bytes, List.flatMap_cons] at ih ⊢
    rw [utf8Decode_encode_cons, ih]

set_option maxRecDepth 100000 in
theorem escapeByte_query_spec : ∀ b, b < 256 →
    (∀ c ∈ escapeByte .encodeQueryComponent b,
      isAlnumByte c.toNat = true ∨ c ∈ ['-', '_', '.', '~', '+', '%']) ∧
    (escapeByte .encodeQueryComponent b = ['+'] ∧ b = 32
      ∨ escapeByte .encodeQueryComponent b = ['%', upperhex (b / 16), upperhex (b % 16)]
        ∧ unhex (upperhex (b / 16)) = some (b / 16)
        ∧ unhex (upperhex (b % 16)) = some (b % 16)
      ∨ escapeByte .encodeQueryComponent b = [Char.ofNat b] ∧ Char.ofNat b ≠ '%'
        ∧ Char.ofNat b ≠ '+' ∧ utf8EncodeChar (Char.ofNat b) = [b]) := by
  decide
theorem unescapeBytes_escapeByte (b : Nat) (hb : b < 256) (rest : List Char) :
    unescapeBytes .encodeQueryComponent 0 (escapeByte .encodeQueryComponent b ++ rest)
      = (unescapeBytes .encodeQueryComponent 0 rest).map fun bs => b :: bs := by
  rcases (escapeByte_query_spec b hb).2 with ⟨h, h32⟩ | ⟨h, h1, h2⟩ | ⟨h, hp, hq, hu⟩
  · rw [h]
    show unescapeBytes .encodeQueryComponent 0 ('+' :: rest) = _
    subst h32
    simp [unescapeBytes]
  · rw [h]
    show unescapeBytes .encodeQueryComponent 0
      ('%' :: upperhex (b / 16) :: upperhex (b % 16) :: rest) = _
    have hb' : b / 16 * 16 + b % 16 = b := by omega
    simp [unescapeBytes, percentByte, h1, h2, hb']
  · rw [h]
    show unescapeBytes .encodeQueryComponent 0 (Char.ofNat b :: rest) = _
    simp [unescapeBytes, hp, hq, hu]

theorem unescapeBytes_escape (bs : List Nat) (hb : ∀ b ∈ bs, b < 256) :
    unescapeBytes .encodeQueryComponent 0 (bs.flatMap (escapeByte .encodeQueryComponent))
      = .ok bs := by
  induction bs with
  | nil => rfl
  | cons b bs ih =>
    rw [List.flatMap_cons, unescapeBytes_escapeByte b (hb b (List.mem_cons_self _ _)),
      ih fun x hx => hb x (List.mem_cons_of_mem _ hx)]
    rfl

/-- Unescaping undoes escaping of a query component. -/
theorem QueryUnescape_QueryEscape (s : String) : QueryUnescape (QueryEscape s) = .ok s := by
  simp only [QueryUnescape, QueryEscape, unescape, escape]
  rw [unescapeBytes_escape _ (utf8Bytes_lt _)]
  simp only [Except.map, utf8Decode_utf8Bytes]

/-- An escaped query component is made of ASCII letters, digits and the
characters `-`, `_`, `.`, `~`, `+` and `%`. -/
theorem QueryEscape_chars (s : String) :
    ∀ c ∈ (QueryEscape s).data,
      isAlnumByte c.toNat = true ∨ c ∈ ['-', '_', '.', '~', '+', '%'] := by
  intro c hc
  simp only [QueryEscape, escape, List.mem_flatMap] at hc
  obtain ⟨b, hb, hcb⟩ := hc
  exact (escapeByte_query_spec b (utf8Bytes_lt _ b hb)).1 c hcb

/-- An escaped query component holds none of the separators of a query. -/
theorem QueryEscape_no_separator (s : String) :
    ∀ c ∈ (QueryEscape s).data, c ≠ '&' ∧ c ≠ ';' ∧ c ≠ '=' := by
  intro c hc
  have h := QueryEscape_chars s c hc
  refine ⟨?_, ?_, ?_⟩ <;> (rintro rfl; revert h; decide)

theorem splitChar_no_sep (sep : Char) (a : List Char) (h : sep ∉ a) : splitChar sep a = [a] := by
  induction a with
  | nil => rfl
  | cons c cs ih =>
    have hc : c ≠ sep := fun e => h (e ▸ List.mem_cons_self _ _)
    have hcs : sep ∉ cs := fun m => h (List.mem_cons_of_mem _ m)
    simp only [splitChar, if_neg hc, ih hcs]

theorem splitChar_append (sep : Char) (a rest : List Char) (h : sep ∉ a) :
    splitChar sep (a ++ sep :: rest) = a :: splitChar sep rest := by
  induction a with
  | nil => simp [splitChar]
  | cons c cs ih =>
    have hc : c ≠ sep := fun e => h (e ▸ List.mem_cons_self _ _)
    have hcs : sep ∉ cs := fun m => h (List.mem_cons_of_mem _ m)
    show splitChar sep (c :: (cs ++ sep :: rest)) = _
    rw [splitChar, if_neg hc, ih hcs]

theorem cutChar_append (sep : Char) (a rest : List Char) (h : sep ∉ a) :
    cutChar sep (a ++ sep :: rest) = (a, rest, true) := by
  induction a with
  | nil => simp [cutChar]
  | cons c cs ih =>
    have hc : c ≠ sep := fun e => h (e ▸ List.mem_cons_self _ _)
    have hcs : sep ∉ cs := fun m => h (List.mem_cons_of_mem _ m)
    show cutChar sep (c :: (cs ++ sep :: rest)) = _
    rw [cutChar, if_neg hc, ih hcs]

/-- One `key=value` piece of a query whose value is escaped adds the value to
the key. -/
theorem parseQueryPiece_pair (acc : Values × Option GoError) (key v : String)
    (h1 : ';' ∉ key.data) (h2 : '=' ∉ key.data) (h3 : QueryUnescape key = .ok key) :
    parseQueryPiece acc (key.data ++ '=' :: (QueryEscape v).data)
      = (Values.Add acc.1 key v, acc.2) := by
  have hs : ';' ∉ key.data ++ '=' :: (QueryEscape v).data := by
    simp only [List.mem_append, List.mem_cons, not_or]
    exact ⟨h1, by decide, fun m => (QueryEscape_no_separator v _ m).2.1 rfl⟩
  have hne : key.data ++ '=' :: (QueryEscape v).data ≠ [] := by simp
  unfold parseQueryPiece
  rw [if_neg hs, if_neg hne, cutChar_append _ _ _ h2]
  have e1 : (⟨key.data⟩ : String) = key := rfl
  have e2 : (⟨(QueryEscape v).data⟩ : String) = QueryEscape v := rfl
  simp only [e1, e2, h3, QueryUnescape_QueryEscape]

theorem mem_piece (key v : String) (c : Char) (hk : c ∉ key.data) (hc : c ≠ '=')
    (hv : c ∉ (QueryEscape v).data) : c ∉ key.data ++ '=' :: (QueryEscape v).data := by
  simp only [List.mem_append, List.mem_cons, not_or]
  exact ⟨hk, hc, hv⟩

/-- Parsing the query of `TranslateSentence` gives back the four entries. -/
theorem ParseQuery_four (k text sl tl : String) :
    ParseQuery ("auth_key=" ++ QueryEscape k ++ "&source_lang=" ++ QueryEscape sl
        ++ "&target_lang=" ++ QueryEscape tl ++ "&text=" ++ QueryEscape text)
      = ([("auth_key", [k]), ("source_lang", [sl]), ("target_lang", [tl]), ("text", [text])],
          none) := by
  have amp : ∀ v : String, '&' ∉ (QueryEscape v).data :=
    fun v m => (QueryEscape_no_separator v _ m).1 rfl
  have hd : ("auth_key=" ++ QueryEscape k ++ "&source_lang=" ++ QueryEscape sl
        ++ "&target_lang=" ++ QueryEscape tl ++ "&text=" ++ QueryEscape text).data
      = ("auth_key".data ++ '=' :: (QueryEscape k).data) ++ '&' ::
        (("source_lang".data ++ '=' :: (QueryEscape sl).data) ++ '&' ::
        (("target_lang".data ++ '=' :: (QueryEscape tl).data) ++ '&' ::
        ("text".data ++ '=' :: (QueryEscape text).data))) := by
    simp [String.data_append]
  unfold ParseQuery
  rw [hd, splitChar_append _ _ _ (mem_piece _ _ _ (by decide) (by decide) (amp k)),
    splitChar_append _ _ _ (mem_piece _ _ _ (by decide) (by decide) (amp sl)),
    splitChar_append _ _ _ (mem_piece _ _ _ (by decide) (by decide) (amp tl)),
    splitChar_no_sep _ _ (mem_piece _ _ _ (by decide) (by decide) (amp text))]
  simp only [List.foldl_cons, List.foldl_nil]
  rw [parseQueryPiece_pair _ "auth_key" k (by decide) (by decide) rfl,
    parseQueryPiece_pair _ "source_lang" sl (by decide) (by decide) rfl,
    parseQueryPiece_pair _ "target_lang" tl (by decide) (by decide) rfl,
    parseQueryPiece_pair _ "text" text (by decide) (by decide) rfl]
  rfl

/-! ## Lemmas on the facade -/

theorem NewRequest_POST (url : String) (body : Option String) :
    NewRequest "POST" url body
      = match Parse url with
        | .error err => .error err
        | .ok u =>
          .ok {
            Method := "POST"
            URL := { u with Host := removeEmptyPort u.Host }
            Header := []
            Body := body
            Host := removeEmptyPort u.Host } := by
  have h1 : ("POST" = "") = False := by decide
  have h2 : validMethod "POST" = true := by decide
  simp only [NewRequest, h1, if_false, h2, Bool.true_eq_false]

theorem accountStatusURL_Path (base : URL) (k : String) :
    (accountStatusURL base k).Path = pathJoin [base.Path, "v2", "usage"] := rfl

theorem translateURL_Path (base : URL) (k text sl tl : String) :
    (translateURL base k text sl tl).Path = pathJoin [base.Path, "v2", "translate"] := rfl

/-- The request URL of `GetAccountStatus` for a base URL made of a scheme and
a host. -/
theorem accountStatusURL_String_host (base : URL) (k : String) (hq : base.RawQuery = "")
    (h1 : base.Scheme ≠ "") (h2 : base.Opaque = "") (h4 : base.Host ≠ "")
    (h5 : base.Path = "") (h6 : base.RawPath = "") (h7 : base.Fragment = "") :
    (accountStatusURL base k).String
      = base.Scheme ++ "://" ++ Userinfo.String base.User
          ++ (if base.User ≠ none then "@" else "") ++ escape base.Host .encodeHost
          ++ "/v2/usage?auth_key=" ++ QueryEscape k := by
  have hr := accountStatusURL_RawQuery base k hq
  have hne : (accountStatusURL base k).RawQuery ≠ "" := by
    rw [hr]
    exact startsWith_ne_empty _ _ (by decide)
  rw [URL_String_query _ hne, hr]
  have hp : pathJoin ["", "v2", "usage"] = "v2/usage" := by decide
  have he : escape "v2/usage" .encodePath = "v2/usage" := by decide
  have hs : ("v2/usage" = "*") = False := by decide
  have hn : ("v2/usage" = "") = False := by decide
  have hh : ("v2/usage".data.head? = some '/') = False := by decide
  simp only [accountStatusURL, URL.String, URL.hierPart, URL.EscapedPath, h1, h2, h4, h5, h6, h7,
    hp, he, hs, hn, hh, ne_eq, not_true_eq_false, not_false_eq_true, false_and, and_false,
    and_true, true_and, true_or, or_true, if_true, if_false, String.append_assoc,
    String.append_empty, String.empty_append, and_self, or_self, or_false, false_or]
  by_cases hu : base.User = none
  · simp [hu, Userinfo.String, String.append_assoc]
    rfl
  · simp [hu, String.append_assoc]
    rfl
/-- What `GetAccountStatus` hands to the transport when the key is `k`: at most
one request, made by `NewRequest` from the rendering of the request URL. -/
theorem GetAccountStatus_sent (c : Client) (appendErrPos : Bool) (name ua k : String)
    (env : String → Option String) (hk : k ≠ "") (he : env name = some k) :
    ∀ req ∈ (c.GetAccountStatus appendErrPos name ua env).sent,
      req.Method = "POST" ∧ req.Body = none ∧ req.Header = [("User-Agent", ua)]
        ∧ ∃ u, Parse (accountStatusURL c.BaseURL k).String = .ok u
          ∧ req.URL = { u with Host := removeEmptyPort u.Host } := by
  intro req hreq
  unfold Client.GetAccountStatus at hreq
  rw [getAPIKey_present appendErrPos name k env hk he] at hreq
  simp only [NewRequest_POST] at hreq
  cases hP : Parse (accountStatusURL c.BaseURL k).String with
  | error e => simp [hP] at hreq
  | ok u =>
    simp only [hP] at hreq
    split at hreq <;> simp only [List.mem_singleton] at hreq <;> subst hreq
      <;> exact ⟨rfl, rfl, rfl, u, rfl, rfl⟩

/-- What `TranslateSentence` hands to the transport when the key is `k`. -/
theorem TranslateSentence_sent (c : Client) (appendErrPos : Bool) (name ua k : String)
    (env : String → Option String) (text sl tl : String) (hk : k ≠ "")
    (he : env name = some k) :
    ∀ req ∈ (c.TranslateSentence appendErrPos name ua env text sl tl).sent,
      req.Method = "POST" ∧ req.Body = none ∧ req.Header = [("User-Agent", ua)]
        ∧ ∃ u, Parse (translateURL c.BaseURL k text sl tl).String = .ok u
          ∧ req.URL = { u with Host := removeEmptyPort u.Host } := by
  intro req hreq
  unfold Client.TranslateSentence at hreq
  rw [getAPIKey_present appendErrPos name k env hk he] at hreq
  simp only [NewRequest_POST] at hreq
  cases hP : Parse (translateURL c.BaseURL k text sl tl).String with
  | error e => simp [hP] at hreq
  | ok u =>
    simp only [hP] at hreq
    split at hreq <;> simp only [List.mem_singleton] at hreq <;> subst hreq
      <;> exact ⟨rfl, rfl, rfl, u, rfl, rfl⟩

theorem errorContains_self (e : GoError) : errorContains (some e) e.Error := by
  simp only [errorContains]
  exact List.infix_refl _

theorem stageFailure_wrap {α : Type} (call : Call α) (appendErrPos : Bool) (caller : Caller)
    (cause : GoError) (label : String) (hr : call.result = none)
    (he : call.err = WrapIfErr appendErrPos caller (some cause) [.str label]) :
    StageFailure call cause label (getErrorPos appendErrPos caller) := by
  rw [WrapIfErr_some_str] at he
  refine ⟨hr, he, ?_, ?_, ?_⟩ <;> rw [he]
  · exact errorStartsWith_withMessage _ _ _
  · exact errorContains_withMessage_label _ _ _
  · exact errorContains_withMessage_cause _ _ _ (errorContains_self _)

theorem GetAccountStatus_no_key (c : Client) (appendErrPos : Bool) (name ua : String)
    (env : String → Option String) (cause : GoError)
    (h : (getAPIKey appendErrPos name env).2 = some cause) :
    StageFailure (c.GetAccountStatus appendErrPos name ua env) cause "failed to get API key"
        (getErrorPos appendErrPos ⟨"client.go", 59⟩)
      ∧ (c.GetAccountStatus appendErrPos name ua env).sent = [] := by
  unfold Client.GetAccountStatus
  cases hg : getAPIKey appendErrPos name env with
  | mk a b =>
    rw [hg] at h
    simp only at h
    subst h
    exact ⟨stageFailure_wrap _ _ _ _ _ rfl rfl, rfl⟩

theorem TranslateSentence_no_key (c : Client) (appendErrPos : Bool) (name ua : String)
    (env : String → Option String) (text sl tl : String) (cause : GoError)
    (h : (getAPIKey appendErrPos name env).2 = some cause) :
    StageFailure (c.TranslateSentence appendErrPos name ua env text sl tl) cause
        "failed to get API key" (getErrorPos appendErrPos ⟨"client.go", 110⟩)
      ∧ (c.TranslateSentence appendErrPos name ua env text sl tl).sent = [] := by
  unfold Client.TranslateSentence
  cases hg : getAPIKey appendErrPos name env with
  | mk a b =>
    rw [hg] at h
    simp only at h
    subst h
    exact ⟨stageFailure_wrap _ _ _ _ _ rfl rfl, rfl⟩

theorem GetAccountStatus_no_request (c : Client) (appendErrPos : Bool) (name ua k : String)
    (env : String → Option String) (cause : GoError)
    (hg : getAPIKey appendErrPos name env = (k, none))
    (h : NewRequest "POST" (accountStatusURL c.BaseURL k).String none = .error cause) :
    StageFailure (c.GetAccountStatus appendErrPos name ua env) cause "failed to create request"
        (getErrorPos appendErrPos ⟨"client.go", 76⟩)
      ∧ (c.GetAccountStatus appendErrPos name ua env).sent = [] := by
  unfold Client.GetAccountStatus
  rw [hg]
  simp only [h, and_true]
  exact stageFailure_wrap _ _ _ _ _ rfl rfl

theorem TranslateSentence_no_request (c : Client) (appendErrPos : Bool) (name ua k : String)
    (env : String → Option String) (text sl tl : String) (cause : GoError)
    (hg : getAPIKey appendErrPos name env = (k, none))
    (h : NewRequest "POST" (translateURL c.BaseURL k text sl tl).String none = .error cause) :
    StageFailure (c.TranslateSentence appendErrPos name ua env text sl tl) cause
        "failed to create request" (getErrorPos appendErrPos ⟨"client.go", 130⟩)
      ∧ (c.TranslateSentence appendErrPos name ua env text sl tl).sent = [] := by
  unfold Client.TranslateSentence
  rw [hg]
  simp only [h, and_true]
  exact stageFailure_wrap _ _ _ _ _ rfl rfl

theorem GetAccountStatus_no_response (c : Client) (appendErrPos : Bool) (name ua k : String)
    (env : String → Option String) (req : Request) (cause : GoError)
    (hg : getAPIKey appendErrPos name env = (k, none))
    (hn : NewRequest "POST" (accountStatusURL c.BaseURL k).String none = .ok req)
    (h : c.HTTPClient { req with Header := headerSet req.Header "User-Agent" ua }
      = .error cause) :
    StageFailure (c.GetAccountStatus appendErrPos name ua env) cause
      "failed to send http request" (getErrorPos appendErrPos ⟨"client.go", 88⟩) := by
  unfold Client.GetAccountStatus
  rw [hg]
  simp only [hn, h]
  exact stageFailure_wrap _ _ _ _ _ rfl rfl

theorem TranslateSentence_no_response (c : Client) (appendErrPos : Bool) (name ua k : String)
    (env : String → Option String) (text sl tl : String) (req : Request) (cause : GoError)
    (hg : getAPIKey appendErrPos name env = (k, none))
    (hn : NewRequest "POST" (translateURL c.BaseURL k text sl tl).String none = .ok req)
    (h : c.HTTPClient { req with Header := headerSet req.Header "User-Agent" ua }
      = .error cause) :
    StageFailure (c.TranslateSentence appendErrPos name ua env text sl tl) cause
      "failed to send http request" (getErrorPos appendErrPos ⟨"client.go", 142⟩) := by
  unfold Client.TranslateSentence
  rw [hg]
  simp only [hn, h]
  exact stageFailure_wrap _ _ _ _ _ rfl rfl

theorem accountStatusFromResponse_failure (appendErrPos : Bool) (resp : Response)
    (cause : GoError)
    (h : (responseParse appendErrPos (some resp)
      (some (Unmarshal.zero : AccountStatus))).2 = some cause) :
    accountStatusFromResponse appendErrPos resp
      = (none, WrapIfErr appendErrPos ⟨"client.go", 95⟩ (some cause)
          [.str "failed to parse response to AccountStatus"]) := by
  unfold accountStatusFromResponse
  cases hr : responseParse appendErrPos (some resp) (some (Unmarshal.zero : AccountStatus)) with
  | mk a b =>
    rw [hr] at h
    simp only at h
    subst h
    rfl

theorem translateResponseFromResponse_failure (appendErrPos : Bool) (resp : Response)
    (cause : GoError)
    (h : (responseParse appendErrPos (some resp)
      (some (Unmarshal.zero : TranslateResponse))).2 = some cause) :
    translateResponseFromResponse appendErrPos resp
      = (none, WrapIfErr appendErrPos ⟨"client.go", 149⟩ (some cause)
          [.str "failed to parse response to TranslateResponse"]) := by
  unfold translateResponseFromResponse
  cases hr : responseParse appendErrPos (some resp)
      (some (Unmarshal.zero : TranslateResponse)) with
  | mk a b =>
    rw [hr] at h
    simp only at h
    subst h
    rfl

theorem GetAccountStatus_bad_response (c : Client) (appendErrPos : Bool) (name ua k : String)
    (env : String → Option String) (req : Request) (resp : Response) (cause : GoError)
    (hg : getAPIKey appendErrPos name env = (k, none))
    (hn : NewRequest "POST" (accountStatusURL c.BaseURL k).String none = .ok req)
    (ht : c.HTTPClient { req with Header := headerSet req.Header "User-Agent" ua } = .ok resp)
    (h : (responseParse appendErrPos (some resp)
      (some (Unmarshal.zero : AccountStatus))).2 = some cause) :
    StageFailure (c.GetAccountStatus appendErrPos name ua env) cause
      "failed to parse response to AccountStatus"
      (getErrorPos appendErrPos ⟨"client.go", 95⟩) := by
  unfold Client.GetAccountStatus
  rw [hg]
  simp only [hn, ht, accountStatusFromResponse_failure appendErrPos resp cause h]
  exact stageFailure_wrap _ _ _ _ _ rfl rfl

theorem TranslateSentence_bad_response (c : Client) (appendErrPos : Bool) (name ua k : String)
    (env : String → Option String) (text sl tl : String) (req : Request) (resp : Response)
    (cause : GoError)
    (hg : getAPIKey appendErrPos name env = (k, none))
    (hn : NewRequest "POST" (translateURL c.BaseURL k text sl tl).String none = .ok req)
    (ht : c.HTTPClient { req with Header := headerSet req.Header "User-Agent" ua } = .ok resp)
    (h : (responseParse appendErrPos (some resp)
      (some (Unmarshal.zero : TranslateResponse))).2 = some cause) :
    StageFailure (c.TranslateSentence appendErrPos name ua env text sl tl) cause
      "failed to parse response to TranslateResponse"
      (getErrorPos appendErrPos ⟨"client.go", 149⟩) := by
  unfold Client.TranslateSentence
  rw [hg]
  simp only [hn, ht, translateResponseFromResponse_failure appendErrPos resp cause h]
  exact stageFailure_wrap _ _ _ _ _ rfl rfl

/-! ## Lemmas on decoding translations -/

theorem store_translation (j : JSON) (t x : translation) (h : IsTranslationJSON j t) :
    Unmarshal.store j x = (t, none) := by
  have f1 : fieldMatches "detected_source_language" "detected_source_language" = true := by
    decide
  have f2 : fieldMatches "text" "detected_source_language" = false := by decide
  have f3 : fieldMatches "text" "text" = true := by decide
  rcases h with h | h <;> subst h <;>
    simp [Unmarshal.store, storeStruct, translation.storeMember, f1, f2, f3, storeString,
      firstError]

theorem storeElems_translations (js : List JSON) (ts : List translation)
    (h : List.Forall₂ IsTranslationJSON js ts) (xs : List translation) :
    storeElems (Unmarshal.zero : translation) Unmarshal.store js xs = (ts, none) := by
  induction h generalizing xs with
  | nil => cases xs <;> rfl
  | cons hjt _ ih =>
    cases xs with
    | nil => simp only [storeElems, store_translation _ _ _ hjt, ih, firstError]
    | cons x xs => simp only [storeElems, store_translation _ _ _ hjt, ih, firstError]

theorem jsonUnmarshal_translations (body : String) (js : List JSON) (ts : List translation)
    (out : TranslateResponse)
    (hb : parseJSON body = some (.obj [("translations", .arr js)]))
    (h : List.Forall₂ IsTranslationJSON js ts) :
    jsonUnmarshal body out = (⟨ts⟩, none) := by
  have f1 : fieldMatches "translations" "translations" = true := by decide
  simp [jsonUnmarshal, hb, Unmarshal.store, storeStruct, TranslateResponse.storeMember, f1,
    storeSlice, firstError]
  have := storeElems_translations js ts h out.Translations
  exact ⟨congrArg Prod.fst this, congrArg Prod.snd this⟩

/-! ## Lemmas on `New` -/

theorem Parse_control_character (rawURL : String)
    (h : stringContainsCTLByte (cutChar '#' rawURL.data).1 = true) :
    Parse rawURL
      = .error (parseError (cutChar '#' rawURL.data).1
          (.library "net/url: invalid control character in URL")) := by
  simp only [Parse, parse, h, if_true]

theorem errorContains_parseError (url : List Char) (e : GoError) :
    errorContains (some (parseError url e)) e.Error := by
  simp only [errorContains, parseError, GoError.Error, String.data_append]
  exact (List.suffix_append _ _).isInfix

theorem New_failure (appendErrPos : Bool) (baseURLCustom : String)
    (defaultClient : Request → Except GoError Response) (apiType : APIType)
    (logger : Option Logger) (cause : GoError)
    (h : Parse (apiType.BaseURL baseURLCustom) = .error cause) :
    New appendErrPos baseURLCustom defaultClient apiType logger
      = (none, some (.withMessage cause
          ("failed to parse URL" ++ getErrorPos appendErrPos ⟨"client.go", 35⟩))) := by
  simp only [New, h, WrapIfErr_some_str]

theorem New_success (appendErrPos : Bool) (baseURLCustom : String)
    (defaultClient : Request → Except GoError Response) (apiType : APIType)
    (logger : Option Logger) (u : URL)
    (h : Parse (apiType.BaseURL baseURLCustom) = .ok u) :
    New appendErrPos baseURLCustom defaultClient apiType logger
      = (some ⟨u, defaultClient, logger.getD ⟨"os.Stderr", "[Log]", 3⟩⟩, none) := by
  simp only [New, h]


/-! ## Lemmas on the message of `NewErr` -/

/-- The message of `NewErr` by the shape of its arguments. With a format and
operands the position suffix is part of the format that `Sprintf` reads. -/
theorem NewErr_message (appendErrPos : Bool) (caller : Caller) :
    (∀ msgs, NewErr appendErrPos caller msgs = none ↔ msgs = [])
      ∧ (∀ s, NewErr appendErrPos caller [.str s]
          = some (.fundamental (s ++ getErrorPos appendErrPos caller)))
      ∧ (∀ f a rest, NewErr appendErrPos caller (.str f :: a :: rest)
          = some (.fundamental (Sprintf (f ++ getErrorPos appendErrPos caller) (a :: rest))))
      ∧ (∀ n rest, NewErr appendErrPos caller (.int n :: rest)
          = some (.fundamental (Sprint (.int n :: rest) ++ getErrorPos appendErrPos caller)))
      ∧ (NewErr true ⟨"x.go", 10⟩ [.str "%v error message(s)", .int 3]).map GoError.Error
          = some ("3 error message(s)" ++ getErrorPos true ⟨"x.go", 10⟩)
      ∧ (NewErr appendErrPos caller [.int 1, .int 2, .int 3]).map GoError.Error
          = some ("1 2 3" ++ getErrorPos appendErrPos caller) := by
  refine ⟨?_, fun _ => rfl, fun _ _ _ => rfl, ?_, ?_, rfl⟩
  · intro msgs
    cases msgs with
    | nil => simp [NewErr]
    | cons a rest =>
      cases a with
      | int n => simp [NewErr]
      | str s => cases rest <;> simp [NewErr]
  · intro n rest
    cases rest <;> rfl
  · decide

/-! ## Lemmas on the variables of a call -/

theorem accountStatusVars_eq (c : Client) (k : String) :
    accountStatusVars c k = ⟨c, accountStatusURL c.BaseURL k⟩ := rfl

theorem translateVars_eq (c : Client) (k text sl tl : String) :
    translateVars c k text sl tl = ⟨c, translateURL c.BaseURL k text sl tl⟩ := rfl

theorem GetAccountStatusRun_eq (c : Client) (appendErrPos : Bool) (name ua : String)
    (env : String → Option String) :
    c.GetAccountStatusRun appendErrPos name ua env
      = (c.GetAccountStatus appendErrPos name ua env, c) := by
  unfold Client.GetAccountStatusRun Client.GetAccountStatus
  simp only [accountStatusVars_eq]
  split
  · rfl
  · split
    · rfl
    · split <;> rfl

theorem TranslateSentenceRun_eq (c : Client) (appendErrPos : Bool) (name ua : String)
    (env : String → Option String) (text sl tl : String) :
    c.TranslateSentenceRun appendErrPos name ua env text sl tl
      = (c.TranslateSentence appendErrPos name ua env text sl tl, c) := by
  unfold Client.TranslateSentenceRun Client.TranslateSentence
  simp only [translateVars_eq]
  split
  · rfl
  · split
    · rfl
    · split <;> rfl

/-! ## Lemmas on parsing a rendered URL -/

/-- C1: for each status in 400, 401, 403, 413, 429, 456, 503 and every non-empty
body that decodes as an error body with message `m` (any string, `%` included),
`treatBodyAsErr` returns a non-nil error whose message starts with the template
of the status with `m` put in verbatim. -/
theorem treatBodyAsErr_listed_status_message {α : Type} [Unmarshal α] (appendErrPos : Bool)
    (body m : String) (out : α) (hbody : body ≠ "")
    (hdec : jsonUnmarshal body (Unmarshal.zero : ErrorResponse) = (⟨m⟩, none)) :
    errorStartsWith (treatBodyAsErr appendErrPos 400 body out).2
      ("Bad request. Please check the error message and your parameters. Returned message: " ++ m)
    ∧ errorStartsWith (treatBodyAsErr appendErrPos 401 body out).2
      ("Unauthorized. Please check your API key. Returned message: " ++ m)
    ∧ errorStartsWith (treatBodyAsErr appendErrPos 403 body out).2
      ("Authorization failed. Please supply a valid auth_key parameter. Returned message: " ++ m)
    ∧ errorStartsWith (treatBodyAsErr appendErrPos 413 body out).2
      ("Request entity too large. The entity size exceeds the limit of each request. Returned message: "
        ++ m)
    ∧ errorStartsWith (treatBodyAsErr appendErrPos 429 body out).2
      ("Too many requests. Please wait and resend your request. Returned message: " ++ m)
    ∧ errorStartsWith (treatBodyAsErr appendErrPos 456 body out).2
      ("Quota exceeded. The character limit has been reached. Returned message: " ++ m)
    ∧ errorStartsWith (treatBodyAsErr appendErrPos 503 body out).2
      ("Service currently unavailable. Try again later. Returned message: " ++ m) := by
  refine ⟨?_, ?_, ?_, ?_, ?_, ?_, ?_⟩
  · rw [treatBodyAsErr_of_message appendErrPos 400 body m out (by decide)
      (captureErrMessage_decoded appendErrPos 400 body m (by decide) hbody hdec)]
    exact errorStartsWith_fundamental_append _ m _
  · rw [treatBodyAsErr_of_message appendErrPos 401 body m out (by decide)
      (captureErrMessage_decoded appendErrPos 401 body m (by decide) hbody hdec)]
    exact errorStartsWith_fundamental_append _ m _
  · rw [treatBodyAsErr_of_message appendErrPos 403 body m out (by decide)
      (captureErrMessage_decoded appendErrPos 403 body m (by decide) hbody hdec)]
    exact errorStartsWith_fundamental_append _ m _
  · rw [treatBodyAsErr_of_message appendErrPos 413 body m out (by decide)
      (captureErrMessage_decoded appendErrPos 413 body m (by decide) hbody hdec)]
    exact errorStartsWith_fundamental_append _ m _
  · rw [treatBodyAsErr_of_message appendErrPos 429 body m out (by decide)
      (captureErrMessage_decoded appendErrPos 429 body m (by decide) hbody hdec)]
    exact errorStartsWith_fundamental_append _ m _
  · rw [treatBodyAsErr_of_message appendErrPos 456 body m out (by decide)
      (captureErrMessage_decoded appendErrPos 456 body m (by decide) hbody hdec)]
    exact errorStartsWith_fundamental_append _ m _
  · rw [treatBodyAsErr_of_message appendErrPos 503 body m out (by decide)
      (captureErrMessage_decoded appendErrPos 503 body m (by decide) hbody hdec)]
    exact errorStartsWith_fundamental_append _ m _

theorem treatBodyAsErr_listed_status_message_witness :
    ("\x7b\"message\": \"100% BAD %s REQUEST\"\x7d" : String) ≠ ""
    ∧ jsonUnmarshal "\x7b\"message\": \"100% BAD %s REQUEST\"\x7d" (Unmarshal.zero : ErrorResponse)
        = (⟨"100% BAD %s REQUEST"⟩, none)
    ∧ errorStartsWith
        (treatBodyAsErr true 456 "\x7b\"message\": \"100% BAD %s REQUEST\"\x7d"
          (⟨0, 0⟩ : AccountStatus)).2
        "Quota exceeded. The character limit has been reached. Returned message: 100% BAD %s REQUEST" :=
  ⟨by decide, by decide,
    (treatBodyAsErr_listed_status_message true "\x7b\"message\": \"100% BAD %s REQUEST\"\x7d"
      "100% BAD %s REQUEST" (⟨0, 0⟩ : AccountStatus) (by decide) (by decide)).2.2.2.2.2.1⟩

/-- C2: for status 404 and the body of the package's own test, the message the
code returns reads "clould" where the table of the specification reads "could":
it does not start with the template of the specification. -/
theorem treatBodyAsErr_not_found_misspelled :
    (treatBodyAsErr true 404 "\x7b\"message\": \"NOT FOUND\"\x7d" (⟨0, 0⟩ : AccountStatus)).2
      = some (.fundamental
          "Not found. The requested resource clould not be found. Returned message: NOT FOUND (file: deepl.go, line: 136)")
    ∧ ¬ errorStartsWith
        (treatBodyAsErr true 404 "\x7b\"message\": \"NOT FOUND\"\x7d" (⟨0, 0⟩ : AccountStatus)).2
        ("Not found. The requested resource could not be found. Returned message: "
          ++ "NOT FOUND") := by
  decide

/-- C3: for every status from 500 to 599 other than 503 and every body that is
empty (message `""`) or decodes as an error body with message `m`, the message
of the returned error starts with the internal-server-error template with the
status in decimal and `m`; a 503 response is never reported this way. -/
theorem treatBodyAsErr_internal_server_error {α : Type} [Unmarshal α] (appendErrPos : Bool)
    (status : Int) (body m : String) (out : α)
    (hlo : 500 ≤ status) (hhi : status ≤ 599) (h503 : status ≠ 503)
    (hbody : (body = "" ∧ m = "") ∨
      (body ≠ "" ∧ jsonUnmarshal body (Unmarshal.zero : ErrorResponse) = (⟨m⟩, none))) :
    errorStartsWith (treatBodyAsErr appendErrPos status body out).2
      ("Internal server error. Please try again later. Status code: " ++ toString status
        ++ ", Returned message: " ++ m)
    ∧ ∀ body503 : String,
        ¬ errorStartsWith (treatBodyAsErr appendErrPos 503 body503 out).2
          "Internal server error." := by
  constructor
  · rw [treatBodyAsErr_of_message appendErrPos status body m out (by omega)
      (captureErrMessage_of_body appendErrPos status body m (by omega) hbody)]
    simp only [codeMessage, if_neg (show ¬ status = 400 by omega),
      if_neg (show ¬ status = 401 by omega), if_neg (show ¬ status = 403 by omega),
      if_neg (show ¬ status = 404 by omega), if_neg (show ¬ status = 413 by omega),
      if_neg (show ¬ status = 429 by omega), if_neg (show ¬ status = 456 by omega),
      if_neg h503, if_pos (And.intro hlo hhi)]
    exact errorStartsWith_fundamental _ _
  · intro body503
    rcases captureErrMessage_cases appendErrPos 503 body503 with ⟨m', hm'⟩ | ⟨e, _, _, _, he⟩
    · rw [treatBodyAsErr_of_message appendErrPos 503 body503 m' out (by decide) hm']
      simp only [errorStartsWith, GoError.Error, String.data_append]
      exact not_prefix_of_head_ne _ _ _ _ (by decide)
    · rw [treatBodyAsErr_of_malformed appendErrPos 503 body503 out e he]
      obtain ⟨rest, hrest⟩ := malformedErrorBody_data appendErrPos e
      simp only [errorStartsWith, hrest]
      exact not_prefix_of_head_ne _ _ _ _ (by decide)

theorem treatBodyAsErr_internal_server_error_witness :
    errorStartsWith
      (treatBodyAsErr true 599 "\x7b\"message\": \"INTERNAL SERVER ERROR\"\x7d"
        (⟨0, 0⟩ : AccountStatus)).2
      "Internal server error. Please try again later. Status code: 599, Returned message: INTERNAL SERVER ERROR"
    ∧ errorStartsWith (treatBodyAsErr true 500 "" (⟨0, 0⟩ : AccountStatus)).2
      "Internal server error. Please try again later. Status code: 500, Returned message: " :=
  ⟨(treatBodyAsErr_internal_server_error true 599 "\x7b\"message\": \"INTERNAL SERVER ERROR\"\x7d"
      "INTERNAL SERVER ERROR" (⟨0, 0⟩ : AccountStatus) (by decide) (by decide) (by decide)
      (Or.inr ⟨by decide, by decide⟩)).1,
   (treatBodyAsErr_internal_server_error true 500 "" "" (⟨0, 0⟩ : AccountStatus)
      (by decide) (by decide) (by decide) (Or.inl ⟨rfl, rfl⟩)).1⟩

/-- C4: for every status that is not 200, not one of 400, 401, 403, 404, 413,
429, 456, 503 and not in 500..599 (negative values included), and every body
that is empty or decodes as an error body with message `m`, the message of the
returned error starts with the unexpected-error template with the status in
decimal and `m`. -/
theorem treatBodyAsErr_unexpected_status {α : Type} [Unmarshal α] (appendErrPos : Bool)
    (status : Int) (body m : String) (out : α)
    (h200 : status ≠ 200)
    (hlisted : status ∉ ([400, 401, 403, 404, 413, 429, 456, 503] : List Int))
    (hrange : ¬ (500 ≤ status ∧ status ≤ 599))
    (hbody : (body = "" ∧ m = "") ∨
      (body ≠ "" ∧ jsonUnmarshal body (Unmarshal.zero : ErrorResponse) = (⟨m⟩, none))) :
    errorStartsWith (treatBodyAsErr appendErrPos status body out).2
      ("Unexpected error. Status code: " ++ toString status ++ ", Returned message: " ++ m) := by
  simp only [List.mem_cons, List.mem_singleton, List.not_mem_nil, or_false, not_or] at hlisted
  obtain ⟨h1, h2, h3, h4, h5, h6, h7, h8⟩ := hlisted
  rw [treatBodyAsErr_of_message appendErrPos status body m out h200
    (captureErrMessage_of_body appendErrPos status body m h200 hbody)]
  simp only [codeMessage, if_neg h1, if_neg h2, if_neg h3, if_neg h4, if_neg h5, if_neg h6,
    if_neg h7, if_neg h8, if_neg hrange]
  exact errorStartsWith_fundamental _ _

theorem treatBodyAsErr_unexpected_status_witness :
    errorStartsWith
      (treatBodyAsErr true 999 "\x7b\"message\": \"UNKNOWN ERROR\"\x7d" (⟨0, 0⟩ : AccountStatus)).2
      "Unexpected error. Status code: 999, Returned message: UNKNOWN ERROR"
    ∧ errorStartsWith (treatBodyAsErr false (-1) "" (⟨0, 0⟩ : AccountStatus)).2
      "Unexpected error. Status code: -1, Returned message: " :=
  ⟨treatBodyAsErr_unexpected_status true 999 "\x7b\"message\": \"UNKNOWN ERROR\"\x7d"
      "UNKNOWN ERROR" (⟨0, 0⟩ : AccountStatus) (by decide) (by decide) (by decide)
      (Or.inr ⟨by decide, by decide⟩),
   treatBodyAsErr_unexpected_status false (-1) "" "" (⟨0, 0⟩ : AccountStatus)
      (by decide) (by decide) (by decide) (Or.inl ⟨rfl, rfl⟩)⟩

/-- C5: for every status other than 200 (one with its own row of the table
included) and every non-empty body that cannot be decoded as an error body, the
returned error wraps the decoder's failure: its message is
`failed to decode error response`, then `failed to decode json`, then the cause.
It starts with no template of the table, and it is not the error that a 200
response produces (`failed to parse JSON response`). -/
theorem treatBodyAsErr_malformed_error_body {α : Type} [Unmarshal α] (appendErrPos : Bool)
    (status : Int) (body : String) (out : α) (e : JSONError)
    (hs : status ≠ 200) (hbody : body ≠ "")
    (hdec : (jsonUnmarshal body (Unmarshal.zero : ErrorResponse)).2 = some e) :
    (treatBodyAsErr appendErrPos status body out).2
      = some (.withMessage
          (.withMessage (.json e)
            ("failed to decode json" ++ getErrorPos appendErrPos ⟨"deepl.go", 61⟩))
          ("failed to decode error response" ++ getErrorPos appendErrPos ⟨"deepl.go", 111⟩))
    ∧ errorStartsWith (treatBodyAsErr appendErrPos status body out).2
        "failed to decode error response"
    ∧ errorContains (treatBodyAsErr appendErrPos status body out).2 "failed to decode json"
    ∧ errorContains (treatBodyAsErr appendErrPos status body out).2 e.Error
    ∧ (∀ msg : String,
        ¬ errorStartsWith (treatBodyAsErr appendErrPos status body out).2
          (specMessage status msg))
    ∧ ¬ errorStartsWith (treatBodyAsErr appendErrPos status body out).2
        "failed to parse JSON response"
    ∧ (∀ (body200 : String) (out200 : α),
        (treatBodyAsErr appendErrPos status body out).2
          ≠ (treatBodyAsErr appendErrPos 200 body200 out200).2) := by
  have hr := treatBodyAsErr_of_malformed appendErrPos status body out e
    (captureErrMessage_malformed appendErrPos status body e hs hbody hdec)
  rw [hr]
  refine ⟨rfl, ?_, ?_, ?_, ?_, ?_, ?_⟩
  · exact errorStartsWith_withMessage _ _ _
  · exact errorContains_withMessage_cause _ _ _ (errorContains_withMessage_label _ _ _)
  · exact errorContains_withMessage_cause _ _ _
      (errorContains_withMessage_cause _ _ _ (errorContains_json e))
  · intro msg
    obtain ⟨rest, hrest⟩ := malformedErrorBody_data appendErrPos e
    obtain ⟨c, rest', hc, hne⟩ := specMessage_data status msg
    simp only [errorStartsWith, hrest, hc]
    exact not_prefix_of_head_ne _ _ _ _ hne
  · exact not_errorStartsWith_withMessage _ _ _ _ 11 (by decide) (by decide) (by decide)
  · intro body200 out200
    rw [treatBodyAsErr_status_ok]
    cases (jsonUnmarshal body200 out200).2 with
    | none => simp
    | some e200 =>
      simp only [Option.map_some', malformedErrorBody, malformedResponse, ne_eq,
        Option.some.injEq, GoError.withMessage.injEq, not_and]
      intro _ hmsg
      exact string_append_ne_of_take_ne "failed to decode error response"
        "failed to parse JSON response" _ _ 11 (by decide) (by decide) (by decide) hmsg

theorem treatBodyAsErr_malformed_error_body_witness :
    errorStartsWith
      (treatBodyAsErr true 400 "this is: invalid json format" (⟨0, 0⟩ : AccountStatus)).2
      "failed to decode error response"
    ∧ errorContains
      (treatBodyAsErr true 400 "this is: invalid json format" (⟨0, 0⟩ : AccountStatus)).2
      "failed to decode json" :=
  ⟨(treatBodyAsErr_malformed_error_body true 400 "this is: invalid json format"
      (⟨0, 0⟩ : AccountStatus) .syntaxError (by decide) (by decide) (by decide)).2.1,
   (treatBodyAsErr_malformed_error_body true 400 "this is: invalid json format"
      (⟨0, 0⟩ : AccountStatus) .syntaxError (by decide) (by decide) (by decide)).2.2.1⟩

/-- C6: for status 200 and every body that is not a JSON text, the empty body
included, `treatBodyAsErr` returns the error `failed to parse JSON response`
wrapping `failed to decode json` wrapping the syntax failure, the target is left
as it was, and the last step of `GetAccountStatus` returns a nil result. -/
theorem treatBodyAsErr_malformed_response {α : Type} [Unmarshal α] (appendErrPos : Bool)
    (body : String) (out : α) (hbody : parseJSON body = none) :
    treatBodyAsErr appendErrPos 200 body out
      = (out, some (.withMessage
          (.withMessage (.json .syntaxError)
            ("failed to decode json" ++ getErrorPos appendErrPos ⟨"deepl.go", 61⟩))
          ("failed to parse JSON response" ++ getErrorPos appendErrPos ⟨"deepl.go", 121⟩)))
    ∧ errorStartsWith (treatBodyAsErr appendErrPos 200 body out).2
        "failed to parse JSON response"
    ∧ errorContains (treatBodyAsErr appendErrPos 200 body out).2 "failed to decode json"
    ∧ (accountStatusFromResponse appendErrPos ⟨200, .ok body⟩).1 = none
    ∧ errorContains (accountStatusFromResponse appendErrPos ⟨200, .ok body⟩).2
        "failed to parse JSON response"
    ∧ parseJSON "" = none := by
  have hr : ∀ (β : Type) [Unmarshal β] (o : β), treatBodyAsErr appendErrPos 200 body o
      = (o, some (malformedResponse appendErrPos .syntaxError)) := by
    intro β _ o
    rw [treatBodyAsErr_status_ok, jsonUnmarshal_invalid body o hbody]
    rfl
  rw [hr α out]
  refine ⟨rfl, ?_, ?_, ?_, ?_, Option.isNone_iff_eq_none.mp (by decide)⟩
  · exact errorStartsWith_withMessage _ _ _
  · exact errorContains_withMessage_cause _ _ _ (errorContains_withMessage_label _ _ _)
  · simp only [accountStatusFromResponse, responseParse, hr AccountStatus]
  · simp only [accountStatusFromResponse, responseParse, hr AccountStatus, WrapIfErr_some_str]
    exact errorContains_withMessage_cause _ _ _ (errorContains_withMessage_label _ _ _)

theorem treatBodyAsErr_malformed_response_witness :
    parseJSON "this is: invalid json format" = none
    ∧ (treatBodyAsErr true 200 "this is: invalid json format" (⟨3, 4⟩ : AccountStatus)).1
        = ⟨3, 4⟩
    ∧ errorStartsWith
        (treatBodyAsErr true 200 "this is: invalid json format" (⟨3, 4⟩ : AccountStatus)).2
        "failed to parse JSON response" :=
  ⟨Option.isNone_iff_eq_none.mp (by decide),
   congrArg Prod.fst (treatBodyAsErr_malformed_response true "this is: invalid json format"
      (⟨3, 4⟩ : AccountStatus) (Option.isNone_iff_eq_none.mp (by decide))).1,
   (treatBodyAsErr_malformed_response true "this is: invalid json format"
      (⟨3, 4⟩ : AccountStatus) (Option.isNone_iff_eq_none.mp (by decide))).2.1⟩

/-- C7: for status 200 and the body `{"character_count": c, "character_limit": l}`
with non-negative `c` and `l` that fit an `int`, `treatBodyAsErr` against an
`AccountStatus` returns no error and leaves the target equal to
`AccountStatus{CharacterCount: c, CharacterLimit: l}`, whatever it held. -/
theorem treatBodyAsErr_account_status (appendErrPos : Bool) (c l : Nat)
    (hc : c < 2 ^ 63) (hl : l < 2 ^ 63) (out : AccountStatus) :
    treatBodyAsErr appendErrPos 200 (accountStatusBody c l) out = (⟨c, l⟩, none) := by
  rw [treatBodyAsErr_status_ok, jsonUnmarshal_accountStatusBody c l hc hl out]
  rfl

theorem treatBodyAsErr_account_status_witness :
    accountStatusBody 10 20 = "\x7b\"character_count\": 10, \"character_limit\": 20\x7d"
    ∧ treatBodyAsErr true 200 "\x7b\"character_count\": 10, \"character_limit\": 20\x7d"
        (⟨7, 7⟩ : AccountStatus) = (⟨10, 20⟩, none) :=
  ⟨by decide, treatBodyAsErr_account_status true 10 20 (by decide) (by decide) ⟨7, 7⟩⟩

/-- C8: for status 404 and the empty body nothing is decoded and the message
the code returns is its own template with nothing put in, which reads "clould"
where the table of the specification reads "could": the message does not start
with the template of the specification. -/
theorem treatBodyAsErr_empty_body_not_found_misspelled :
    captureErrMessage true 404 "" = .ok ""
    ∧ (treatBodyAsErr true 404 "" (⟨0, 0⟩ : AccountStatus)).2
      = some (.fundamental
          "Not found. The requested resource clould not be found. Returned message:  (file: deepl.go, line: 136)")
    ∧ ¬ errorStartsWith (treatBodyAsErr true 404 "" (⟨0, 0⟩ : AccountStatus)).2
        (specMessage 404 "") :=
  ⟨rfl, by decide, by decide⟩

/-- C9: the returned error is nil exactly when the status is 200 and the body
decodes into the target; every returned error has a non-empty message. -/
theorem treatBodyAsErr_nil_iff {α : Type} [Unmarshal α] (appendErrPos : Bool) (status : Int)
    (body : String) (out : α) :
    ((treatBodyAsErr appendErrPos status body out).2 = none
      ↔ status = 200 ∧ (jsonUnmarshal body out).2 = none)
    ∧ ∀ e : GoError, (treatBodyAsErr appendErrPos status body out).2 = some e → e.Error ≠ "" := by
  by_cases hs : status = 200
  · subst hs
    rw [treatBodyAsErr_status_ok]
    constructor
    · cases (jsonUnmarshal body out).2 <;> simp
    · intro e he
      cases hj : (jsonUnmarshal body out).2 with
      | none => rw [hj] at he; simp at he
      | some je =>
        rw [hj] at he
        simp only [Option.map_some', Option.some.injEq] at he
        subst he
        obtain ⟨rest, hrest⟩ := malformedResponse_data appendErrPos je
        exact ne_empty_of_data _ _ _ hrest
  · rcases captureErrMessage_cases appendErrPos status body with ⟨m, hm⟩ | ⟨je, _, _, _, he⟩
    · rw [treatBodyAsErr_of_message appendErrPos status body m out hs hm]
      constructor
      · simp [hs]
      · intro e he
        simp only [Option.some.injEq] at he
        subst he
        obtain ⟨c, rest, hc, _⟩ := codeMessage_data status m
        apply ne_empty_of_data _ c (rest ++ (getErrorPos appendErrPos
          ⟨"deepl.go", codeLine status⟩).data)
        simp only [GoError.Error, String.data_append, hc, List.cons_append]
    · rw [treatBodyAsErr_of_malformed appendErrPos status body out je he]
      constructor
      · simp [hs]
      · intro e he'
        simp only [Option.some.injEq] at he'
        subst he'
        obtain ⟨rest, hrest⟩ := malformedErrorBody_data appendErrPos je
        exact ne_empty_of_data _ _ _ hrest

/-- C10, as stated, fails: a 200 response whose body is well-formed JSON with a
field of the wrong type returns an error after the field that fits has been
stored in the target. -/
theorem treatBodyAsErr_type_mismatch_changes_target :
    (treatBodyAsErr true 200 "\x7b\"character_count\": 10, \"character_limit\": \"x\"\x7d"
        (⟨0, 0⟩ : AccountStatus)).2 ≠ none
    ∧ (treatBodyAsErr true 200 "\x7b\"character_count\": 10, \"character_limit\": \"x\"\x7d"
        (⟨0, 0⟩ : AccountStatus)).1 = ⟨10, 0⟩
    ∧ (treatBodyAsErr true 200 "\x7b\"character_count\": 10, \"character_limit\": \"x\"\x7d"
        (⟨0, 0⟩ : AccountStatus)).1 ≠ ⟨0, 0⟩ := by
  decide

/-- C10, amended: for every initial value of the target, when the status is not
200, or the body is not a JSON text, `treatBodyAsErr` returns an error and the
target still holds its initial value. -/
theorem treatBodyAsErr_failure_keeps_target {α : Type} [Unmarshal α] (appendErrPos : Bool)
    (status : Int) (body : String) (out : α)
    (h : status ≠ 200 ∨ parseJSON body = none) :
    (treatBodyAsErr appendErrPos status body out).2 ≠ none
    ∧ (treatBodyAsErr appendErrPos status body out).1 = out := by
  by_cases hs : status = 200
  · subst hs
    have hb : parseJSON body = none := h.resolve_left (fun hne => hne rfl)
    rw [treatBodyAsErr_status_ok, jsonUnmarshal_invalid body out hb]
    simp
  · rcases captureErrMessage_cases appendErrPos status body with ⟨m, hm⟩ | ⟨je, _, _, _, he⟩
    · rw [treatBodyAsErr_of_message appendErrPos status body m out hs hm]
      simp
    · rw [treatBodyAsErr_of_malformed appendErrPos status body out je he]
      simp

theorem treatBodyAsErr_failure_keeps_target_witness :
    ((treatBodyAsErr true 400 "\x7b\"message\": \"BAD REQUEST\"\x7d" (⟨3, 4⟩ : AccountStatus)).2 ≠ none
      ∧ (treatBodyAsErr true 400 "\x7b\"message\": \"BAD REQUEST\"\x7d" (⟨3, 4⟩ : AccountStatus)).1
          = ⟨3, 4⟩)
    ∧ ((treatBodyAsErr true 200 "\x7b\"character_count\": 10," (⟨3, 4⟩ : AccountStatus)).2 ≠ none
      ∧ (treatBodyAsErr true 200 "\x7b\"character_count\": 10," (⟨3, 4⟩ : AccountStatus)).1
          = ⟨3, 4⟩) :=
  ⟨treatBodyAsErr_failure_keeps_target true 400 "\x7b\"message\": \"BAD REQUEST\"\x7d"
      (⟨3, 4⟩ : AccountStatus) (Or.inl (by decide)),
   treatBodyAsErr_failure_keeps_target true 200 "\x7b\"character_count\": 10,"
      (⟨3, 4⟩ : AccountStatus) (Or.inr (Option.isNone_iff_eq_none.mp (by decide)))⟩

/-- C11: after `SetCustomURL(u)` with a non-empty `u`, `BaseURL()` and
`String()` of every `APIType` value, the three constants and any other integer,
return exactly `u`. -/
theorem BaseURL_override (u : String) (a : APIType) (before : String) (hu : u ≠ "") :
    a.BaseURL (SetCustomURL u before) = u ∧ a.String (SetCustomURL u before) = u := by
  simp [APIType.String, APIType.BaseURL, SetCustomURL, hu]

theorem BaseURL_override_witness :
    (APIFree.BaseURL (SetCustomURL "http://localhost:8080" baseURLCustomInit)
        = "http://localhost:8080"
      ∧ APIFree.String (SetCustomURL "http://localhost:8080" baseURLCustomInit)
        = "http://localhost:8080")
    ∧ (APIType.BaseURL ⟨-7⟩ (SetCustomURL "not a url" "http://other")
        = "not a url"
      ∧ APIType.String ⟨-7⟩ (SetCustomURL "not a url" "http://other") = "not a url") :=
  ⟨BaseURL_override "http://localhost:8080" APIFree baseURLCustomInit (by decide),
   BaseURL_override "not a url" ⟨-7⟩ "http://other" (by decide)⟩

/-- C12: after `SetCustomURL(u)` followed by `SetCustomURL("")`, for every `u`
and every earlier value of the override, `APIFree`, `APIPro` and `APICustom`
resolve to the free URL, the pro URL and the empty string, `String()` agrees
with `BaseURL()`, and the same holds when no override was ever set. -/
theorem BaseURL_cleared (u before : String) :
    APIFree.BaseURL (SetCustomURL "" (SetCustomURL u before)) = "https://api-free.deepl.com"
    ∧ APIPro.BaseURL (SetCustomURL "" (SetCustomURL u before)) = "https://api.deepl.com"
    ∧ APICustom.BaseURL (SetCustomURL "" (SetCustomURL u before)) = ""
    ∧ (∀ a : APIType, a.String (SetCustomURL "" (SetCustomURL u before))
        = a.BaseURL (SetCustomURL "" (SetCustomURL u before)))
    ∧ APIFree.BaseURL baseURLCustomInit = "https://api-free.deepl.com"
    ∧ APIPro.BaseURL baseURLCustomInit = "https://api.deepl.com"
    ∧ APICustom.BaseURL baseURLCustomInit = ""
    ∧ (∀ a : APIType, a.String baseURLCustomInit = a.BaseURL baseURLCustomInit) := by
  refine ⟨?_, ?_, ?_, fun _ => rfl, ?_, ?_, ?_, fun _ => rfl⟩ <;>
    simp [APIType.BaseURL, SetCustomURL, baseURLCustomInit, APIFree, APIPro, APICustom]

/-- C13: over an explicit environment, `getAPIKey` returns the empty key and
an error naming the variable when the variable is not set, the empty key and a
differently worded error naming the variable when it is set to the empty
string, and the value with no error otherwise; it fails exactly in the first
two cases. -/
theorem getAPIKey_cases (appendErrPos : Bool) (name : String) (env : String → Option String) :
    (env name = none →
      (getAPIKey appendErrPos name env).1 = ""
      ∧ errorStartsWith (getAPIKey appendErrPos name env).2
          ("env variable for API key not set: " ++ name)
      ∧ errorContains (getAPIKey appendErrPos name env).2 "env variable for API key not set"
      ∧ errorContains (getAPIKey appendErrPos name env).2 name
      ∧ ¬ errorStartsWith (getAPIKey appendErrPos name env).2 "env var is set but empty")
    ∧ (env name = some "" →
      (getAPIKey appendErrPos name env).1 = ""
      ∧ errorStartsWith (getAPIKey appendErrPos name env).2
          ("env var is set but empty: " ++ name)
      ∧ errorContains (getAPIKey appendErrPos name env).2 "env var is set but empty"
      ∧ errorContains (getAPIKey appendErrPos name env).2 name
      ∧ ¬ errorStartsWith (getAPIKey appendErrPos name env).2
          "env variable for API key not set")
    ∧ (∀ v : String, v ≠ "" → env name = some v →
      getAPIKey appendErrPos name env = (v, none))
    ∧ ((getAPIKey appendErrPos name env).2 ≠ none ↔ (env name = none ∨ env name = some "")) := by
  refine ⟨fun h => ?_, fun h => ?_, fun v hv h => getAPIKey_present appendErrPos name v env hv h,
    ?_⟩
  · rw [getAPIKey_absent appendErrPos name env h]
    have hs := errorStartsWith_fundamental_append "env variable for API key not set: " name
      (getErrorPos appendErrPos ⟨"deepl.go", 72⟩)
    have hc := errorContains_of_startsWith _ _ _ hs
    have hl := errorContains_of_startsWith _ "env variable for API key not set" ": "
      (errorStartsWith_fundamental_append "env variable for API key not set" ": "
        (name ++ getErrorPos appendErrPos ⟨"deepl.go", 72⟩))
    refine ⟨rfl, hs, ?_, hc.2, ?_⟩
    · simp only [errorContains, GoError.Error, String.data_append, List.append_assoc] at hl ⊢
      exact hl.1
    · simp only [errorStartsWith, GoError.Error, String.data_append, List.append_assoc]
      exact not_prefix_of_take_ne _ _ _ 8 (by decide) (by decide) (by decide)
  · rw [getAPIKey_empty appendErrPos name env h]
    have hs := errorStartsWith_fundamental_append "env var is set but empty: " name
      (getErrorPos appendErrPos ⟨"deepl.go", 76⟩)
    have hc := errorContains_of_startsWith _ _ _ hs
    have hl := errorContains_of_startsWith _ "env var is set but empty" ": "
      (errorStartsWith_fundamental_append "env var is set but empty" ": "
        (name ++ getErrorPos appendErrPos ⟨"deepl.go", 76⟩))
    refine ⟨rfl, hs, ?_, hc.2, ?_⟩
    · simp only [errorContains, GoError.Error, String.data_append, List.append_assoc] at hl ⊢
      exact hl.1
    · simp only [errorStartsWith, GoError.Error, String.data_append, List.append_assoc]
      exact not_prefix_of_take_ne _ _ _ 8 (by decide) (by decide) (by decide)
  · cases h : env name with
    | none => rw [getAPIKey_absent appendErrPos name env h]; simp
    | some v =>
      by_cases hv : v = ""
      · subst hv
        rw [getAPIKey_empty appendErrPos name env h]; simp
      · rw [getAPIKey_present appendErrPos name v env hv h]; simp [hv]

/-- C14: for every API key, text, source and target language (empty ones
included) and a base URL without a query, the query of the request URL that
`TranslateSentence` builds is `auth_key`, `source_lang`, `target_lang` and
`text`, each once and in this order, with the values query-escaped; the URL
string handed to `NewRequest` carries this query after a `?`. -/
theorem TranslateSentence_query (base : URL) (apiKey text sourceLang targetLang : String)
    (hq : base.RawQuery = "") :
    (translateURL base apiKey text sourceLang targetLang).RawQuery
        = "auth_key=" ++ QueryEscape apiKey ++ "&source_lang=" ++ QueryEscape sourceLang
            ++ "&target_lang=" ++ QueryEscape targetLang ++ "&text=" ++ QueryEscape text
      ∧ (translateURL base apiKey text sourceLang targetLang).String
        = URL.String { translateURL base apiKey text sourceLang targetLang with
              RawQuery := "", ForceQuery := false, Fragment := "" }
            ++ "?"
            ++ ("auth_key=" ++ QueryEscape apiKey ++ "&source_lang=" ++ QueryEscape sourceLang
              ++ "&target_lang=" ++ QueryEscape targetLang ++ "&text=" ++ QueryEscape text)
            ++ (if base.Fragment ≠ "" then "#" ++ base.EscapedFragment else "") := by
  have h := translateURL_RawQuery base apiKey text sourceLang targetLang hq
  refine ⟨h, ?_⟩
  have hne : (translateURL base apiKey text sourceLang targetLang).RawQuery ≠ "" := by
    rw [h]
    simp only [String.append_assoc]
    exact startsWith_ne_empty _ _ (by decide)
  rw [URL_String_query _ hne, h]
  rfl

theorem TranslateSentence_query_witness :
    (translateURL { Scheme := "https", Host := "api-free.deepl.com" } "KEY" "hello" "EN" "JA").RawQuery
        = "auth_key=KEY&source_lang=EN&target_lang=JA&text=hello"
      ∧ (translateURL { Scheme := "https", Host := "api-free.deepl.com" } "KEY" "hello" "EN" "").RawQuery
        = "auth_key=KEY&source_lang=EN&target_lang=&text=hello"
      ∧ (translateURL { Scheme := "https", Host := "api-free.deepl.com" } "a b&c" "x=1 +é" "" "JA").String
        = "https://api-free.deepl.com/v2/translate?auth_key=a+b%26c&source_lang=&target_lang=JA&text=x%3D1+%2B%C3%A9" :=
  ⟨(TranslateSentence_query { Scheme := "https", Host := "api-free.deepl.com" }
      "KEY" "hello" "EN" "JA" rfl).1,
    (TranslateSentence_query { Scheme := "https", Host := "api-free.deepl.com" }
      "KEY" "hello" "EN" "" rfl).1,
    (TranslateSentence_query { Scheme := "https", Host := "api-free.deepl.com" }
      "a b&c" "x=1 +é" "" "JA" rfl).2⟩

/-- C15, as stated it fails for a base URL that has a query of its own: the
entries of the base URL are kept, so parsing the query of the request gives
more than the four entries, and a base URL that sets `auth_key` gives that key
two values. -/
theorem ParseQuery_keeps_base_query :
    (translateURL
          { Scheme := "http", Host := "localhost:8080", Path := "/",
            RawQuery := "auth_key=old&x=1" } "k" "hello" "EN" "JA").RawQuery
        = "auth_key=old&auth_key=k&source_lang=EN&target_lang=JA&text=hello&x=1"
      ∧ (ParseQuery (translateURL
          { Scheme := "http", Host := "localhost:8080", Path := "/",
            RawQuery := "auth_key=old&x=1" } "k" "hello" "EN" "JA").RawQuery).1
        = [("auth_key", ["old", "k"]), ("source_lang", ["EN"]), ("target_lang", ["JA"]),
            ("text", ["hello"]), ("x", ["1"])] := by
  decide

/-- C15 (amended): for a base URL without a query, parsing the query that
`TranslateSentence` builds gives exactly the entries `auth_key`, `source_lang`,
`target_lang` and `text`, each with the one value that was passed in, and
reports no error; an escaped value is made of ASCII letters, digits and
`-_.~+%` only, so it holds no separator of a query. -/
theorem ParseQuery_request_query (base : URL)
    (apiKey text sourceLang targetLang : String) (hq : base.RawQuery = "") :
    ParseQuery (translateURL base apiKey text sourceLang targetLang).RawQuery
        = ([("auth_key", [apiKey]), ("source_lang", [sourceLang]),
            ("target_lang", [targetLang]), ("text", [text])], none)
      ∧ (∀ v : String, QueryUnescape (QueryEscape v) = .ok v)
      ∧ ∀ v : String, ∀ c ∈ (QueryEscape v).data,
          isAlnumByte c.toNat = true ∨ c ∈ ['-', '_', '.', '~', '+', '%'] := by
  refine ⟨?_, QueryUnescape_QueryEscape, QueryEscape_chars⟩
  rw [translateURL_RawQuery base apiKey text sourceLang targetLang hq]
  exact ParseQuery_four apiKey text sourceLang targetLang

theorem ParseQuery_request_query_witness :
    ParseQuery (translateURL { Scheme := "https", Host := "api-free.deepl.com" }
          "a&b=c" "1+1=2 & 100% #é;" "E N" "").RawQuery
        = ([("auth_key", ["a&b=c"]), ("source_lang", ["E N"]), ("target_lang", [""]),
            ("text", ["1+1=2 & 100% #é;"])], none)
      ∧ (translateURL { Scheme := "https", Host := "api-free.deepl.com" }
          "a&b=c" "1+1=2 & 100% #é;" "E N" "").RawQuery
        = "auth_key=a%26b%3Dc&source_lang=E+N&target_lang=&text=1%2B1%3D2+%26+100%25+%23%C3%A9%3B" :=
  ⟨(ParseQuery_request_query { Scheme := "https", Host := "api-free.deepl.com" }
      "a&b=c" "1+1=2 & 100% #é;" "E N" "" rfl).1, by decide⟩

/-- C17: for `GetAccountStatus` and `TranslateSentence`, a failure of the
credential lookup, of the request construction, of the transport or of the
classification of the response gives a nil result and one error that is the
cause with the label of the stage put in front (`failed to get API key`,
`failed to create request`, `failed to send http request`, `failed to parse
response to AccountStatus` or `failed to parse response to TranslateResponse`),
so its message contains the label and the message of the cause; when the
credential lookup or the request construction fails no request is sent. -/
theorem facade_failure (c : Client) (appendErrPos : Bool) (name userAgent : String)
    (env : String → Option String) (text sourceLang targetLang : String) :
    (∀ cause, (getAPIKey appendErrPos name env).2 = some cause →
        (StageFailure (c.GetAccountStatus appendErrPos name userAgent env) cause
            "failed to get API key" (getErrorPos appendErrPos ⟨"client.go", 59⟩)
          ∧ (c.GetAccountStatus appendErrPos name userAgent env).sent = [])
        ∧ StageFailure
            (c.TranslateSentence appendErrPos name userAgent env text sourceLang targetLang)
            cause "failed to get API key" (getErrorPos appendErrPos ⟨"client.go", 110⟩)
          ∧ (c.TranslateSentence appendErrPos name userAgent env text sourceLang
              targetLang).sent = [])
    ∧ (∀ k cause, getAPIKey appendErrPos name env = (k, none) →
        (NewRequest "POST" (accountStatusURL c.BaseURL k).String none = .error cause →
          StageFailure (c.GetAccountStatus appendErrPos name userAgent env) cause
              "failed to create request" (getErrorPos appendErrPos ⟨"client.go", 76⟩)
            ∧ (c.GetAccountStatus appendErrPos name userAgent env).sent = [])
        ∧ (NewRequest "POST" (translateURL c.BaseURL k text sourceLang targetLang).String none
            = .error cause →
          StageFailure
              (c.TranslateSentence appendErrPos name userAgent env text sourceLang targetLang)
              cause "failed to create request" (getErrorPos appendErrPos ⟨"client.go", 130⟩)
            ∧ (c.TranslateSentence appendErrPos name userAgent env text sourceLang
                targetLang).sent = []))
    ∧ (∀ k req cause, getAPIKey appendErrPos name env = (k, none) →
        c.HTTPClient { req with Header := headerSet req.Header "User-Agent" userAgent }
          = .error cause →
        (NewRequest "POST" (accountStatusURL c.BaseURL k).String none = .ok req →
          StageFailure (c.GetAccountStatus appendErrPos name userAgent env) cause
            "failed to send http request" (getErrorPos appendErrPos ⟨"client.go", 88⟩))
        ∧ (NewRequest "POST" (translateURL c.BaseURL k text sourceLang targetLang).String none
            = .ok req →
          StageFailure
            (c.TranslateSentence appendErrPos name userAgent env text sourceLang targetLang)
            cause "failed to send http request" (getErrorPos appendErrPos ⟨"client.go", 142⟩)))
    ∧ (∀ k req resp cause, getAPIKey appendErrPos name env = (k, none) →
        c.HTTPClient { req with Header := headerSet req.Header "User-Agent" userAgent }
          = .ok resp →
        (NewRequest "POST" (accountStatusURL c.BaseURL k).String none = .ok req →
          (responseParse appendErrPos (some resp) (some (Unmarshal.zero : AccountStatus))).2
            = some cause →
          StageFailure (c.GetAccountStatus appendErrPos name userAgent env) cause
            "failed to parse response to AccountStatus"
            (getErrorPos appendErrPos ⟨"client.go", 95⟩))
        ∧ (NewRequest "POST" (translateURL c.BaseURL k text sourceLang targetLang).String none
            = .ok req →
          (responseParse appendErrPos (some resp) (some (Unmarshal.zero : TranslateResponse))).2
            = some cause →
          StageFailure
            (c.TranslateSentence appendErrPos name userAgent env text sourceLang targetLang)
            cause "failed to parse response to TranslateResponse"
            (getErrorPos appendErrPos ⟨"client.go", 149⟩))) := by
  refine ⟨fun cause h => ⟨GetAccountStatus_no_key c _ _ _ _ cause h,
      TranslateSentence_no_key c _ _ _ _ _ _ _ cause h⟩,
    fun k cause hg => ⟨GetAccountStatus_no_request c _ _ _ k _ cause hg,
      TranslateSentence_no_request c _ _ _ k _ _ _ _ cause hg⟩,
    fun k req cause hg ht => ⟨fun hn => GetAccountStatus_no_response c _ _ _ k _ req cause hg hn ht,
      fun hn => TranslateSentence_no_response c _ _ _ k _ _ _ _ req cause hg hn ht⟩,
    fun k req resp cause hg ht =>
      ⟨fun hn h => GetAccountStatus_bad_response c _ _ _ k _ req resp cause hg hn ht h,
        fun hn h => TranslateSentence_bad_response c _ _ _ k _ _ _ _ req resp cause hg hn ht h⟩⟩

theorem facade_failure_witness :
    (StageFailure
        (Client.GetAccountStatus
          ⟨{ Scheme := "https", Host := "api-free.deepl.com" },
            fun _ => .error (.library "dial tcp: connection refused"),
            ⟨"os.Stderr", "[Log]", 3⟩⟩
          false "DEEPL_API_KEY" "Deepl-Go-Client" fun _ => none)
        (.fundamental "env variable for API key not set: DEEPL_API_KEY")
        "failed to get API key" ""
      ∧ (Client.GetAccountStatus
          ⟨{ Scheme := "https", Host := "api-free.deepl.com" },
            fun _ => .error (.library "dial tcp: connection refused"),
            ⟨"os.Stderr", "[Log]", 3⟩⟩
          false "DEEPL_API_KEY" "Deepl-Go-Client" fun _ => none).sent = [])
    ∧ (StageFailure
        (Client.TranslateSentence
          ⟨{ Scheme := "http", Host := "bad host" },
            fun _ => .error (.library "dial tcp: connection refused"),
            ⟨"os.Stderr", "[Log]", 3⟩⟩
          false "DEEPL_API_KEY" "Deepl-Go-Client" (fun _ => some "k") "hello" "EN" "JA")
        (.library ("parse \"http://bad%20host/v2/translate?auth_key=k&source_lang=EN"
          ++ "&target_lang=JA&text=hello\": invalid URL escape \"%20\""))
        "failed to create request" ""
      ∧ (Client.TranslateSentence
          ⟨{ Scheme := "http", Host := "bad host" },
            fun _ => .error (.library "dial tcp: connection refused"),
            ⟨"os.Stderr", "[Log]", 3⟩⟩
          false "DEEPL_API_KEY" "Deepl-Go-Client" (fun _ => some "k") "hello" "EN" "JA").sent
          = [])
    ∧ StageFailure
        (Client.GetAccountStatus
          ⟨{ Scheme := "https", Host := "api-free.deepl.com" },
            fun _ => .error (.library "dial tcp: connection refused"),
            ⟨"os.Stderr", "[Log]", 3⟩⟩
          false "DEEPL_API_KEY" "Deepl-Go-Client" fun _ => some "k")
        (.library "dial tcp: connection refused") "failed to send http request" ""
    ∧ StageFailure
        (Client.TranslateSentence
          ⟨{ Scheme := "https", Host := "api-free.deepl.com" },
            fun _ => .ok ⟨400, .ok "\x7b\"message\":\"Wrong\"\x7d"⟩,
            ⟨"os.Stderr", "[Log]", 3⟩⟩
          false "DEEPL_API_KEY" "Deepl-Go-Client" (fun _ => some "k") "hello" "EN" "JA")
        (.fundamental ("Bad request. Please check the error message and your parameters. "
          ++ "Returned message: Wrong"))
        "failed to parse response to TranslateResponse" ""
    ∧ StageFailure
        (Client.GetAccountStatus
          ⟨{ Scheme := "https", Host := "api-free.deepl.com" },
            fun _ => .ok ⟨200, .ok "not json"⟩,
            ⟨"os.Stderr", "[Log]", 3⟩⟩
          false "DEEPL_API_KEY" "Deepl-Go-Client" fun _ => some "k")
        (.withMessage (.withMessage (.json .syntaxError) "failed to decode json")
          "failed to parse JSON response")
        "failed to parse response to AccountStatus" "" :=
  ⟨((facade_failure _ false "DEEPL_API_KEY" "Deepl-Go-Client" (fun _ => none) "" "" "").1
      _ rfl).1,
    ((facade_failure _ false "DEEPL_API_KEY" "Deepl-Go-Client" (fun _ => some "k")
      "hello" "EN" "JA").2.1 "k" _ rfl).2 rfl,
    ((facade_failure _ false "DEEPL_API_KEY" "Deepl-Go-Client" (fun _ => some "k")
      "" "" "").2.2.1 "k"
      { Method := "POST",
        URL := { Scheme := "https", Host := "api-free.deepl.com", Path := "/v2/usage",
                 RawQuery := "auth_key=k" },
        Header := [], Body := none, Host := "api-free.deepl.com" } _ rfl rfl).1 rfl,
    ((facade_failure _ false "DEEPL_API_KEY" "Deepl-Go-Client" (fun _ => some "k")
      "hello" "EN" "JA").2.2.2 "k"
      { Method := "POST",
        URL := { Scheme := "https", Host := "api-free.deepl.com", Path := "/v2/translate",
                 RawQuery := "auth_key=k&source_lang=EN&target_lang=JA&text=hello" },
        Header := [], Body := none, Host := "api-free.deepl.com" }
      ⟨400, .ok "\x7b\"message\":\"Wrong\"\x7d"⟩ _ rfl rfl).2 rfl rfl,
    ((facade_failure _ false "DEEPL_API_KEY" "Deepl-Go-Client" (fun _ => some "k")
      "" "" "").2.2.2 "k"
      { Method := "POST",
        URL := { Scheme := "https", Host := "api-free.deepl.com", Path := "/v2/usage",
                 RawQuery := "auth_key=k" },
        Header := [], Body := none, Host := "api-free.deepl.com" }
      ⟨200, .ok "not json"⟩ _ rfl rfl).1 rfl rfl⟩

/-- C18: for status 200 and a body that is the JSON text of an object whose
member `translations` is an array of objects with the string members
`detected_source_language` and `text`, the classification of the response
into a `TranslateResponse`, whatever it held before, returns no error and the
translations of the array, one for each element and in the order of the array;
the last step of `TranslateSentence` returns that value. -/
theorem treatBodyAsErr_translations (appendErrPos : Bool) (body : String) (js : List JSON)
    (ts : List translation) (out : TranslateResponse)
    (hbody : parseJSON body = some (.obj [("translations", .arr js)]))
    (hts : List.Forall₂ IsTranslationJSON js ts) :
    treatBodyAsErr appendErrPos 200 body out = (⟨ts⟩, none)
      ∧ translateResponseFromResponse appendErrPos ⟨200, .ok body⟩ = (some ⟨ts⟩, none)
      ∧ ts.length = js.length
      ∧ ∀ i (hi : i < js.length) (hi2 : i < ts.length),
          IsTranslationJSON (js.get ⟨i, hi⟩) (ts.get ⟨i, hi2⟩) := by
  have h1 : ∀ o : TranslateResponse, treatBodyAsErr appendErrPos 200 body o = (⟨ts⟩, none) := by
    intro o
    rw [treatBodyAsErr_status_ok, jsonUnmarshal_translations body js ts o hbody hts]
    rfl
  refine ⟨h1 out, ?_, hts.length_eq.symm, ?_⟩
  · simp only [translateResponseFromResponse, responseParse, h1]
  · intro i hi hi2
    exact List.Forall₂.get hts hi hi2

theorem treatBodyAsErr_translations_witness :
    treatBodyAsErr true 200
        "\x7b\"translations\":[\x7b\"detected_source_language\":\"EN\",\"text\":\"こんにちわ\"\x7d]\x7d"
        (Unmarshal.zero : TranslateResponse)
      = (⟨[⟨"EN", "こんにちわ"⟩]⟩, none)
    ∧ treatBodyAsErr true 200
        ("\x7b \"translations\": [ \x7b\"text\":\"Hallo\", \"detected_source_language\":\"EN\"\x7d,"
          ++ " \x7b\"detected_source_language\":\"JA\", \"text\":\"Welt\"\x7d ] \x7d")
        (⟨[⟨"old", "old"⟩, ⟨"old", "old"⟩, ⟨"old", "old"⟩]⟩ : TranslateResponse)
      = (⟨[⟨"EN", "Hallo"⟩, ⟨"JA", "Welt"⟩]⟩, none) :=
  ⟨(treatBodyAsErr_translations true
      "\x7b\"translations\":[\x7b\"detected_source_language\":\"EN\",\"text\":\"こんにちわ\"\x7d]\x7d"
      [.obj [("detected_source_language", .str "EN"), ("text", .str "こんにちわ")]]
      [⟨"EN", "こんにちわ"⟩] Unmarshal.zero rfl (.cons (.inl rfl) .nil)).1,
    (treatBodyAsErr_translations true
      ("\x7b \"translations\": [ \x7b\"text\":\"Hallo\", \"detected_source_language\":\"EN\"\x7d,"
        ++ " \x7b\"detected_source_language\":\"JA\", \"text\":\"Welt\"\x7d ] \x7d")
      [.obj [("text", .str "Hallo"), ("detected_source_language", .str "EN")],
        .obj [("detected_source_language", .str "JA"), ("text", .str "Welt")]]
      [⟨"EN", "Hallo"⟩, ⟨"JA", "Welt"⟩] ⟨[⟨"old", "old"⟩, ⟨"old", "old"⟩, ⟨"old", "old"⟩]⟩ rfl
      (.cons (.inr rfl) (.cons (.inl rfl) .nil))).1⟩

/-- C19, as stated it fails: a base URL that parses need not render back as
the string it was parsed from. With the override `HTTP://localhost:8080` the
client holds a URL that renders as `http://localhost:8080`, and with the
override `http://localhost:8080/a b#` one that renders as
`http://localhost:8080/a%20b`. -/
theorem New_BaseURL_not_rendered_back :
    ((New true "HTTP://localhost:8080" (fun _ => .error (.library "no transport")) APIFree
        none).1.map fun c => c.BaseURL.String) = some "http://localhost:8080"
      ∧ (New true "HTTP://localhost:8080" (fun _ => .error (.library "no transport")) APIFree
        none).2 = none
      ∧ APIFree.BaseURL "HTTP://localhost:8080" = "HTTP://localhost:8080"
      ∧ ((New true "http://localhost:8080/a b#" (fun _ => .error (.library "no transport"))
        APICustom none).1.map fun c => c.BaseURL.String) = some "http://localhost:8080/a%20b" := by
  decide

/-- C19 (amended): when the resolved base URL does not parse, `New` returns a
nil client and the parse error with `failed to parse URL` put in front, so the
message contains the label and the message of the parse error; a control
character before the fragment is such a failure, with the message `invalid
control character in URL`; when the resolved base URL parses, `New` returns no
error and a client whose `BaseURL` is the parsed URL; for `APIFree` and `APIPro`
without override that URL renders back as the resolved string. -/
theorem New_cases (appendErrPos : Bool) (baseURLCustom : String)
    (defaultClient : Request → Except GoError Response) (apiType : APIType)
    (logger : Option Logger) :
    (∀ cause, Parse (apiType.BaseURL baseURLCustom) = .error cause →
        (New appendErrPos baseURLCustom defaultClient apiType logger).1.isNone = true
        ∧ (New appendErrPos baseURLCustom defaultClient apiType logger).2
          = some (.withMessage cause
              ("failed to parse URL" ++ getErrorPos appendErrPos ⟨"client.go", 35⟩))
        ∧ errorStartsWith (New appendErrPos baseURLCustom defaultClient apiType logger).2
            "failed to parse URL"
        ∧ errorContains (New appendErrPos baseURLCustom defaultClient apiType logger).2
            cause.Error)
    ∧ (stringContainsCTLByte (cutChar '#' (apiType.BaseURL baseURLCustom).data).1 = true →
        (New appendErrPos baseURLCustom defaultClient apiType logger).1.isNone = true
        ∧ errorStartsWith (New appendErrPos baseURLCustom defaultClient apiType logger).2
            "failed to parse URL"
        ∧ errorContains (New appendErrPos baseURLCustom defaultClient apiType logger).2
            "invalid control character in URL")
    ∧ (∀ u, Parse (apiType.BaseURL baseURLCustom) = .ok u →
        (New appendErrPos baseURLCustom defaultClient apiType logger).2 = none
        ∧ (New appendErrPos baseURLCustom defaultClient apiType logger).1.map
            (fun c => c.BaseURL) = some u)
    ∧ ((New appendErrPos "" defaultClient APIFree logger).1.map fun c => c.BaseURL.String)
        = some "https://api-free.deepl.com"
    ∧ ((New appendErrPos "" defaultClient APIPro logger).1.map fun c => c.BaseURL.String)
        = some "https://api.deepl.com"
    ∧ (New appendErrPos "" defaultClient APIFree logger).2 = none
    ∧ (New appendErrPos "" defaultClient APIPro logger).2 = none := by
  refine ⟨?_, ?_, ?_, rfl, rfl, rfl, rfl⟩
  · intro cause h
    rw [New_failure _ _ _ _ _ cause h]
    exact ⟨rfl, rfl, errorStartsWith_withMessage _ _ _,
      errorContains_withMessage_cause _ _ _ (errorContains_self _)⟩
  · intro h
    rw [New_failure _ _ _ _ _ _ (Parse_control_character _ h)]
    refine ⟨rfl, errorStartsWith_withMessage _ _ _, errorContains_withMessage_cause _ _ _ ?_⟩
    have h2 := errorContains_parseError (cutChar '#' (apiType.BaseURL baseURLCustom).data).1
      (.library "net/url: invalid control character in URL")
    simp only [errorContains, GoError.Error] at h2 ⊢
    exact List.IsInfix.trans (by decide) h2
  · intro u h
    rw [New_success _ _ _ _ _ u h]
    exact ⟨rfl, rfl⟩

theorem New_cases_witness :
    (New true "http://badurl.with.control.char/\n" (fun _ => .error (.library "no transport"))
        APIFree none).1.isNone = true
    ∧ errorStartsWith
        (New true "http://badurl.with.control.char/\n" (fun _ => .error (.library "no transport"))
          APIFree none).2 "failed to parse URL"
    ∧ errorContains
        (New true "http://badurl.with.control.char/\n" (fun _ => .error (.library "no transport"))
          APIFree none).2 "invalid control character in URL"
    ∧ (New true "http://badurl.with.control.char/\n" (fun _ => .error (.library "no transport"))
          APIFree none).2.map GoError.Error
        = some ("failed to parse URL (file: client.go, line: 35): "
            ++ "parse \"http://badurl.with.control.char/\\n\": "
            ++ "net/url: invalid control character in URL")
    ∧ ((New true "http://localhost:8080/api" (fun _ => .error (.library "no transport"))
          APICustom none).1.map fun c => c.BaseURL)
        = some { Scheme := "http", Host := "localhost:8080", Path := "/api" } :=
  ⟨((New_cases true "http://badurl.with.control.char/\n"
      (fun _ => .error (.library "no transport")) APIFree none).2.1 (by decide)).1,
    ((New_cases true "http://badurl.with.control.char/\n"
      (fun _ => .error (.library "no transport")) APIFree none).2.1 (by decide)).2.1,
    ((New_cases true "http://badurl.with.control.char/\n"
      (fun _ => .error (.library "no transport")) APIFree none).2.1 (by decide)).2.2,
    by decide,
    ((New_cases true "http://localhost:8080/api"
      (fun _ => .error (.library "no transport")) APICustom none).2.2.1 _ rfl).2⟩

/-- C20: with a format and more operands than the format uses, the position
suffix is not at the end of the message of `NewErr`: the suffix is added to the
format before `Sprintf` reads it, so what `Sprintf` reports about the unused
operands comes after the position. `NewErr("error", 5)` called from line 10 of
`x.go` gives `error (file: x.go, line: 10)%!(EXTRA int=5)`, whereas
`Sprintf("error", 5)` followed by the position is
`error%!(EXTRA int=5) (file: x.go, line: 10)`; likewise for
`NewErr("%d items", 3, 4)`. -/
theorem NewErr_position_inside_format :
    (NewErr true ⟨"x.go", 10⟩ [.str "error", .int 5]).map GoError.Error
        = some "error (file: x.go, line: 10)%!(EXTRA int=5)"
      ∧ Sprintf "error" [.int 5] ++ getErrorPos true ⟨"x.go", 10⟩
        = "error%!(EXTRA int=5) (file: x.go, line: 10)"
      ∧ (NewErr true ⟨"x.go", 10⟩ [.str "%d items", .int 3, .int 4]).map GoError.Error
        = some "3 items (file: x.go, line: 10)%!(EXTRA int=4)"
      ∧ Sprintf "%d items" [.int 3, .int 4] ++ getErrorPos true ⟨"x.go", 10⟩
        = "3 items%!(EXTRA int=4) (file: x.go, line: 10)" := by
  decide

/-- C21: `WrapIfErr` returns nil for a nil error whatever the messages are; for
a non-nil error and at least one message it returns a non-nil error whose
message is `fmtArgs(msgs...)`, the position suffix, `: ` and the message of the
error, so the message of the cause is the tail; the suffix is empty when
`AppendErrPos` is false. Wrapping `error occurred at line 75` with `wrapped at
line 76` gives `wrapped at line 76: error occurred at line 75`. -/
theorem WrapIfErr_message (appendErrPos : Bool) (caller : Caller) :
    (∀ msgs, WrapIfErr appendErrPos caller none msgs = none)
      ∧ (∀ (e : GoError) (m : Arg) (ms : List Arg),
          (WrapIfErr appendErrPos caller (some e) (m :: ms)).map GoError.Error
              = some (fmtArgs (m :: ms) ++ getErrorPos appendErrPos caller ++ ": " ++ e.Error)
            ∧ ∀ r, WrapIfErr appendErrPos caller (some e) (m :: ms) = some r →
                (": " ++ e.Error).data <:+ r.Error.data)
      ∧ getErrorPos false caller = ""
      ∧ (WrapIfErr false ⟨"examples_test.go", 76⟩
            (NewErr false ⟨"examples_test.go", 75⟩ [.str "error occurred at line 75"])
            [.str "wrapped at line 76"]).map GoError.Error
          = some "wrapped at line 76: error occurred at line 75"
      ∧ (WrapIfErr true ⟨"examples_test.go", 82⟩
            (NewErr true ⟨"examples_test.go", 81⟩ [.str "error occurred at line 81"])
            [.str "wrapped at line 82"]).map GoError.Error
          = some ("wrapped at line 82 (file: examples_test.go, line: 82): "
              ++ "error occurred at line 81 (file: examples_test.go, line: 81)") := by
  refine ⟨fun _ => rfl, ?_, rfl, by decide, by decide⟩
  intro e m ms
  refine ⟨rfl, ?_⟩
  intro r hr
  simp only [WrapIfErr, Option.some.injEq] at hr
  subst hr
  simp only [GoError.Error, String.data_append, List.append_assoc]
  exact (List.suffix_append _ _).trans (List.suffix_append _ _)

/-- C22: for a non-nil error and no message, `WrapIfErr` does not return the
error itself: it returns the value of `fmt.Errorf("%w", err)`, a new error that
wraps the given one and has the same message. With `err` the error of
`NewErr("error occurred at line 52")` the result is a layer around `err`. -/
theorem WrapIfErr_no_message_adds_layer (appendErrPos : Bool) (caller : Caller) (e : GoError) :
    WrapIfErr appendErrPos caller (some e) [] = some (.wrapError e)
      ∧ WrapIfErr appendErrPos caller (some e) [] ≠ some e
      ∧ (WrapIfErr appendErrPos caller (some e) []).map GoError.Error = some e.Error
      ∧ WrapIfErr true ⟨"examples_test.go", 54⟩
          (some (.fundamental "error occurred at line 52 (file: examples_test.go, line: 52)")) []
        = some (.wrapError
            (.fundamental "error occurred at line 52 (file: examples_test.go, line: 52)"))
      ∧ NewErr true ⟨"examples_test.go", 52⟩ [.str "error occurred at line 52"]
        = some (.fundamental "error occurred at line 52 (file: examples_test.go, line: 52)") := by
  refine ⟨rfl, ?_, rfl, rfl, by decide⟩
  intro h
  simp only [WrapIfErr, Option.some.injEq] at h
  have := congrArg sizeOf h
  simp at this

/-- C23: `GetAccountStatus` and `TranslateSentence` leave the client as it was,
whatever the outcome of the call: the statements that build the request URL
assign the local copy `reqURL` only, so the client after the call is the client
before it and its `BaseURL` has the same path and query; a second call with the
same key and arguments builds the same request URL, and after any number of
calls the client is still the one before the first. -/
theorem facade_keeps_client (c : Client) (appendErrPos : Bool) (name userAgent : String)
    (env : String → Option String) (text sourceLang targetLang : String) :
    ((c.GetAccountStatusRun appendErrPos name userAgent env).2 = c
        ∧ (c.GetAccountStatusRun appendErrPos name userAgent env).2.BaseURL.Path
            = c.BaseURL.Path
        ∧ (c.GetAccountStatusRun appendErrPos name userAgent env).2.BaseURL.RawQuery
            = c.BaseURL.RawQuery)
      ∧ ((c.TranslateSentenceRun appendErrPos name userAgent env text sourceLang targetLang).2
            = c
        ∧ (c.TranslateSentenceRun appendErrPos name userAgent env text sourceLang
            targetLang).2.BaseURL.Path = c.BaseURL.Path
        ∧ (c.TranslateSentenceRun appendErrPos name userAgent env text sourceLang
            targetLang).2.BaseURL.RawQuery = c.BaseURL.RawQuery)
      ∧ (∀ k, (accountStatusVars c k).c = c
          ∧ (translateVars c k text sourceLang targetLang).c = c
          ∧ (accountStatusVars c k).reqURL = accountStatusURL c.BaseURL k
          ∧ (translateVars c k text sourceLang targetLang).reqURL
              = translateURL c.BaseURL k text sourceLang targetLang)
      ∧ (∀ k,
          (accountStatusVars (c.GetAccountStatusRun appendErrPos name userAgent env).2 k).reqURL
              = (accountStatusVars c k).reqURL
          ∧ (translateVars
                (c.TranslateSentenceRun appendErrPos name userAgent env text sourceLang
                  targetLang).2 k text sourceLang targetLang).reqURL
              = (translateVars c k text sourceLang targetLang).reqURL
          ∧ (accountStatusVars
                (c.TranslateSentenceRun appendErrPos name userAgent env text sourceLang
                  targetLang).2 k).reqURL
              = (accountStatusVars c k).reqURL)
      ∧ (∀ n : Nat,
          Nat.iterate (fun x : Client => (x.GetAccountStatusRun appendErrPos name userAgent env).2)
              n c = c
          ∧ Nat.iterate
              (fun x : Client =>
                (x.TranslateSentenceRun appendErrPos name userAgent env text sourceLang
                  targetLang).2) n c = c)
      ∧ (c.GetAccountStatusRun appendErrPos name userAgent env).1
          = c.GetAccountStatus appendErrPos name userAgent env
      ∧ (c.TranslateSentenceRun appendErrPos name userAgent env text sourceLang targetLang).1
          = c.TranslateSentence appendErrPos name userAgent env text sourceLang targetLang := by
  have hg : ∀ x : Client, (x.GetAccountStatusRun appendErrPos name userAgent env).2 = x :=
    fun x => by rw [GetAccountStatusRun_eq]
  have ht : ∀ x : Client,
      (x.TranslateSentenceRun appendErrPos name userAgent env text sourceLang targetLang).2
        = x := fun x => by rw [TranslateSentenceRun_eq]
  refine ⟨⟨hg c, by rw [hg c], by rw [hg c]⟩, ⟨ht c, by rw [ht c], by rw [ht c]⟩,
    fun k => ⟨rfl, rfl, rfl, rfl⟩, fun k => ⟨by rw [hg c], by rw [ht c], by rw [ht c]⟩, ?_,
    by rw [GetAccountStatusRun_eq], by rw [TranslateSentenceRun_eq]⟩
  intro n
  constructor
  · induction n with
    | zero => rfl
    | succ n ih => rw [Function.iterate_succ_apply', ih, hg c]
  · induction n with
    | zero => rfl
    | succ n ih => rw [Function.iterate_succ_apply', ih, ht c]

theorem facade_keeps_client_witness :
    (Client.GetAccountStatusRun
          ⟨{ Scheme := "https", Host := "api-free.deepl.com" },
            fun _ => .ok ⟨200, .ok "\x7b\"character_count\":10,\"character_limit\":20\x7d"⟩,
            ⟨"os.Stderr", "[Log]", 3⟩⟩
          true "DEEPL_API_KEY" "Deepl-Go-Client" fun _ => some "k").2.BaseURL.String
        = "https://api-free.deepl.com"
    ∧ (accountStatusVars
          (Client.GetAccountStatusRun
            ⟨{ Scheme := "https", Host := "api-free.deepl.com" },
              fun _ => .ok ⟨200, .ok "\x7b\"character_count\":10,\"character_limit\":20\x7d"⟩,
              ⟨"os.Stderr", "[Log]", 3⟩⟩
            true "DEEPL_API_KEY" "Deepl-Go-Client" fun _ => some "k").2 "k").reqURL.String
        = "https://api-free.deepl.com/v2/usage?auth_key=k"
    ∧ (Client.TranslateSentenceRun
          ⟨{ Scheme := "http", Host := "localhost:8080", Path := "/api", RawQuery := "x=1" },
            fun _ => .error (.library "dial tcp: connection refused"),
            ⟨"os.Stderr", "[Log]", 3⟩⟩
          true "DEEPL_API_KEY" "Deepl-Go-Client" (fun _ => some "k") "hello" "EN"
          "JA").2.BaseURL.String
        = "http://localhost:8080/api?x=1"
    ∧ (accountStatusURL (accountStatusURL { Scheme := "https", Host := "api-free.deepl.com" }
          "k") "k").String
        = "https://api-free.deepl.com/v2/usage/v2/usage?auth_key=k&auth_key=k" :=
  ⟨congrArg (fun x : Client => x.BaseURL.String)
      (facade_keeps_client
        ⟨{ Scheme := "https", Host := "api-free.deepl.com" },
          fun _ => .ok ⟨200, .ok "\x7b\"character_count\":10,\"character_limit\":20\x7d"⟩,
          ⟨"os.Stderr", "[Log]", 3⟩⟩
        true "DEEPL_API_KEY" "Deepl-Go-Client" (fun _ => some "k") "" "" "").1.1,
    congrArg URL.String
      ((facade_keeps_client
        ⟨{ Scheme := "https", Host := "api-free.deepl.com" },
          fun _ => .ok ⟨200, .ok "\x7b\"character_count\":10,\"character_limit\":20\x7d"⟩,
          ⟨"os.Stderr", "[Log]", 3⟩⟩
        true "DEEPL_API_KEY" "Deepl-Go-Client" (fun _ => some "k") "" "" "").2.2.2.1 "k").1,
    congrArg (fun x : Client => x.BaseURL.String)
      (facade_keeps_client
        ⟨{ Scheme := "http", Host := "localhost:8080", Path := "/api", RawQuery := "x=1" },
          fun _ => .error (.library "dial tcp: connection refused"),
          ⟨"os.Stderr", "[Log]", 3⟩⟩
        true "DEEPL_API_KEY" "Deepl-Go-Client" (fun _ => some "k") "hello" "EN" "JA").2.1.1,
    by decide⟩

end Deepl
